import Mathlib

/-!
# infras-webgis: tabular schema mapper and geometry ingestion normalizer

A shallow embedding of `src/js/utils.js` (`autoMapColumns`, `mappedRowToFeature`,
`coerceNum`, `parseDate`), of `ingestRows` in `src/main.js`, and of the coordinate
heuristics of `src/js/layers.js` (`analyzeCoordinates`, `calculateBounds`,
`isFarFromCurrentView`, `scaleCoordinates`, `swapCoordinates`).

Conventions of the embedding.

* JavaScript numbers are exact: a finite number is a rational, `NaN` and the two
  infinities are separate values.  Rounding and overflow of binary64 are not modelled,
  and `-0` is identified with `0`.
* JavaScript strings are Lean strings, read as lists of characters.
* An object with string keys (a spreadsheet row, a property bag) is the list of its
  own properties in the order `Object.keys` enumerates them.
* In-place mutation of a document is a function from the document to the mutated
  document; a call that throws is `Except.error`.
* Documents are those of the GeoJSON data model: a `FeatureCollection` has an array of
  feature objects, and a `coordinates` member that is present is an array nested to the
  depth of the type of its geometry, every position being an array of scalar values, of
  any length.  A `coordinates` member may be absent.  Documents malformed in another way
  (a position or a ring that is `null`, a collection without a `features` array, a
  feature that is `null`) have no counterpart in the embedding, and no theorem below
  speaks about them.
-/

namespace InfrasWebGIS

/-! ## JavaScript values -/

/-- A JavaScript number under exact arithmetic. -/
inductive JSNum where
  | fin (q : ℚ)
  | nan
  | posInf
  | negInf
  deriving DecidableEq, Repr

/-- The scalar JavaScript values a spreadsheet cell or a coordinate component can hold. -/
inductive JSVal where
  | undefined
  | null
  | bool (b : Bool)
  | num (n : JSNum)
  | str (s : String)
  deriving DecidableEq, Repr

/-- The errors a call can throw. -/
inductive JSError where
  | TypeError
  deriving DecidableEq, Repr

namespace JSNum

/-- The predicate `Number.isFinite` on a number. -/
def isFinite : JSNum → Bool
  | fin _ => true
  | _ => false

/-- The predicate `Number.isNaN` on a number. -/
def isNaN : JSNum → Bool
  | nan => true
  | _ => false

/-- The function `Math.abs` on a number. -/
def abs : JSNum → JSNum
  | fin q => fin |q|
  | nan => nan
  | posInf => posInf
  | negInf => posInf

/-- The relation `a < b` on numbers; every comparison with `NaN` is false. -/
def lt : JSNum → JSNum → Bool
  | fin a, fin b => decide (a < b)
  | fin _, posInf => true
  | negInf, fin _ => true
  | negInf, posInf => true
  | _, _ => false

/-- The relation `a > b` on numbers. -/
def gt (a b : JSNum) : Bool := lt b a

/-- The relation `a <= b` on numbers; every comparison with `NaN` is false. -/
def le (a b : JSNum) : Bool := !a.isNaN && !b.isNaN && !lt b a

/-- The function `Math.max` on two numbers: `NaN` when either is `NaN`. -/
def max : JSNum → JSNum → JSNum
  | nan, _ => nan
  | _, nan => nan
  | a, b => if lt a b then b else a

/-- The function `Math.min` on two numbers: `NaN` when either is `NaN`. -/
def min : JSNum → JSNum → JSNum
  | nan, _ => nan
  | _, nan => nan
  | a, b => if lt b a then b else a

/-- The product `a * b` of two numbers. -/
def mul : JSNum → JSNum → JSNum
  | fin a, fin b => fin (a * b)
  | nan, _ => nan
  | _, nan => nan
  | fin a, posInf => if a = 0 then nan else if 0 < a then posInf else negInf
  | fin a, negInf => if a = 0 then nan else if 0 < a then negInf else posInf
  | posInf, fin b => if b = 0 then nan else if 0 < b then posInf else negInf
  | negInf, fin b => if b = 0 then nan else if 0 < b then negInf else posInf
  | posInf, posInf => posInf
  | negInf, negInf => posInf
  | posInf, negInf => negInf
  | negInf, posInf => negInf

/-- The sum `a + b` of two numbers. -/
def add : JSNum → JSNum → JSNum
  | fin a, fin b => fin (a + b)
  | nan, _ => nan
  | _, nan => nan
  | posInf, negInf => nan
  | negInf, posInf => nan
  | posInf, _ => posInf
  | negInf, _ => negInf
  | _, posInf => posInf
  | _, negInf => negInf

/-- The quotient `a / d` of a number by a non-zero finite literal `d`. -/
def divLit (a : JSNum) (d : ℚ) : JSNum := mul a (fin (1 / d))

end JSNum

/-! ## Strings and `Number(string)` -/

/-- White space and line terminators: what `String.prototype.trim` removes, what `\s`
matches, and what `StringToNumber` skips at both ends. -/
def isJSWhiteSpace (c : Char) : Bool :=
  let n := c.toNat
  n = 0x09 || n = 0x0A || n = 0x0B || n = 0x0C || n = 0x0D || n = 0x20 || n = 0xA0 ||
  n = 0x1680 || (0x2000 ≤ n && n ≤ 0x200A) || n = 0x2028 || n = 0x2029 || n = 0x202F ||
  n = 0x205F || n = 0x3000 || n = 0xFEFF

/-- The method `String.prototype.trim`, on the characters of a string. -/
def trimChars (cs : List Char) : List Char :=
  ((cs.dropWhile isJSWhiteSpace).reverse.dropWhile isJSWhiteSpace).reverse

/-- Decimal digit test. -/
def isDecDigit (c : Char) : Bool := decide (48 ≤ c.toNat) && decide (c.toNat ≤ 57)

/-- Value of a digit character in a radix up to sixteen, if it is one. -/
def digitValue (radix : Nat) (c : Char) : Option Nat :=
  let n := c.toNat
  let v : Option Nat :=
    if 48 ≤ n ∧ n ≤ 57 then some (n - 48)
    else if 97 ≤ n ∧ n ≤ 102 then some (n - 87)
    else if 65 ≤ n ∧ n ≤ 70 then some (n - 55)
    else none
  match v with
  | some d => if d < radix then some d else none
  | none => none

/-- Value of a non-empty run of digits in the given radix; `none` if a character is not a
digit of that radix or the run is empty. -/
def digitsValue (radix : Nat) (cs : List Char) : Option Nat :=
  match cs with
  | [] => none
  | _ => cs.foldl (fun acc c =>
      match acc, digitValue radix c with
      | some a, some d => some (a * radix + d)
      | _, _ => none) (some 0)

/-- The exponent part of a decimal literal (the text after `e` or `E`): an optional sign
and a non-empty run of decimal digits. -/
def parseExponent (cs : List Char) : Option ℤ :=
  match cs with
  | '+' :: t => (digitsValue 10 t).map Int.ofNat
  | '-' :: t => (digitsValue 10 t).map (fun n => - Int.ofNat n)
  | t => (digitsValue 10 t).map Int.ofNat

/-- The grammar `StrUnsignedDecimalLiteral` without `Infinity`: digits with an optional
fraction, or a fraction alone, and an optional exponent. -/
def parseUnsignedDecimal (cs : List Char) : Option ℚ :=
  let ip := cs.takeWhile isDecDigit
  let r1 := cs.dropWhile isDecDigit
  let fp := match r1 with
    | '.' :: t => t.takeWhile isDecDigit
    | _ => []
  let r2 := match r1 with
    | '.' :: t => t.dropWhile isDecDigit
    | _ => r1
  if ip = [] ∧ fp = [] then none
  else
    let mant : ℚ := ((ip ++ fp).foldl (fun a c => a * 10 + (c.toNat - 48)) 0 : Nat)
    let m : ℚ := mant / (10 : ℚ) ^ fp.length
    match r2 with
    | [] => some m
    | e :: t =>
      if e = 'e' ∨ e = 'E' then
        match parseExponent t with
        | some x => some (m * (10 : ℚ) ^ x)
        | none => none
      else none

/-- The grammar `StrDecimalLiteral`: an optional sign before `Infinity` or an unsigned
decimal literal. -/
def parseDecimal (cs : List Char) : JSNum :=
  let body (t : List Char) (neg : Bool) : JSNum :=
    if t = "Infinity".toList then (if neg then JSNum.negInf else JSNum.posInf)
    else match parseUnsignedDecimal t with
      | some q => JSNum.fin (if neg then -q else q)
      | none => JSNum.nan
  match cs with
  | '+' :: t => body t false
  | '-' :: t => body t true
  | t => body t false

/-- The abstract operation `StringToNumber`: the value of `Number(s)` for a string. -/
def stringToNumber (s : String) : JSNum :=
  match trimChars s.toList with
  | [] => JSNum.fin 0
  | '0' :: x :: t =>
    let radix : Option Nat :=
      if x = 'x' ∨ x = 'X' then some 16
      else if x = 'o' ∨ x = 'O' then some 8
      else if x = 'b' ∨ x = 'B' then some 2
      else none
    match radix with
    | some r =>
      match digitsValue r t with
      | some n => JSNum.fin n
      | none => JSNum.nan
    | none => parseDecimal ('0' :: x :: t)
  | cs => parseDecimal cs

namespace JSVal

/-- The abstract operation `ToNumber`, the value of `Number(v)`. -/
def toNumber : JSVal → JSNum
  | undefined => JSNum.nan
  | null => JSNum.fin 0
  | bool b => JSNum.fin (if b then 1 else 0)
  | num n => n
  | str s => stringToNumber s

/-- The abstract operation `ToBoolean`: truthiness. -/
def truthy : JSVal → Bool
  | undefined => false
  | null => false
  | bool b => b
  | num (JSNum.fin q) => decide (q ≠ 0)
  | num JSNum.nan => false
  | num _ => true
  | str s => decide (s ≠ "")

/-- The test `v == null`: true for `null` and `undefined` only. -/
def looselyNull : JSVal → Bool
  | undefined => true
  | null => true
  | _ => false

end JSVal

/-- The global function `isFinite(v)`: it converts its argument with `ToNumber` first. -/
def isFinite (v : JSVal) : Bool := v.toNumber.isFinite

/-! ## GeoJSON documents -/

/-- A position: the array of components of one coordinate; any number of components, of
any scalar kind.  A position that is not an array is not represented. -/
abbrev Position := List JSVal

/-- The element `a[i]` of an array: `undefined` past the end. -/
def elemAt (a : List JSVal) (i : Nat) : JSVal := a.getD i JSVal.undefined

/-- A geometry object, by its `type`; the `coordinates` member is `none` when the object
has no such member, and has the nesting depth of the type otherwise.  A geometry whose
`type` is none of the six is `other`.  A `coordinates` member that is present but is not
an array nested to that depth (a `null` ring or position, say) is not represented. -/
inductive Geometry where
  | Point (coordinates : Option Position)
  | LineString (coordinates : Option (List Position))
  | MultiPoint (coordinates : Option (List Position))
  | Polygon (coordinates : Option (List (List Position)))
  | MultiLineString (coordinates : Option (List (List Position)))
  | MultiPolygon (coordinates : Option (List (List (List Position))))
  | other (type : String)
  deriving DecidableEq, Repr

/-- A GeoJSON Feature: `geometry` is `none` when it is `null` or missing; `properties` is
the property bag, and `extra` the members the code never reads (such as `id`). -/
structure Feature where
  geometry : Option Geometry
  properties : List (String × JSVal)
  extra : List (String × JSVal) := []
  deriving DecidableEq, Repr

/-- A document handed to the normalizer, by its `type`.  A `FeatureCollection` carries
its array of feature objects; a collection without a `features` array, or with an entry
that is not an object, is not represented. -/
inductive GeoData where
  | FeatureCollection (features : List Feature)
  | Feature (feature : InfrasWebGIS.Feature)
  | other (type : String)
  deriving DecidableEq, Repr

/-! ## `src/js/utils.js`: the tabular schema mapper -/

/-- A spreadsheet row: its cells by column name, in `Object.keys` order. -/
abbrev Row := List (String × JSVal)

/-- The function `Object.keys` on a row. -/
def objectKeys (r : Row) : List String := r.map Prod.fst

/-- The member access `r[key]`: `undefined` when the row has no such column. -/
def Row.get (r : Row) (key : String) : JSVal :=
  match r.lookup key with
  | some v => v
  | none => JSVal.undefined

/-- The eleven semantic keys of a column mapping. -/
inductive SemKey where
  | lat | lon | name | type | location | cost | status | startDate | endDate
  | contractor | description
  deriving DecidableEq, Repr

/-- A column mapping: each semantic key is a column name or `null`. -/
abbrev Mapping := SemKey → Option String

/-- The keys of the mapping object, in the order of its literal. -/
def mapKeys : List SemKey :=
  [.lat, .lon, .name, .type, .location, .cost, .status, .startDate, .endDate,
   .contractor, .description]

/-- The property key a mapping entry denotes in `r[map.k]`: `null` is the key "null". -/
def propertyKey : Option String → String
  | some c => c
  | none => "null"

/-- The table `COL_ALIASES`. -/
def COL_ALIASES : SemKey → List String
  | .lat => ["lat", "latitude", "y", "y_coord", "ycoord", "lat_deg"]
  | .lon => ["lon", "lng", "long", "longitude", "x", "x_coord", "xcoord", "lon_deg"]
  | .name => ["name", "project", "title", "facility", "asset"]
  | .type => ["type", "category", "class", "project_type"]
  | .location => ["location", "district", "county", "city", "region", "state", "province"]
  | .cost => ["cost", "amount", "budget", "value", "capex", "estimate"]
  | .status => ["status", "phase", "stage", "state", "progress"]
  | .startDate => ["start_date", "startdate", "start", "begin", "commenced", "project_start"]
  | .endDate => ["end_date", "enddate", "end", "finish", "completed", "project_end"]
  | .contractor => ["contractor", "vendor", "company", "firm", "builder", "developer"]
  | .description => ["description", "desc", "summary", "scope", "details", "notes"]

/-- The class `[a-z0-9]`. -/
def isLowerAlnum (c : Char) : Bool :=
  (decide (97 ≤ c.toNat) && decide (c.toNat ≤ 122)) || (decide (48 ≤ c.toNat) && decide (c.toNat ≤ 57))

/-- The call `.replace(/[^a-z0-9]+/g, '')`: every character outside `[a-z0-9]` is deleted. -/
def stripNonAlnum (cs : List Char) : List Char := cs.filter isLowerAlnum

/-- Lower-case image of one character under `String.prototype.toLowerCase`.  It is exact
for every character whose image contains a character of `[a-z0-9]`: the letters `A`-`Z`,
U+0130 (whose image is `i` followed by U+0307) and U+212A (the Kelvin sign, whose image is
`k`).  Every other character is left as it is: its image lies outside `[a-z0-9]`, as it
does itself, and the only caller deletes such characters. -/
def lowerChar (c : Char) : List Char :=
  if 65 ≤ c.toNat ∧ c.toNat ≤ 90 then [Char.ofNat (c.toNat + 32)]
  else if c.toNat = 0x130 then ['i', Char.ofNat 0x307]
  else if c.toNat = 0x212A then ['k']
  else [c]

/-- The method `String.prototype.toLowerCase`, on the characters of a string. -/
def toLowerCase (cs : List Char) : List Char := cs.flatMap lowerChar

/-- The local function `norm` of `autoMapColumns`:
`String(s||'').trim().toLowerCase().replace(/[^a-z0-9]+/g,'')`. -/
def norm (s : String) : String :=
  let s1 : String := if s ≠ "" then s else ""
  String.mk (stripNonAlnum (toLowerCase (trimChars s1.toList)))

/-- The table `aliasMap` of `autoMapColumns`: each alias through
`a.replace(/[^a-z0-9]+/g,'').toLowerCase()`. -/
def aliasMap (k : SemKey) : List String :=
  (COL_ALIASES k).map (fun a => String.mk (toLowerCase (stripNonAlnum a.toList)))

/-- The function `autoMapColumns(rows)`. -/
def autoMapColumns (rows : List Row) : Mapping :=
  let cols := objectKeys (rows.head?.getD [])
  let map0 : Mapping := fun _ => none
  let find := fun (keys : List String) => cols.find? (fun c => keys.contains (norm c))
  mapKeys.foldl (fun map k =>
    match find (aliasMap k) with
    | some c => if c ≠ "" then Function.update map k (some c) else map
    | none => map) map0

/-- The `properties` of a record built by `mappedRowToFeature`. -/
structure Properties where
  name : JSVal
  type : JSVal
  location : JSVal
  cost : JSVal
  status : JSVal
  startDate : JSVal
  endDate : JSVal
  contractor : JSVal
  description : JSVal
  documents : List JSVal
  deriving DecidableEq, Repr

/-- A record built by `mappedRowToFeature`: `type` is always the string Feature. -/
structure MappedFeature where
  geometry : Geometry
  properties : Properties
  deriving DecidableEq, Repr

/-- The helper `val(r, c)`: the cell of a mapped column, `null` for a falsy `c`. -/
def val (r : Row) (c : Option String) : JSVal :=
  match c with
  | some s => if s ≠ "" then r.get s else JSVal.null
  | none => JSVal.null

/-- The call `.replace(/[$,\\s]/g, '')` of `coerceNum`. -/
def stripCurrency (s : String) : String :=
  String.mk (s.toList.filter (fun c => !(c = '$' || c = ',' || isJSWhiteSpace c)))

/-- The helper `coerceNum(v)`: a finite number, or `null`. -/
def coerceNum (v : JSVal) : JSVal :=
  if v.looselyNull || v = JSVal.str "" then JSVal.null
  else
    let n : JSNum := match v with
      | JSVal.str s => stringToNumber (stripCurrency s)
      | w => w.toNumber
    if n.isFinite then JSVal.num n else JSVal.null

/-- What the host decides about dates: `Date.parse` of a string, in milliseconds since
the epoch, `none` for `NaN`.  For a string that is not in the ISO format the result is
left to the engine, and it depends on the time zone of the host. -/
structure DateHost where
  dateParse : String → Option ℤ

/-- The operation `TimeClip` on the number handed to `new Date(v)`. -/
def timeClip : JSNum → Option ℤ
  | JSNum.fin q =>
    if |q| ≤ 8640000000000000 then some (if 0 ≤ q then ⌊q⌋ else ⌈q⌉) else none
  | _ => none

/-- The time value of `new Date(v)` for a scalar `v`, `none` for an invalid date. -/
def newDate (h : DateHost) : JSVal → Option ℤ
  | JSVal.str s => h.dateParse s
  | v => timeClip v.toNumber

/-- The civil date (year, month, day) of a day number counted from 1970-01-01, in the
proleptic Gregorian calendar. -/
def civilFromDays (days : ℤ) : ℤ × ℤ × ℤ :=
  let z := days + 719468
  let era := z / 146097
  let doe := z - era * 146097
  let yoe := (doe - doe / 1460 + doe / 36524 - doe / 146096) / 365
  let doy := doe - (365 * yoe + yoe / 4 - yoe / 100)
  let mp := (5 * doy + 2) / 153
  let d := doy - (153 * mp + 2) / 5 + 1
  let m := if mp < 10 then mp + 3 else mp - 9
  let y := yoe + era * 400 + (if m ≤ 2 then 1 else 0)
  (y, m, d)

/-- The decimal digits of `n`, padded with zeros to width `w`. -/
def padDigits (w n : Nat) : List Char :=
  (List.range w).reverse.map (fun i => Char.ofNat (48 + n / 10 ^ i % 10))

/-- The value of `d.toISOString().split('T')[0]` for a valid date with time value `ms`:
the date in UTC, with a four-digit year, or a sign and six digits outside 0..9999. -/
def isoDate (ms : ℤ) : String :=
  let (y, m, d) := civilFromDays (ms / 86400000)
  let year : List Char :=
    if 0 ≤ y ∧ y ≤ 9999 then padDigits 4 y.toNat
    else (if y < 0 then '-' else '+') :: padDigits 6 y.natAbs
  String.mk (year ++ '-' :: padDigits 2 m.toNat ++ '-' :: padDigits 2 d.toNat)

/-- The helper `parseDate(v)`: the date of a truthy, parseable cell, or `null`. -/
def parseDate (h : DateHost) (v : JSVal) : JSVal :=
  if !v.truthy then JSVal.null
  else match newDate h v with
    | none => JSVal.null
    | some ms => JSVal.str (isoDate ms)

/-- The function `mappedRowToFeature(r, map)`; `none` is the `null` result. -/
def mappedRowToFeature (h : DateHost) (r : Row) (map : Mapping) : Option MappedFeature :=
  let lat := coerceNum (r.get (propertyKey (map .lat)))
  let lon := coerceNum (r.get (propertyKey (map .lon)))
  if !isFinite lat || !isFinite lon then none
  else
    let name := val r (map .name)
    let type := val r (map .type)
    let location := val r (map .location)
    let cost := coerceNum (r.get (propertyKey (map .cost)))
    let status := val r (map .status)
    let startDate := parseDate h (r.get (propertyKey (map .startDate)))
    let endDate := parseDate h (r.get (propertyKey (map .endDate)))
    let contractor := val r (map .contractor)
    let description := val r (map .description)
    some {
      geometry := Geometry.Point (some [lon, lat])
      properties := {
        name := name, type := type, location := location, cost := cost, status := status,
        startDate := startDate, endDate := endDate, contractor := contractor,
        description := description, documents := [] } }

/-- The first statement of `ingestRows(rows, schema)` in `src/main.js`: the new value of
the module variable `features`, `rows.map(...).filter(Boolean)`. -/
def ingestRows (h : DateHost) (rows : List Row) (schema : Mapping) : List MappedFeature :=
  (rows.map (fun r => mappedRowToFeature h r schema)).filterMap id

/-! ## `src/js/layers.js`: the geometry ingestion normalizer -/

/-- The module variable `map` as `isFarFromCurrentView` reads it: the centre of the
current view, `getCenter()`, and the great-circle distance `map.distance` between two
points given as latitude and longitude. -/
structure MapView where
  centerLat : JSNum
  centerLng : JSNum
  distance : JSNum → JSNum → JSNum → JSNum → JSNum

/-- The record `calculateBounds` returns. -/
structure Bounds where
  minLng : JSNum
  maxLng : JSNum
  minLat : JSNum
  maxLat : JSNum
  deriving DecidableEq, Repr

/-- The record `analyzeCoordinates` returns. -/
structure Diagnosis where
  featureCount : Nat
  sampleCount : Nat
  lngOutOfRange : Nat
  latOutOfRange : Nat
  possibleSwapped : Nat
  largeValues : Nat
  veryLargeValues : Nat
  maxAbsValue : JSNum
  coordinateSystemType : String
  scaleFactor : JSNum
  needsSwapping : Bool
  needsScaling : Bool
  bounds : Option Bounds
  farFromCurrentView : Bool
  deriving DecidableEq, Repr

/-- A collected sample: what was pushed on `coordSamples`.  It is `none` (`undefined`)
when a Point without a `coordinates` member was pushed. -/
abbrev Sample := Option Position

/-- The inner function `extractCoords(geometry)` of `analyzeCoordinates`, with the array
`coordSamples` it pushes on passed in and returned. -/
def extractCoords (coordSamples : List Sample) : Geometry → Except JSError (List Sample)
  | .Point c => .ok (coordSamples ++ [c])
  | .LineString (some cs) => .ok (coordSamples ++ (cs.take 5).map some)
  | .MultiPoint (some cs) => .ok (coordSamples ++ (cs.take 5).map some)
  | .Polygon (some rs) =>
    match rs.head? with
    | some ring => .ok (coordSamples ++ (ring.take 5).map some)
    | none => .ok coordSamples
  | .MultiLineString (some rs) =>
    match rs.head? with
    | some ring => .ok (coordSamples ++ (ring.take 5).map some)
    | none => .ok coordSamples
  | .MultiPolygon (some ps) =>
    match ps.head? with
    | some poly =>
      match poly.head? with
      | some ring => .ok (coordSamples ++ (ring.take 5).map some)
      | none => .ok coordSamples
    | none => .ok coordSamples
  | .LineString none => .error .TypeError
  | .MultiPoint none => .error .TypeError
  | .Polygon none => .error .TypeError
  | .MultiLineString none => .error .TypeError
  | .MultiPolygon none => .error .TypeError
  | .other _ => .ok coordSamples

/-- One round of `geoData.features.forEach(...)` in `analyzeCoordinates`: a feature with
a geometry has its samples extracted and is counted, a feature without one is skipped. -/
def collectFeature (st : List Sample × Nat) (feature : Feature) :
    Except JSError (List Sample × Nat) :=
  match feature.geometry with
  | some g =>
    match extractCoords st.1 g with
    | .ok samples => .ok (samples, st.2 + 1)
    | .error e => .error e
  | none => .ok st

/-- The traversal at the head of `analyzeCoordinates`: the final `coordSamples` and
`featureCount`. -/
def collectSamples : GeoData → Except JSError (List Sample × Nat)
  | .FeatureCollection features => features.foldlM collectFeature ([], 0)
  | .Feature feature =>
    match feature.geometry with
    | some g =>
      match extractCoords [] g with
      | .ok samples => .ok (samples, 1)
      | .error e => .error e
    | none => .ok ([], 0)
  | .other _ => .ok ([], 0)

/-- The six counters that the analysis loop of `analyzeCoordinates` updates. -/
structure Counters where
  lngOutOfRange : Nat
  latOutOfRange : Nat
  possibleSwapped : Nat
  largeValues : Nat
  veryLargeValues : Nat
  maxAbsValue : JSNum
  deriving DecidableEq, Repr

/-- The counters before the loop. -/
def Counters.init : Counters :=
  { lngOutOfRange := 0, latOutOfRange := 0, possibleSwapped := 0, largeValues := 0,
    veryLargeValues := 0, maxAbsValue := JSNum.fin 0 }

/-- The body of the analysis loop, after `const [first, second] = coord`. -/
def analyzePair (c : Counters) (first second : JSVal) : Counters :=
  let absFirst := first.toNumber.abs
  let absSecond := second.toNumber.abs
  { maxAbsValue := (c.maxAbsValue.max absFirst).max absSecond
    lngOutOfRange :=
      if first.toNumber.lt (JSNum.fin (-180)) || first.toNumber.gt (JSNum.fin 180)
      then c.lngOutOfRange + 1 else c.lngOutOfRange
    latOutOfRange :=
      if second.toNumber.lt (JSNum.fin (-90)) || second.toNumber.gt (JSNum.fin 90)
      then c.latOutOfRange + 1 else c.latOutOfRange
    largeValues :=
      if absFirst.gt (JSNum.fin 1000) || absSecond.gt (JSNum.fin 1000)
      then c.largeValues + 1 else c.largeValues
    veryLargeValues :=
      if absFirst.gt (JSNum.fin 100000) || absSecond.gt (JSNum.fin 100000)
      then c.veryLargeValues + 1 else c.veryLargeValues
    possibleSwapped :=
      if first.toNumber.abs.le (JSNum.fin 90) && second.toNumber.abs.le (JSNum.fin 180) &&
          first.toNumber.abs.gt second.toNumber.abs
      then c.possibleSwapped + 1 else c.possibleSwapped }

/-- One round of the analysis loop: destructuring an `undefined` sample throws. -/
def analyzeSample (c : Counters) : Sample → Except JSError Counters
  | some coord => .ok (analyzePair c (elemAt coord 0) (elemAt coord 1))
  | none => .error .TypeError

/-- One round of `coords.forEach(([lng, lat]) => ...)` in `calculateBounds`. -/
def boundsStep (b : Bounds) : Sample → Except JSError Bounds
  | some coord =>
    let lng := (elemAt coord 0).toNumber
    let lat := (elemAt coord 1).toNumber
    .ok { minLng := b.minLng.min lng, maxLng := b.maxLng.max lng,
          minLat := b.minLat.min lat, maxLat := b.maxLat.max lat }
  | none => .error .TypeError

/-- The function `calculateBounds(coords)`. -/
def calculateBounds (coords : List Sample) : Except JSError (Option Bounds) :=
  if coords.length = 0 then .ok none
  else
    match coords.foldlM boundsStep
      { minLng := JSNum.posInf, maxLng := JSNum.negInf,
        minLat := JSNum.posInf, maxLat := JSNum.negInf } with
    | .ok b => .ok (some b)
    | .error e => .error e

/-- The function `isFarFromCurrentView(bounds)`, with the module variable `map` passed in
(`none` when it is not set). -/
def isFarFromCurrentView (map : Option MapView) (bounds : Option Bounds) : Bool :=
  match bounds, map with
  | some b, some m =>
    let dataLat := (b.minLat.add b.maxLat).divLit 2
    let dataLng := (b.minLng.add b.maxLng).divLit 2
    (m.distance m.centerLat m.centerLng dataLat dataLng).gt (JSNum.fin 1000000)
  | _, _ => false

/-- The tail of `analyzeCoordinates`: the classification and the returned record, from
the collected samples, the feature count, the counters and the bounds. -/
def diagnose (map : Option MapView) (coordSamples : List Sample) (featureCount : Nat)
    (c : Counters) (bounds : Option Bounds) : Diagnosis :=
  let half : ℚ := (coordSamples.length : ℚ) * (1 / 2)
  let coordinateSystemType : String :=
    if c.veryLargeValues > 0 then "projected_meters"
    else if (c.largeValues : ℚ) > half then "projected_unknown"
    else "geographic"
  let scaleFactor : JSNum :=
    if c.veryLargeValues > 0 then
      if c.maxAbsValue.gt (JSNum.fin 1000000) then JSNum.fin (1 / 100000)
      else if c.maxAbsValue.gt (JSNum.fin 100000) then JSNum.fin (1 / 1000000)
      else JSNum.fin 1
    else if (c.largeValues : ℚ) > half then JSNum.fin (1 / 100)
    else JSNum.fin 1
  { featureCount := featureCount
    sampleCount := coordSamples.length
    lngOutOfRange := c.lngOutOfRange
    latOutOfRange := c.latOutOfRange
    possibleSwapped := c.possibleSwapped
    largeValues := c.largeValues
    veryLargeValues := c.veryLargeValues
    maxAbsValue := c.maxAbsValue
    coordinateSystemType := coordinateSystemType
    scaleFactor := scaleFactor
    needsSwapping := decide ((c.possibleSwapped : ℚ) > half)
    needsScaling := decide (coordinateSystemType ≠ "geographic")
    bounds := bounds
    farFromCurrentView := match bounds with
      | some b => isFarFromCurrentView map (some b)
      | none => false }

/-- The function `analyzeCoordinates(geoData)`, with the module variable `map` passed in:
the traversal, the analysis loop over `coordSamples.slice(0, 20)`, the bounds of all
samples, and the returned record. -/
def analyzeCoordinates (map : Option MapView) (geoData : GeoData) :
    Except JSError Diagnosis :=
  match collectSamples geoData with
  | .error e => .error e
  | .ok (coordSamples, featureCount) =>
    match (coordSamples.take 20).foldlM analyzeSample Counters.init with
    | .error e => .error e
    | .ok c =>
      match calculateBounds coordSamples with
      | .error e => .error e
      | .ok bounds => .ok (diagnose map coordSamples featureCount c bounds)

/-- The array literal `[coord[0] * scaleFactor, coord[1] * scaleFactor]`. -/
def scalePosition (scaleFactor : JSNum) (coord : Position) : Position :=
  [JSVal.num ((elemAt coord 0).toNumber.mul scaleFactor),
   JSVal.num ((elemAt coord 1).toNumber.mul scaleFactor)]

/-- The inner function `scaleGeometryCoords(geometry)` of `scaleCoordinates`: the geometry
after the call; reading a member of an absent `coordinates` throws. -/
def scaleGeometryCoords (scaleFactor : JSNum) : Geometry → Except JSError Geometry
  | .Point (some c) => .ok (.Point (some (scalePosition scaleFactor c)))
  | .LineString (some cs) => .ok (.LineString (some (cs.map (scalePosition scaleFactor))))
  | .MultiPoint (some cs) => .ok (.MultiPoint (some (cs.map (scalePosition scaleFactor))))
  | .Polygon (some rs) =>
    .ok (.Polygon (some (rs.map (fun ring => ring.map (scalePosition scaleFactor)))))
  | .MultiLineString (some rs) =>
    .ok (.MultiLineString (some (rs.map (fun ring => ring.map (scalePosition scaleFactor)))))
  | .MultiPolygon (some ps) =>
    .ok (.MultiPolygon (some (ps.map (fun polygon =>
      polygon.map (fun ring => ring.map (scalePosition scaleFactor))))))
  | .Point none => .error .TypeError
  | .LineString none => .error .TypeError
  | .MultiPoint none => .error .TypeError
  | .Polygon none => .error .TypeError
  | .MultiLineString none => .error .TypeError
  | .MultiPolygon none => .error .TypeError
  | .other t => .ok (.other t)

/-- One feature of the traversal shared by `scaleCoordinates` and `swapCoordinates`:
`if (feature.geometry) onGeometry(feature.geometry)`. -/
def traverseFeature (onGeometry : Geometry → Except JSError Geometry) (feature : Feature) :
    Except JSError Feature :=
  match feature.geometry with
  | some g =>
    match onGeometry g with
    | .ok g1 => .ok { feature with geometry := some g1 }
    | .error e => .error e
  | none => .ok feature

/-- The features of a collection after `features.forEach(...)` has run over them; the
first geometry that throws ends the call. -/
def traverseFeatures (onGeometry : Geometry → Except JSError Geometry) :
    List Feature → Except JSError (List Feature)
  | [] => .ok []
  | feature :: rest =>
    match traverseFeature onGeometry feature with
    | .ok f1 =>
      match traverseFeatures onGeometry rest with
      | .ok fs => .ok (f1 :: fs)
      | .error e => .error e
    | .error e => .error e

/-- The traversal shared by `scaleCoordinates` and `swapCoordinates`: the document after
`onGeometry` has rewritten every geometry that is not `null`, in feature order. -/
def traverseGeometries (onGeometry : Geometry → Except JSError Geometry) :
    GeoData → Except JSError GeoData
  | .FeatureCollection features =>
    match traverseFeatures onGeometry features with
    | .ok fs => .ok (.FeatureCollection fs)
    | .error e => .error e
  | .Feature feature =>
    match traverseFeature onGeometry feature with
    | .ok f1 => .ok (.Feature f1)
    | .error e => .error e
  | .other t => .ok (.other t)

/-- The function `scaleCoordinates(geoData, scaleFactor)`: the document after the call. -/
def scaleCoordinates (geoData : GeoData) (scaleFactor : JSNum) : Except JSError GeoData :=
  traverseGeometries (scaleGeometryCoords scaleFactor) geoData

/-- The array literal `[coord[1], coord[0]]`. -/
def swapPosition (coord : Position) : Position := [elemAt coord 1, elemAt coord 0]

/-- The inner function `swapGeometryCoords(geometry)` of `swapCoordinates`. -/
def swapGeometryCoords : Geometry → Except JSError Geometry
  | .Point (some c) => .ok (.Point (some (swapPosition c)))
  | .LineString (some cs) => .ok (.LineString (some (cs.map swapPosition)))
  | .MultiPoint (some cs) => .ok (.MultiPoint (some (cs.map swapPosition)))
  | .Polygon (some rs) => .ok (.Polygon (some (rs.map (fun ring => ring.map swapPosition))))
  | .MultiLineString (some rs) =>
    .ok (.MultiLineString (some (rs.map (fun ring => ring.map swapPosition))))
  | .MultiPolygon (some ps) =>
    .ok (.MultiPolygon (some (ps.map (fun polygon =>
      polygon.map (fun ring => ring.map swapPosition)))))
  | .Point none => .error .TypeError
  | .LineString none => .error .TypeError
  | .MultiPoint none => .error .TypeError
  | .Polygon none => .error .TypeError
  | .MultiLineString none => .error .TypeError
  | .MultiPolygon none => .error .TypeError
  | .other t => .ok (.other t)

/-- The function `swapCoordinates(geoData)`: the document after the call. -/
def swapCoordinates (geoData : GeoData) : Except JSError GeoData :=
  traverseGeometries swapGeometryCoords geoData

/-! ## Vocabulary of the properties -/

/-- Every position of a geometry, at the nesting depth of its type. -/
def Geometry.positions : Geometry → List Position
  | .Point (some c) => [c]
  | .LineString (some cs) => cs
  | .MultiPoint (some cs) => cs
  | .Polygon (some rs) => rs.flatten
  | .MultiLineString (some rs) => rs.flatten
  | .MultiPolygon (some ps) => ps.flatten.flatten
  | _ => []

/-- A geometry of one of the six types has its `coordinates` member. -/
def Geometry.coordsPresent : Geometry → Bool
  | .Point none => false
  | .LineString none => false
  | .MultiPoint none => false
  | .Polygon none => false
  | .MultiLineString none => false
  | .MultiPolygon none => false
  | _ => true

/-- The features of a document: those of a collection, or the single Feature. -/
def GeoData.featureList : GeoData → List InfrasWebGIS.Feature
  | .FeatureCollection features => features
  | .Feature feature => [feature]
  | .other _ => []

/-- The geometries of a document that are not `null`, in feature order. -/
def GeoData.geometries (d : GeoData) : List Geometry :=
  d.featureList.filterMap (fun feature => feature.geometry)

/-- Every position of every geometry of a document. -/
def GeoData.positions (d : GeoData) : List Position :=
  d.geometries.flatMap Geometry.positions

/-- Every geometry of the document has its `coordinates` member. -/
def GeoData.coordsPresent (d : GeoData) : Prop :=
  ∀ g ∈ d.geometries, g.coordsPresent = true

/-- The samples a geometry with its `coordinates` contributes. -/
def Geometry.samples : Geometry → List Position
  | .Point (some c) => [c]
  | .LineString (some cs) => cs.take 5
  | .MultiPoint (some cs) => cs.take 5
  | .Polygon (some rs) => (rs.head?.getD []).take 5
  | .MultiLineString (some rs) => (rs.head?.getD []).take 5
  | .MultiPolygon (some ps) => (((ps.head?.getD []).head?).getD []).take 5
  | _ => []

/-- The samples of a document all of whose geometries have their `coordinates`. -/
def GeoData.samples (d : GeoData) : List Position :=
  d.geometries.flatMap Geometry.samples

/-- The counters after the analysis loop has run over the given positions. -/
def Counters.run (c : Counters) (ps : List Position) : Counters :=
  ps.foldl (fun c p => analyzePair c (elemAt p 0) (elemAt p 1)) c

/-- The position has first component `a` and second component `b`, both finite numbers. -/
def Position.hasPair (p : Position) (a b : ℚ) : Prop :=
  ∃ rest, p = JSVal.num (JSNum.fin a) :: JSVal.num (JSNum.fin b) :: rest

/-- The normal form the column-mapping rule compares: the name lower-cased, then
stripped of every character that is not a letter `a`-`z` or a digit. -/
def specNormalize (s : String) : String :=
  String.mk (stripNonAlnum (toLowerCase s.toList))

/-- The column-mapping rule: the first column, in column order, whose normal form is the
normal form of one of the aliases of the key. -/
def specAutoMap (cols : List String) (k : SemKey) : Option String :=
  cols.find? (fun c => (COL_ALIASES k).any (fun a => decide (specNormalize c = specNormalize a)))

/-- The sample row of the mapper: `{Lat: "41.6", Lng: "-93.6", Name: "X"}`. -/
def sampleRow : Row :=
  [("Lat", JSVal.str "41.6"), ("Lng", JSVal.str "-93.6"), ("Name", JSVal.str "X")]

/-- The geometry with `φ` applied to every position, at the nesting depth of its type;
the shape shared by `scaleGeometryCoords` and `swapGeometryCoords`. -/
def mapPositions (φ : Position → Position) : Geometry → Except JSError Geometry
  | .Point (some c) => .ok (.Point (some (φ c)))
  | .LineString (some cs) => .ok (.LineString (some (cs.map φ)))
  | .MultiPoint (some cs) => .ok (.MultiPoint (some (cs.map φ)))
  | .Polygon (some rs) => .ok (.Polygon (some (rs.map (fun ring => ring.map φ))))
  | .MultiLineString (some rs) =>
    .ok (.MultiLineString (some (rs.map (fun ring => ring.map φ))))
  | .MultiPolygon (some ps) =>
    .ok (.MultiPolygon (some (ps.map (fun polygon => polygon.map (fun ring => ring.map φ)))))
  | .Point none => .error .TypeError
  | .LineString none => .error .TypeError
  | .MultiPoint none => .error .TypeError
  | .Polygon none => .error .TypeError
  | .MultiLineString none => .error .TypeError
  | .MultiPolygon none => .error .TypeError
  | .other t => .ok (.other t)

/-! ## Concrete inputs -/

/-- A host whose `Date.parse` rejects every string. -/
def hostNoDates : DateHost := { dateParse := fun _ => none }

/-- The row `{Lat: "N/A", Lng: "-93.6"}`. -/
def rowBadLatitude : Row := [("Lat", JSVal.str "N/A"), ("Lng", JSVal.str "-93.6")]

/-- The mapping `lat -> "Lat"`, `lon -> "Lng"`, every other key `null`. -/
def mapLatLng : Mapping :=
  Function.update (Function.update (fun _ => none) SemKey.lat (some "Lat")) SemKey.lon (some "Lng")

/-- A Feature with a Point geometry at `[a, b]` and no properties. -/
def pointFeature (a b : ℚ) : Feature :=
  { geometry := some (.Point (some [JSVal.num (JSNum.fin a), JSVal.num (JSNum.fin b)]))
    properties := [] }

/-- A single Point at `[80, 30]`: longitude 80, latitude 30. -/
def docEast : GeoData := .Feature (pointFeature 80 30)

/-- A collection of a Point at `[-93, 41]` and a LineString `[[10, 20], [30, 40]]`. -/
def docPlain : GeoData :=
  .FeatureCollection [pointFeature (-93) 41,
    { geometry := some (.LineString (some [[JSVal.num (JSNum.fin 10), JSVal.num (JSNum.fin 20)],
        [JSVal.num (JSNum.fin 30), JSVal.num (JSNum.fin 40)]]))
      properties := [("name", JSVal.str "line")] }]

/-- A collection of two Points, at `[200000, 5]` and `[3, 4]`. -/
def docMeters : GeoData := .FeatureCollection [pointFeature 200000 5, pointFeature 3 4]

/-- A collection of forty Points at `[5000, 5000]`. -/
def docForty : GeoData := .FeatureCollection (List.replicate 40 (pointFeature 5000 5000))

/-- A collection of forty Points at `[80, 30]`. -/
def docFortyEast : GeoData := .FeatureCollection (List.replicate 40 (pointFeature 80 30))

/-- A single Point with an altitude, at `[1, 2, 3]`. -/
def docAltitude : GeoData :=
  .Feature { geometry := some (.Point (some
      [JSVal.num (JSNum.fin 1), JSVal.num (JSNum.fin 2), JSVal.num (JSNum.fin 3)]))
             properties := [] }

/-- A single Point at the given components. -/
def docPoint (c : Position) : GeoData :=
  .Feature { geometry := some (.Point (some c)), properties := [] }


/-! ## Vocabulary of the transforms and of the counters -/

/-- The geometry with `φ` applied to every position, order and nesting kept; a geometry
without `coordinates` and a geometry of another type are left as they are. -/
def Geometry.mapPos (φ : Position → Position) : Geometry → Geometry
  | .Point c => .Point (c.map φ)
  | .LineString c => .LineString (c.map (fun cs => cs.map φ))
  | .MultiPoint c => .MultiPoint (c.map (fun cs => cs.map φ))
  | .Polygon c => .Polygon (c.map (fun rs => rs.map (fun ring => ring.map φ)))
  | .MultiLineString c =>
    .MultiLineString (c.map (fun rs => rs.map (fun ring => ring.map φ)))
  | .MultiPolygon c =>
    .MultiPolygon (c.map (fun ps =>
      ps.map (fun polygon => polygon.map (fun ring => ring.map φ))))
  | .other t => .other t

/-- The feature with `φ` applied to every position of its geometry, if it has one. -/
def Feature.mapPos (φ : Position → Position) (f : Feature) : Feature :=
  { f with geometry := f.geometry.map (Geometry.mapPos φ) }

/-- The document with `φ` applied to every position of every geometry, features in the
same order; a document of another type is left as it is. -/
def GeoData.mapPos (φ : Position → Position) : GeoData → GeoData
  | .FeatureCollection features => .FeatureCollection (features.map (Feature.mapPos φ))
  | .Feature feature => .Feature (InfrasWebGIS.Feature.mapPos φ feature)
  | .other t => .other t

/-- The reference definition of the counters over a list of pairs `(first, second)`. -/
def referenceCounters (pairs : List (ℚ × ℚ)) : Counters :=
  { lngOutOfRange := pairs.countP (fun ab => decide (ab.1 < -180 ∨ 180 < ab.1))
    latOutOfRange := pairs.countP (fun ab => decide (ab.2 < -90 ∨ 90 < ab.2))
    largeValues := pairs.countP (fun ab => decide (1000 < |ab.1| ∨ 1000 < |ab.2|))
    veryLargeValues := pairs.countP (fun ab => decide (100000 < |ab.1| ∨ 100000 < |ab.2|))
    possibleSwapped :=
      pairs.countP (fun ab => decide (|ab.1| ≤ 90 ∧ |ab.2| ≤ 180 ∧ |ab.2| < |ab.1|))
    maxAbsValue :=
      JSNum.fin ((pairs.flatMap (fun ab => [|ab.1|, |ab.2|])).foldr Max.max 0) }

/-- A feature the traversals skip: its geometry is `null`, or of none of the six types. -/
def Feature.skipped (f : Feature) : Bool :=
  match f.geometry with
  | none => true
  | some (.other _) => true
  | some _ => false

/-- The document with the skipped features removed: a collection without them, and the
empty collection for a single skipped Feature and for a document of another type. -/
def GeoData.dropSkipped : GeoData → GeoData
  | .FeatureCollection features => .FeatureCollection (features.filter (fun f => !f.skipped))
  | .Feature feature => if feature.skipped then .FeatureCollection [] else .Feature feature
  | .other _ => .FeatureCollection []

/-- The diagnosis without its feature count. -/
def Diagnosis.withoutFeatureCount (diag : Diagnosis) : Diagnosis :=
  { diag with featureCount := 0 }

/-- The document with the feature `f` put back at index `k` of a collection. -/
def GeoData.insertFeature (k : Nat) (f : InfrasWebGIS.Feature) : GeoData → GeoData
  | .FeatureCollection features => .FeatureCollection (features.take k ++ f :: features.drop k)
  | d => d

/-! ## More concrete inputs -/

/-- A collection of three Points, at `[80, 30]`, `[45, 120]` and `[120, 45]`. -/
def docThreePairs : GeoData :=
  .FeatureCollection [pointFeature 80 30, pointFeature 45 120, pointFeature 120 45]

/-- A feature whose geometry is a Point without a `coordinates` member. -/
def featureNoCoordinates : Feature := { geometry := some (.Point none), properties := [] }

/-- A collection of a Point without `coordinates` followed by a Point at `[1, 2]`. -/
def docMalformed : GeoData := .FeatureCollection [featureNoCoordinates, pointFeature 1 2]

/-- A collection of a feature with a `null` geometry, a GeometryCollection (a type that
is none of the six) and a Point at `[1, 2]`. -/
def docWithSkipped : GeoData :=
  .FeatureCollection [{ geometry := none, properties := [("name", JSVal.str "a")] },
    { geometry := some (.other "GeometryCollection"), properties := [] }, pointFeature 1 2]

/-- A host in the time zone UTC, as far as the cell "03/15/2024" goes: its time value is
2024-03-15T00:00:00Z. -/
def hostUTC : DateHost :=
  { dateParse := fun s => if s = "03/15/2024" then some 1710460800000 else none }

/-- A host in the time zone UTC+7, as far as the cell "03/15/2024" goes: the engines read
a date of this form as local time, so its time value is 2024-03-14T17:00:00Z. -/
def hostPlusSeven : DateHost :=
  { dateParse := fun s => if s = "03/15/2024" then some 1710435600000 else none }

/-- The mapping with every key `null`. -/
def mapNone : Mapping := fun _ => none

/-- The row `{"null": "5"}`: a single column, whose name is the word null. -/
def rowNullColumn : Row := [("null", JSVal.str "5")]

/-! ## `src/js/layers.js`: the import workflow `parseGeoJSON` -/

/-- What the import code can throw: a TypeError of the engine, or an `Error` the code
creates with a message. -/
inductive Thrown where
  | TypeError
  | Error (message : String)
  deriving DecidableEq, Repr

/-- The dialog `parseGeoJSON` opens with `confirm`: the offer to scale, whose message
names the category and the largest value, or the offer to swap. -/
inductive Offer where
  | scaling (coordinateSystemType : String) (maxAbsValue : JSNum)
  | swapping
  deriving DecidableEq, Repr

/-- The transform `parseGeoJSON` calls on the document. -/
inductive Applied where
  | scaleCoordinates (scaleFactor : JSNum)
  | swapCoordinates
  deriving DecidableEq, Repr

/-- What a run of `parseGeoJSON` did: the dialog it opened, the transform it called, and
the document it returns. -/
structure Imported where
  offered : Option Offer
  applied : Option Applied
  data : GeoData
  deriving DecidableEq, Repr

/-- The function `parseGeoJSON(file)` from the parsed document on, with the module
variable `map` and the answer of the user to `confirm` passed in. -/
def parseGeoJSON (map : Option MapView) (confirm : Offer → Bool) (data : GeoData) :
    Except Thrown Imported :=
  match data with
  | .other _ => .error (.Error "Invalid GeoJSON format")
  | _ =>
    match analyzeCoordinates map data with
    | .error _ => .error .TypeError
    | .ok coordInfo =>
      if coordInfo.needsScaling then
        if confirm (.scaling coordInfo.coordinateSystemType coordInfo.maxAbsValue) then
          match scaleCoordinates data coordInfo.scaleFactor with
          | .error _ => .error .TypeError
          | .ok scaled =>
            .ok { offered := some (.scaling coordInfo.coordinateSystemType coordInfo.maxAbsValue)
                  applied := some (.scaleCoordinates coordInfo.scaleFactor)
                  data := scaled }
        else
          .ok { offered := some (.scaling coordInfo.coordinateSystemType coordInfo.maxAbsValue)
                applied := none
                data := data }
      else if coordInfo.needsSwapping then
        if confirm .swapping then
          match swapCoordinates data with
          | .error _ => .error .TypeError
          | .ok swapped =>
            .ok { offered := some .swapping, applied := some .swapCoordinates, data := swapped }
        else .ok { offered := some .swapping, applied := none, data := data }
      else .ok { offered := none, applied := none, data := data }

/-! ## `src/js/handler/map-handler.js`: the representative point of a feature -/

/-- The quotient `a / b` of two numbers. -/
def JSNum.div : JSNum → JSNum → JSNum
  | .nan, _ => .nan
  | _, .nan => .nan
  | .fin a, .fin b =>
    if b = 0 then (if a = 0 then .nan else if 0 < a then .posInf else .negInf)
    else .fin (a / b)
  | .fin _, .posInf => .fin 0
  | .fin _, .negInf => .fin 0
  | .posInf, .fin b => if 0 ≤ b then .posInf else .negInf
  | .negInf, .fin b => if 0 ≤ b then .negInf else .posInf
  | .posInf, .posInf => .nan
  | .posInf, .negInf => .nan
  | .negInf, .posInf => .nan
  | .negInf, .negInf => .nan

/-- The function `calculatePolygonCentroid(coordinates)`, for components that are not
strings (`+=` would concatenate a string): the two sums over the positions, each divided
by the number of positions. -/
def calculatePolygonCentroid (coordinates : List Position) : Position :=
  let totalX := coordinates.foldl (fun t coord => t.add (elemAt coord 0).toNumber) (JSNum.fin 0)
  let totalY := coordinates.foldl (fun t coord => t.add (elemAt coord 1).toNumber) (JSNum.fin 0)
  let count := JSNum.fin coordinates.length
  [JSVal.num (totalX.div count), JSVal.num (totalY.div count)]

/-- The value of `centroid` that `processGeoJSONData` computes for a feature, from
`const geometry = feature.geometry` to the end of the chain of tests on `geometry.type`;
`none` is `undefined`. -/
def featureCentroid : Option Geometry → Except Thrown (Option Position)
  | none => .error .TypeError
  | some (.Point c) => .ok c
  | some (.Polygon (some rs)) =>
    match rs.head? with
    | some ring => .ok (some (calculatePolygonCentroid ring))
    | none => .error .TypeError
  | some (.MultiPolygon (some ps)) =>
    match ps.head? with
    | some polygon =>
      match polygon.head? with
      | some ring => .ok (some (calculatePolygonCentroid ring))
      | none => .error .TypeError
    | none => .error .TypeError
  | some (.LineString (some cs)) => .ok (cs.get? (cs.length / 2))
  | some (.MultiLineString (some ls)) =>
    match ls.head? with
    | some line => .ok (line.get? (line.length / 2))
    | none => .error .TypeError
  | some (.Polygon none) => .error .TypeError
  | some (.MultiPolygon none) => .error .TypeError
  | some (.LineString none) => .error .TypeError
  | some (.MultiLineString none) => .error .TypeError
  | some (.MultiPoint _) => .error (.Error "Unsupported geometry type: MultiPoint")
  | some (.other t) => .error (.Error ("Unsupported geometry type: " ++ t))

/-- The pair `[longitude, latitude]` that `processGeoJSONData` takes from the centroid of
a feature: `const [longitude, latitude] = centroid`, which throws on `undefined`. -/
def featureLonLat (geometry : Option Geometry) : Except Thrown (JSVal × JSVal) :=
  match featureCentroid geometry with
  | .error e => .error e
  | .ok none => .error .TypeError
  | .ok (some centroid) => .ok (elemAt centroid 0, elemAt centroid 1)

/-! ## Vocabulary of the last claims -/

/-- The diagnosis without the field that is computed from the current map view. -/
def Diagnosis.withoutFarFromCurrentView (diag : Diagnosis) : Diagnosis :=
  { diag with farFromCurrentView := false }

/-- A stand-in for `map.distance`: the length in metres of the meridian arc between the
two latitudes, 111195 m per degree, which is the great-circle distance between two points
of the same longitude. -/
def meridianDistance (lat1 _lng1 lat2 _lng2 : JSNum) : JSNum :=
  match lat1, lat2 with
  | .fin a, .fin b => .fin (111195 * |a - b|)
  | _, _ => .nan

/-- A map view centred on latitude 0, longitude 0. -/
def viewEquator : MapView :=
  { centerLat := JSNum.fin 0, centerLng := JSNum.fin 0, distance := meridianDistance }

/-- A map view centred on latitude 45, longitude 0. -/
def viewNorth : MapView :=
  { centerLat := JSNum.fin 45, centerLng := JSNum.fin 0, distance := meridianDistance }

/-- The reference definition of the bounds of a list of pairs `(first, second)`: none for
no pair, else the least and the greatest first and second component. -/
def referenceBounds : List (ℚ × ℚ) → Option Bounds
  | [] => none
  | ab :: rest =>
    some { minLng := JSNum.fin (rest.foldl (fun m x => Min.min m x.1) ab.1)
           maxLng := JSNum.fin (rest.foldl (fun m x => Max.max m x.1) ab.1)
           minLat := JSNum.fin (rest.foldl (fun m x => Min.min m x.2) ab.2)
           maxLat := JSNum.fin (rest.foldl (fun m x => Max.max m x.2) ab.2) }

/-- The arithmetic mean of a list of pairs, component by component. -/
def meanPair (pairs : List (ℚ × ℚ)) : ℚ × ℚ :=
  ((pairs.map Prod.fst).sum / pairs.length, (pairs.map Prod.snd).sum / pairs.length)

/-- The document with every position emptied: what is left is the features in their
order with their properties, the type of every geometry, and the number of polygons,
rings, lines and positions inside it. -/
def GeoData.skeleton (d : GeoData) : GeoData := d.mapPos (fun _ => [])

/-- The first two components of a position read as the finite numbers `a` and `b`. -/
def Position.reads (p : Position) (a b : ℚ) : Prop :=
  (elemAt p 0).toNumber = JSNum.fin a ∧ (elemAt p 1).toNumber = JSNum.fin b

/-! ## Concrete inputs of the last claims -/

/-- A single Point at `[0, 0]`. -/
def docOrigin : GeoData := .Feature (pointFeature 0 0)

/-- A collection of twenty Points at `[1, 1]` followed by a Point at `[50, 60]`. -/
def docTwentyOne : GeoData :=
  .FeatureCollection (List.replicate 20 (pointFeature 1 1) ++ [pointFeature 50 60])

/-- A collection of three Points, at `[80, 30]`, `[80, 30]` and `[200000, 0]`. -/
def docBoth : GeoData :=
  .FeatureCollection [pointFeature 80 30, pointFeature 80 30, pointFeature 200000 0]

/-- The line `[[0, 0], [10, 0], [50, 0]]`. -/
def lineThree : List Position :=
  [[JSVal.num (JSNum.fin 0), JSVal.num (JSNum.fin 0)],
   [JSVal.num (JSNum.fin 10), JSVal.num (JSNum.fin 0)],
   [JSVal.num (JSNum.fin 50), JSVal.num (JSNum.fin 0)]]

/-- The ring `[[0, 0], [4, 0], [4, 2], [0, 2], [0, 0]]`. -/
def ringFive : List Position :=
  [[JSVal.num (JSNum.fin 0), JSVal.num (JSNum.fin 0)],
   [JSVal.num (JSNum.fin 4), JSVal.num (JSNum.fin 0)],
   [JSVal.num (JSNum.fin 4), JSVal.num (JSNum.fin 2)],
   [JSVal.num (JSNum.fin 0), JSVal.num (JSNum.fin 2)],
   [JSVal.num (JSNum.fin 0), JSVal.num (JSNum.fin 0)]]

/-- A collection of two Points, at `[5000, 7000]` and `[2000, 3000]`. -/
def docMedium : GeoData := .FeatureCollection [pointFeature 5000 7000, pointFeature 2000 3000]

/-- The row with the single column State. -/
def rowState : Row := [("State", JSVal.str "Iowa")]

/-- A collection of three Points, at `[80, 30]`, `[10, 20]` and `[10, 20]`. -/
def docOneOfThree : GeoData :=
  .FeatureCollection [pointFeature 80 30, pointFeature 10 20, pointFeature 10 20]

/-- A collection of a Point at `[200000, 5]` and a Point whose position is the empty
array `[]`. -/
def docMetersEmpty : GeoData :=
  .FeatureCollection [pointFeature 200000 5,
    { geometry := some (.Point (some [])), properties := [] }]

/-- The collection `docPlain` with every component doubled. -/
def docPlainDoubled : GeoData :=
  .FeatureCollection [pointFeature (-186) 82,
    { geometry := some (.LineString (some [[JSVal.num (JSNum.fin 20), JSVal.num (JSNum.fin 40)],
        [JSVal.num (JSNum.fin 60), JSVal.num (JSNum.fin 80)]]))
      properties := [("name", JSVal.str "line")] }]

/-- The collection `docPlain` with the two components of every pair exchanged. -/
def docPlainSwapped : GeoData :=
  .FeatureCollection [pointFeature 41 (-93),
    { geometry := some (.LineString (some [[JSVal.num (JSNum.fin 20), JSVal.num (JSNum.fin 10)],
        [JSVal.num (JSNum.fin 40), JSVal.num (JSNum.fin 30)]]))
      properties := [("name", JSVal.str "line")] }]

/-! ## The schema mapper: normalisation of column names -/

theorem stripLower_append (a b : List Char) :
    stripNonAlnum (toLowerCase (a ++ b)) =
      stripNonAlnum (toLowerCase a) ++ stripNonAlnum (toLowerCase b) := by
  simp [stripNonAlnum, toLowerCase]

theorem stripLower_whiteSpace (c : Char) (hc : isJSWhiteSpace c = true) :
    stripNonAlnum (toLowerCase [c]) = [] := by
  have h1 : ¬ (65 ≤ c.toNat ∧ c.toNat ≤ 90) := by
    simp [isJSWhiteSpace] at hc; omega
  have h2 : ¬ c.toNat = 0x130 := by
    simp [isJSWhiteSpace] at hc; omega
  have h3 : ¬ c.toNat = 0x212A := by
    simp [isJSWhiteSpace] at hc; omega
  have h4 : isLowerAlnum c = false := by
    simp [isJSWhiteSpace] at hc
    simp [isLowerAlnum]; omega
  simp [toLowerCase, lowerChar, h1, h2, h3, stripNonAlnum, h4]

theorem stripLower_all_whiteSpace (cs : List Char) (h : ∀ c ∈ cs, isJSWhiteSpace c = true) :
    stripNonAlnum (toLowerCase cs) = [] := by
  induction cs with
  | nil => rfl
  | cons c cs ih =>
    have hsplit := stripLower_append [c] cs
    simp only [List.singleton_append] at hsplit
    rw [hsplit, stripLower_whiteSpace c (h c (List.mem_cons_self _ _)),
      ih (fun x hx => h x (List.mem_cons_of_mem _ hx))]
    rfl

theorem stripLower_dropWhile (cs : List Char) :
    stripNonAlnum (toLowerCase (cs.dropWhile isJSWhiteSpace)) =
      stripNonAlnum (toLowerCase cs) := by
  conv_rhs => rw [← List.takeWhile_append_dropWhile isJSWhiteSpace cs]
  rw [stripLower_append, stripLower_all_whiteSpace _ (fun c hc => List.mem_takeWhile_imp hc)]
  rfl

/-- Trimming is redundant before the strip: white space is deleted anyway. -/
theorem stripLower_trim (cs : List Char) :
    stripNonAlnum (toLowerCase (trimChars cs)) = stripNonAlnum (toLowerCase cs) := by
  unfold trimChars
  rw [← stripLower_dropWhile cs]
  generalize cs.dropWhile isJSWhiteSpace = ds
  have hsplit : ds = (ds.reverse.dropWhile isJSWhiteSpace).reverse ++
      (ds.reverse.takeWhile isJSWhiteSpace).reverse := by
    rw [← List.reverse_append, List.takeWhile_append_dropWhile, List.reverse_reverse]
  conv_rhs => rw [hsplit]
  rw [stripLower_append, stripLower_all_whiteSpace (ds.reverse.takeWhile isJSWhiteSpace).reverse]
  · simp
  · intro c hc
    exact List.mem_takeWhile_imp (List.mem_reverse.mp hc)

theorem norm_eq_specNormalize (s : String) : norm s = specNormalize s := by
  unfold norm specNormalize
  simp only [ne_eq, ite_not]
  have hs : (if s = "" then "" else s) = s := by
    split_ifs with h
    · exact h.symm
    · rfl
  rw [hs, stripLower_trim]

theorem aliasMap_eq (k : SemKey) : aliasMap k = (COL_ALIASES k).map specNormalize := by
  cases k <;> decide

theorem empty_not_alias (k : SemKey) : "" ∉ aliasMap k := by
  cases k <;> decide

theorem norm_empty : norm "" = "" := by decide

theorem contains_map_eq_any (f : String → String) (l : List String) (x : String) :
    (l.map f).contains x = l.any (fun a => decide (x = f a)) := by
  induction l with
  | nil => rfl
  | cons a l ih =>
    rw [List.map_cons, List.contains_cons, ih, List.any_cons]
    congr 1

theorem find_eq_spec (cols : List String) (k : SemKey) :
    cols.find? (fun c => (aliasMap k).contains (norm c)) = specAutoMap cols k := by
  unfold specAutoMap
  congr 1
  funext c
  rw [aliasMap_eq, norm_eq_specNormalize, contains_map_eq_any]

theorem find_ne_empty (cols : List String) (k : SemKey) (c : String)
    (h : cols.find? (fun c => (aliasMap k).contains (norm c)) = some c) : c ≠ "" := by
  intro hc
  have h1 := List.find?_some h
  beta_reduce at h1
  rw [hc, norm_empty] at h1
  exact empty_not_alias k (List.elem_iff.mp h1)

/-- The loop of `autoMapColumns` over distinct keys leaves at each key what its own round
wrote there. -/
theorem foldl_update_apply (f : SemKey → Option String) (ks : List SemKey) (hnd : ks.Nodup)
    (m : Mapping) (k : SemKey) :
    (ks.foldl (fun map k =>
        match f k with
        | some c => if c ≠ "" then Function.update map k (some c) else map
        | none => map) m) k
      = if k ∈ ks then
          (match f k with
           | some c => if c ≠ "" then some c else m k
           | none => m k)
        else m k := by
  induction ks generalizing m with
  | nil => simp
  | cons k1 ks ih =>
    have hk1 : k1 ∉ ks := (List.nodup_cons.mp hnd).1
    rw [List.foldl_cons, ih (List.nodup_cons.mp hnd).2]
    by_cases hk : k = k1
    · subst hk
      simp only [hk1, if_false, List.mem_cons, true_or, if_true]
      cases f k with
      | none => rfl
      | some c =>
        by_cases hc : c = ""
        · simp [hc]
        · simp [hc]
    · have hupd : ∀ m1 : Mapping, (match f k1 with
          | some c => if c ≠ "" then Function.update m1 k1 (some c) else m1
          | none => m1) k = m1 k := by
        intro m1
        cases f k1 with
        | none => rfl
        | some c =>
          by_cases hc : c = ""
          · simp [hc]
          · simp [hc, Function.update_noteq hk]
      simp only [List.mem_cons, hk, false_or, hupd]

/-! ## The schema mapper: rows to features -/

theorem isFinite_ite (n : JSNum) :
    isFinite (if n.isFinite then JSVal.num n else JSVal.null) = true := by
  by_cases h : n.isFinite = true
  · rw [if_pos h]
    exact h
  · rw [if_neg h]
    rfl

/-- What `coerceNum` returns is `null` or a finite number, and the global `isFinite`
holds of both. -/
theorem isFinite_coerceNum (v : JSVal) : isFinite (coerceNum v) = true := by
  unfold coerceNum
  by_cases h1 : (v.looselyNull || decide (v = JSVal.str "")) = true
  · rw [if_pos h1]
    rfl
  · rw [if_neg h1]
    exact isFinite_ite _

/-- The guard of `mappedRowToFeature` never fires: the function returns a Feature for
every row and every mapping. -/
theorem mappedRowToFeature_isSome (h : DateHost) (r : Row) (map : Mapping) :
    (mappedRowToFeature h r map).isSome = true := by
  simp [mappedRowToFeature, isFinite_coerceNum]

/-- Evaluation of `coerceNum` on the two coordinate cells of the sample row. -/
theorem coerceNum_sample_cells :
    coerceNum (JSVal.str "41.6") = JSVal.num (JSNum.fin (208 / 5)) ∧
    coerceNum (JSVal.str "-93.6") = JSVal.num (JSNum.fin (-468 / 5)) := by
  constructor <;>
  · simp [coerceNum, JSVal.looselyNull, stripCurrency, stringToNumber, trimChars,
      isJSWhiteSpace, parseDecimal, parseUnsignedDecimal, isDecDigit, JSNum.isFinite]
    norm_num

/-- The automatic mapping of the sample row. -/
theorem autoMapColumns_sampleRow :
    List.map (autoMapColumns [sampleRow]) mapKeys
      = [some "Lat", some "Lng", some "Name", none, none, none, none, none, none, none,
         none] := by
  decide

/-! ## The normalizer: the traversal and the analysis loop -/

theorem extractCoords_ok (st : List Sample) (g : Geometry) (hg : g.coordsPresent = true) :
    extractCoords st g = .ok (st ++ g.samples.map some) := by
  cases g with
  | Point c => cases c <;> simp_all [Geometry.coordsPresent, extractCoords, Geometry.samples]
  | LineString c => cases c <;> simp_all [Geometry.coordsPresent, extractCoords, Geometry.samples]
  | MultiPoint c => cases c <;> simp_all [Geometry.coordsPresent, extractCoords, Geometry.samples]
  | Polygon c =>
    cases c with
    | none => simp [Geometry.coordsPresent] at hg
    | some rs => cases rs <;> simp [extractCoords, Geometry.samples]
  | MultiLineString c =>
    cases c with
    | none => simp [Geometry.coordsPresent] at hg
    | some rs => cases rs <;> simp [extractCoords, Geometry.samples]
  | MultiPolygon c =>
    cases c with
    | none => simp [Geometry.coordsPresent] at hg
    | some ps =>
      cases ps with
      | nil => simp [extractCoords, Geometry.samples]
      | cons poly t => cases poly <;> simp [extractCoords, Geometry.samples]
  | other t => simp [extractCoords, Geometry.samples]

theorem collect_fold_ok (fs : List Feature) (st : List Sample × Nat)
    (h : ∀ g ∈ fs.filterMap (fun f => f.geometry), g.coordsPresent = true) :
    fs.foldlM collectFeature st
    = Except.ok (st.1 ++ ((fs.filterMap (fun f => f.geometry)).flatMap Geometry.samples).map some,
        st.2 + (fs.filterMap (fun f => f.geometry)).length) := by
  induction fs generalizing st with
  | nil => simp [pure, Except.pure]
  | cons f fs ih =>
    rw [List.foldlM_cons]
    cases hfg : f.geometry with
    | none =>
      have h1 : ∀ g ∈ fs.filterMap (fun f => f.geometry), g.coordsPresent = true := by
        intro g hg
        exact h g (by simp [List.filterMap_cons, hfg]; simpa using hg)
      have hstep : collectFeature st f = .ok st := by simp [collectFeature, hfg]
      rw [hstep]
      simp only [bind, Except.bind]
      rw [ih st h1]
      simp [List.filterMap_cons, hfg]
    | some g =>
      have hg : g.coordsPresent = true := h g (by simp [List.filterMap_cons, hfg])
      have h1 : ∀ g ∈ fs.filterMap (fun f => f.geometry), g.coordsPresent = true := by
        intro g1 hg1
        exact h g1 (by simp [List.filterMap_cons, hfg]; right; simpa using hg1)
      have hstep : collectFeature st f = .ok (st.1 ++ g.samples.map some, st.2 + 1) := by
        simp [collectFeature, hfg, extractCoords_ok _ g hg]
      rw [hstep]
      simp only [bind, Except.bind]
      rw [ih _ h1]
      simp [List.filterMap_cons, hfg]
      omega

/-- On a document whose geometries all have their coordinates the traversal collects
`GeoData.samples` and counts the geometries. -/
theorem collectSamples_ok (d : GeoData) (h : d.coordsPresent) :
    collectSamples d = .ok (d.samples.map some, d.geometries.length) := by
  cases d with
  | FeatureCollection fs =>
    have hfold := collect_fold_ok fs ([], 0) h
    simpa [collectSamples, GeoData.samples, GeoData.geometries, GeoData.featureList] using hfold
  | Feature f =>
    cases hfg : f.geometry with
    | none =>
      simp [collectSamples, hfg, GeoData.samples, GeoData.geometries, GeoData.featureList]
    | some g =>
      have hg : g.coordsPresent = true :=
        h g (by simp [GeoData.geometries, GeoData.featureList, hfg])
      simp [collectSamples, hfg, GeoData.samples, GeoData.geometries, GeoData.featureList,
        extractCoords_ok _ g hg]
  | other t =>
    simp [collectSamples, GeoData.samples, GeoData.geometries, GeoData.featureList]

theorem analyze_fold_ok (ps : List Position) (c : Counters) :
    (ps.map some).foldlM analyzeSample c = .ok (c.run ps) := by
  induction ps generalizing c with
  | nil => rfl
  | cons p ps ih =>
    simp only [List.map_cons, List.foldlM_cons, analyzeSample, bind, Except.bind]
    rw [ih]
    rfl

theorem bounds_fold_ok (ps : List Position) (b0 : Bounds) :
    ∃ b, (ps.map some).foldlM boundsStep b0 = .ok b := by
  induction ps generalizing b0 with
  | nil => exact ⟨b0, rfl⟩
  | cons p ps ih =>
    simp only [List.map_cons, List.foldlM_cons, boundsStep, bind, Except.bind]
    exact ih _

theorem calculateBounds_ok (ps : List Position) :
    ∃ b, calculateBounds (ps.map some) = .ok b ∧ (b = none ↔ ps = []) := by
  unfold calculateBounds
  by_cases hp : ps = []
  · subst hp
    exact ⟨none, by simp⟩
  · have hlen : ¬ (ps.map some).length = 0 := by simpa using hp
    simp only [hlen, if_false]
    obtain ⟨b, hb⟩ := bounds_fold_ok ps ⟨JSNum.posInf, JSNum.negInf, JSNum.posInf, JSNum.negInf⟩
    refine ⟨some b, ?_, by simp [hp]⟩
    rw [hb]

/-- When the traversal has collected the positions `samples`, `analyzeCoordinates`
returns the record built from the counters over the first twenty of them. -/
theorem analyzeCoordinates_of_collect (map : Option MapView) (d : GeoData)
    (samples : List Position) (n : Nat) (hc : collectSamples d = .ok (samples.map some, n)) :
    ∃ b, analyzeCoordinates map d = .ok (diagnose map (samples.map some) n
      (Counters.init.run (samples.take 20)) b) := by
  obtain ⟨b, hb, _⟩ := calculateBounds_ok samples
  refine ⟨b, ?_⟩
  unfold analyzeCoordinates
  rw [hc]
  simp only [← List.map_take, analyze_fold_ok, hb]

theorem analyzeCoordinates_ok (map : Option MapView) (d : GeoData) (h : d.coordsPresent) :
    ∃ b, analyzeCoordinates map d = .ok (diagnose map (d.samples.map some) d.geometries.length
      (Counters.init.run (d.samples.take 20)) b) :=
  analyzeCoordinates_of_collect map d d.samples d.geometries.length (collectSamples_ok d h)

theorem counters_run_cons (c : Counters) (p : Position) (ps : List Position) :
    c.run (p :: ps) = (analyzePair c (elemAt p 0) (elemAt p 1)).run ps := rfl

theorem hasPair_elemAt {p : Position} {a b : ℚ} (h : p.hasPair a b) :
    elemAt p 0 = JSVal.num (JSNum.fin a) ∧ elemAt p 1 = JSVal.num (JSNum.fin b) := by
  obtain ⟨rest, rfl⟩ := h
  exact ⟨rfl, rfl⟩

/-- Pairs with both components at most 1000 in absolute value are counted neither as
large nor as very large. -/
theorem run_small (ps : List Position) (c : Counters)
    (h : ∀ p ∈ ps, ∃ a b, p.hasPair a b ∧ |a| ≤ 1000 ∧ |b| ≤ 1000) :
    (c.run ps).largeValues = c.largeValues ∧
      (c.run ps).veryLargeValues = c.veryLargeValues := by
  induction ps generalizing c with
  | nil => exact ⟨rfl, rfl⟩
  | cons p ps ih =>
    obtain ⟨a, b, hp, ha, hb⟩ := h p (List.mem_cons_self _ _)
    obtain ⟨h0, h1⟩ := hasPair_elemAt hp
    rw [counters_run_cons, h0, h1]
    obtain ⟨i1, i2⟩ := ih (analyzePair c (JSVal.num (JSNum.fin a)) (JSVal.num (JSNum.fin b)))
      (fun q hq => h q (List.mem_cons_of_mem _ hq))
    rw [i1, i2]
    have ha2 : ¬ (100000 < |a|) := by linarith
    have hb2 : ¬ (100000 < |b|) := by linarith
    simp [analyzePair, JSVal.toNumber, JSNum.abs, JSNum.gt, JSNum.lt, not_lt.mpr ha,
      not_lt.mpr hb, ha2, hb2]

/-- Pairs that do not have `|first| <= 90` together with `|first| > |second|` are not
counted as possibly swapped. -/
theorem run_unswapped (ps : List Position) (c : Counters)
    (h : ∀ p ∈ ps, ∃ a b, p.hasPair a b ∧ ¬ (|a| ≤ 90 ∧ |b| < |a|)) :
    (c.run ps).possibleSwapped = c.possibleSwapped := by
  induction ps generalizing c with
  | nil => rfl
  | cons p ps ih =>
    obtain ⟨a, b, hp, hab⟩ := h p (List.mem_cons_self _ _)
    obtain ⟨h0, h1⟩ := hasPair_elemAt hp
    rw [counters_run_cons, h0, h1, ih _ (fun q hq => h q (List.mem_cons_of_mem _ hq))]
    simp only [analyzePair, JSVal.toNumber, JSNum.abs, JSNum.gt, JSNum.lt, JSNum.le,
      JSNum.isNaN]
    rw [if_neg]
    intro hcond
    simp only [Bool.not_false, Bool.true_and, Bool.and_eq_true, Bool.not_eq_true',
      decide_eq_false_iff_not, not_lt, decide_eq_true_eq] at hcond
    exact hab ⟨hcond.1.1, hcond.2⟩

theorem geometry_samples_subset (g : Geometry) : ∀ p ∈ g.samples, p ∈ g.positions := by
  intro p hp
  cases g with
  | Point c => cases c <;> simp_all [Geometry.samples, Geometry.positions]
  | LineString c =>
    cases c with
    | none => simp [Geometry.samples] at hp
    | some cs => exact List.mem_of_mem_take hp
  | MultiPoint c =>
    cases c with
    | none => simp [Geometry.samples] at hp
    | some cs => exact List.mem_of_mem_take hp
  | Polygon c =>
    cases c with
    | none => simp [Geometry.samples] at hp
    | some rs =>
      cases rs with
      | nil => simp [Geometry.samples] at hp
      | cons r rs =>
        simp only [Geometry.samples, List.head?_cons, Option.getD_some] at hp
        simp only [Geometry.positions, List.flatten_cons, List.mem_append]
        exact Or.inl (List.mem_of_mem_take hp)
  | MultiLineString c =>
    cases c with
    | none => simp [Geometry.samples] at hp
    | some rs =>
      cases rs with
      | nil => simp [Geometry.samples] at hp
      | cons r rs =>
        simp only [Geometry.samples, List.head?_cons, Option.getD_some] at hp
        simp only [Geometry.positions, List.flatten_cons, List.mem_append]
        exact Or.inl (List.mem_of_mem_take hp)
  | MultiPolygon c =>
    cases c with
    | none => simp [Geometry.samples] at hp
    | some ps =>
      cases ps with
      | nil => simp [Geometry.samples] at hp
      | cons poly ps =>
        cases poly with
        | nil => simp [Geometry.samples] at hp
        | cons r rs =>
          simp only [Geometry.samples, List.head?_cons, Option.getD_some] at hp
          simp only [Geometry.positions, List.flatten_cons, List.cons_append, List.mem_append]
          exact Or.inl (List.mem_of_mem_take hp)
  | other t => simp [Geometry.samples] at hp

theorem geoData_samples_subset (d : GeoData) : ∀ p ∈ d.samples, p ∈ d.positions := by
  intro p hp
  simp only [GeoData.samples, GeoData.positions, List.mem_flatMap] at hp ⊢
  obtain ⟨g, hg, hpg⟩ := hp
  exact ⟨g, hg, geometry_samples_subset g p hpg⟩

theorem jsnum_max_fin (x y : ℚ) : (JSNum.fin x).max (JSNum.fin y) = JSNum.fin (Max.max x y) := by
  simp only [JSNum.max, JSNum.lt]
  by_cases h : x < y
  · simp [h, max_eq_right (le_of_lt h)]
  · simp [h, max_eq_left (not_lt.mp h)]

/-- Over pairs of finite numbers the running maximum is a finite number that bounds
every component seen. -/
theorem run_max (ps : List Position) (c : Counters) (m0 : ℚ) (hc : c.maxAbsValue = JSNum.fin m0)
    (hnum : ∀ p ∈ ps, ∃ a b, p.hasPair a b) :
    ∃ m, (c.run ps).maxAbsValue = JSNum.fin m ∧ m0 ≤ m ∧
      ∀ p ∈ ps, ∀ a b, p.hasPair a b → |a| ≤ m ∧ |b| ≤ m := by
  induction ps generalizing c m0 with
  | nil => exact ⟨m0, hc, le_refl _, by simp⟩
  | cons p ps ih =>
    obtain ⟨a, b, hp⟩ := hnum p (List.mem_cons_self _ _)
    obtain ⟨h0, h1⟩ := hasPair_elemAt hp
    have hstep : (analyzePair c (elemAt p 0) (elemAt p 1)).maxAbsValue =
        JSNum.fin (Max.max (Max.max m0 |a|) |b|) := by
      rw [h0, h1]
      simp only [analyzePair, JSVal.toNumber, JSNum.abs, hc, jsnum_max_fin]
    obtain ⟨m, hm, hle, hall⟩ := ih _ _ hstep (fun q hq => hnum q (List.mem_cons_of_mem _ hq))
    refine ⟨m, hm, le_trans (le_trans (le_max_left _ _) (le_max_left _ _)) hle, ?_⟩
    intro q hq a1 b1 hq1
    rcases List.mem_cons.mp hq with rfl | hq
    · obtain ⟨e0, e1⟩ := hasPair_elemAt hq1
      rw [h0] at e0
      rw [h1] at e1
      injection e0 with e0
      injection e0 with e0
      injection e1 with e1
      injection e1 with e1
      subst e0 e1
      exact ⟨le_trans (le_trans (le_max_right _ _) (le_max_left _ _)) hle,
        le_trans (le_max_right _ _) hle⟩
    · exact hall q hq a1 b1 hq1

theorem run_veryLarge_mono (ps : List Position) (c : Counters) :
    c.veryLargeValues ≤ (c.run ps).veryLargeValues := by
  induction ps generalizing c with
  | nil => exact le_refl _
  | cons p ps ih =>
    rw [counters_run_cons]
    refine le_trans ?_ (ih _)
    simp only [analyzePair]
    split <;> omega

theorem run_veryLarge_pos (ps : List Position) (c : Counters) (p : Position) (hp : p ∈ ps)
    (a b : ℚ) (hab : p.hasPair a b) (hbig : 100000 < |a| ∨ 100000 < |b|) :
    c.veryLargeValues < (c.run ps).veryLargeValues := by
  induction ps generalizing c with
  | nil => simp at hp
  | cons q ps ih =>
    rw [counters_run_cons]
    rcases List.mem_cons.mp hp with rfl | hp
    · refine lt_of_lt_of_le ?_ (run_veryLarge_mono ps _)
      obtain ⟨h0, h1⟩ := hasPair_elemAt hab
      rw [h0, h1]
      simp only [analyzePair, JSVal.toNumber, JSNum.abs, JSNum.gt, JSNum.lt]
      rw [if_pos]
      · omega
      · simpa using hbig
    · refine lt_of_le_of_lt ?_ (ih _ hp)
      simp only [analyzePair]
      split <;> omega

/-! ## The normalizer: the two transforms -/

theorem swapGeometryCoords_eq (g : Geometry) :
    swapGeometryCoords g = mapPositions swapPosition g := by
  cases g with
  | other t => rfl
  | _ c => cases c <;> rfl

theorem scaleGeometryCoords_eq (s : JSNum) (g : Geometry) :
    scaleGeometryCoords s g = mapPositions (scalePosition s) g := by
  cases g with
  | other t => rfl
  | _ c => cases c <;> rfl

theorem map_map_cancel {α : Type} (φ ψ : α → α) (l : List α) (h : ∀ x ∈ l, ψ (φ x) = x) :
    (l.map φ).map ψ = l := by
  induction l with
  | nil => rfl
  | cons x l ih =>
    simp only [List.map_cons]
    rw [h x (List.mem_cons_self _ _), ih (fun y hy => h y (List.mem_cons_of_mem _ hy))]

theorem mapPositions_roundtrip (φ ψ : Position → Position) (g : Geometry)
    (hg : g.coordsPresent = true) (h : ∀ p ∈ g.positions, ψ (φ p) = p) :
    ∃ g1, mapPositions φ g = .ok g1 ∧ mapPositions ψ g1 = .ok g := by
  cases g with
  | other t => exact ⟨_, rfl, rfl⟩
  | Point c =>
    cases c with
    | none => simp [Geometry.coordsPresent] at hg
    | some c =>
      refine ⟨_, rfl, ?_⟩
      simp only [mapPositions]
      rw [h c (by simp [Geometry.positions])]
  | LineString c =>
    cases c with
    | none => simp [Geometry.coordsPresent] at hg
    | some cs =>
      refine ⟨_, rfl, ?_⟩
      simp only [mapPositions]
      rw [map_map_cancel φ ψ cs h]
  | MultiPoint c =>
    cases c with
    | none => simp [Geometry.coordsPresent] at hg
    | some cs =>
      refine ⟨_, rfl, ?_⟩
      simp only [mapPositions]
      rw [map_map_cancel φ ψ cs h]
  | Polygon c =>
    cases c with
    | none => simp [Geometry.coordsPresent] at hg
    | some rs =>
      refine ⟨_, rfl, ?_⟩
      simp only [mapPositions]
      rw [map_map_cancel (fun ring => ring.map φ) (fun ring => ring.map ψ) rs]
      intro r hr
      exact map_map_cancel φ ψ r (fun p hp => h p (List.mem_flatten.mpr ⟨r, hr, hp⟩))
  | MultiLineString c =>
    cases c with
    | none => simp [Geometry.coordsPresent] at hg
    | some rs =>
      refine ⟨_, rfl, ?_⟩
      simp only [mapPositions]
      rw [map_map_cancel (fun ring => ring.map φ) (fun ring => ring.map ψ) rs]
      intro r hr
      exact map_map_cancel φ ψ r (fun p hp => h p (List.mem_flatten.mpr ⟨r, hr, hp⟩))
  | MultiPolygon c =>
    cases c with
    | none => simp [Geometry.coordsPresent] at hg
    | some ps =>
      refine ⟨_, rfl, ?_⟩
      simp only [mapPositions]
      rw [map_map_cancel (fun polygon => polygon.map (fun ring => ring.map φ))
        (fun polygon => polygon.map (fun ring => ring.map ψ)) ps]
      intro poly hpoly
      refine map_map_cancel (fun ring => ring.map φ) (fun ring => ring.map ψ) poly ?_
      intro r hr
      refine map_map_cancel φ ψ r (fun p hp => h p ?_)
      exact List.mem_flatten.mpr ⟨r, List.mem_flatten.mpr ⟨poly, hpoly, hr⟩, hp⟩

theorem traverseFeature_roundtrip (F G : Geometry → Except JSError Geometry) (f : Feature)
    (h : ∀ g, f.geometry = some g → ∃ g1, F g = .ok g1 ∧ G g1 = .ok g) :
    ∃ f1, traverseFeature F f = .ok f1 ∧ traverseFeature G f1 = .ok f := by
  cases hfg : f.geometry with
  | none =>
    refine ⟨f, ?_, ?_⟩ <;> simp [traverseFeature, hfg]
  | some g =>
    obtain ⟨g1, h1, h2⟩ := h g hfg
    refine ⟨{ f with geometry := some g1 }, ?_, ?_⟩
    · simp [traverseFeature, hfg, h1]
    · simp only [traverseFeature, h2]
      cases f
      simp_all

theorem traverseFeatures_roundtrip (F G : Geometry → Except JSError Geometry)
    (fs : List Feature)
    (h : ∀ f ∈ fs, ∀ g, f.geometry = some g → ∃ g1, F g = .ok g1 ∧ G g1 = .ok g) :
    ∃ fs1, traverseFeatures F fs = .ok fs1 ∧ traverseFeatures G fs1 = .ok fs := by
  induction fs with
  | nil => exact ⟨[], rfl, rfl⟩
  | cons f fs ih =>
    obtain ⟨f1, hf1, hf2⟩ := traverseFeature_roundtrip F G f (h f (List.mem_cons_self _ _))
    obtain ⟨fs1, hfs1, hfs2⟩ := ih (fun x hx => h x (List.mem_cons_of_mem _ hx))
    refine ⟨f1 :: fs1, ?_, ?_⟩
    · simp [traverseFeatures, hf1, hfs1]
    · simp [traverseFeatures, hf2, hfs2]

/-- A transform undone geometry by geometry is undone on the whole document. -/
theorem traverseGeometries_roundtrip (F G : Geometry → Except JSError Geometry) (d : GeoData)
    (h : ∀ g ∈ d.geometries, ∃ g1, F g = .ok g1 ∧ G g1 = .ok g) :
    ∃ d1, traverseGeometries F d = .ok d1 ∧ traverseGeometries G d1 = .ok d := by
  cases d with
  | FeatureCollection fs =>
    obtain ⟨fs1, h1, h2⟩ := traverseFeatures_roundtrip F G fs (fun f hf g hg =>
      h g (by
        simp only [GeoData.geometries, GeoData.featureList, List.mem_filterMap]
        exact ⟨f, hf, hg⟩))
    exact ⟨.FeatureCollection fs1, by simp [traverseGeometries, h1],
      by simp [traverseGeometries, h2]⟩
  | Feature f =>
    obtain ⟨f1, h1, h2⟩ := traverseFeature_roundtrip F G f (fun g hg =>
      h g (by simp [GeoData.geometries, GeoData.featureList, hg]))
    exact ⟨.Feature f1, by simp [traverseGeometries, h1], by simp [traverseGeometries, h2]⟩
  | other t => exact ⟨.other t, rfl, rfl⟩

theorem mem_positions_of_mem_geometries (d : GeoData) (g : Geometry) (hg : g ∈ d.geometries)
    (p : Position) (hp : p ∈ g.positions) : p ∈ d.positions := by
  simp only [GeoData.positions, List.mem_flatMap]
  exact ⟨g, hg, hp⟩

theorem swapPosition_involutive (p : Position) (h : p.length = 2) :
    swapPosition (swapPosition p) = p := by
  match p, h with
  | [a, b], _ => rfl

theorem scalePosition_inverse (f : ℚ) (hf : f ≠ 0) (a b : ℚ) :
    scalePosition (JSNum.fin (1 / f))
      (scalePosition (JSNum.fin f) [JSVal.num (JSNum.fin a), JSVal.num (JSNum.fin b)])
      = [JSVal.num (JSNum.fin a), JSVal.num (JSNum.fin b)] := by
  have h1 : a * f * (1 / f) = a := by field_simp
  have h2 : b * f * (1 / f) = b := by field_simp
  simp only [scalePosition, elemAt, List.getD_cons_zero, List.getD_cons_succ, JSVal.toNumber,
    JSNum.mul, h1, h2]

/-! ## The normalizer: the counters against their reference, and the running maximum -/

theorem analyzePair_fin (c : Counters) (a b : ℚ) (m0 : ℚ) (hc : c.maxAbsValue = JSNum.fin m0) :
    analyzePair c (JSVal.num (JSNum.fin a)) (JSVal.num (JSNum.fin b)) =
      { lngOutOfRange := c.lngOutOfRange + (if a < -180 ∨ 180 < a then 1 else 0)
        latOutOfRange := c.latOutOfRange + (if b < -90 ∨ 90 < b then 1 else 0)
        largeValues := c.largeValues + (if 1000 < |a| ∨ 1000 < |b| then 1 else 0)
        veryLargeValues := c.veryLargeValues + (if 100000 < |a| ∨ 100000 < |b| then 1 else 0)
        possibleSwapped :=
          c.possibleSwapped + (if |a| ≤ 90 ∧ |b| ≤ 180 ∧ |b| < |a| then 1 else 0)
        maxAbsValue := JSNum.fin (Max.max (Max.max m0 |a|) |b|) } := by
  simp only [analyzePair, JSVal.toNumber, JSNum.abs, JSNum.gt, JSNum.lt, JSNum.le, JSNum.isNaN,
    hc, jsnum_max_fin, Bool.not_false, Bool.true_and, Bool.or_eq_true, Bool.and_eq_true,
    decide_eq_true_eq, Bool.not_eq_true', decide_eq_false_iff_not, not_lt]
  congr 1 <;> split_ifs <;> simp_all [and_assoc]

theorem run_reference (ps : List Position) (pairs : List (ℚ × ℚ))
    (h : List.Forall₂ (fun p ab => p.hasPair ab.1 ab.2) ps pairs) (c : Counters) (m0 : ℚ)
    (hc : c.maxAbsValue = JSNum.fin m0) (hm0 : 0 ≤ m0) :
    (c.run ps).lngOutOfRange = c.lngOutOfRange + (referenceCounters pairs).lngOutOfRange ∧
    (c.run ps).latOutOfRange = c.latOutOfRange + (referenceCounters pairs).latOutOfRange ∧
    (c.run ps).largeValues = c.largeValues + (referenceCounters pairs).largeValues ∧
    (c.run ps).veryLargeValues = c.veryLargeValues + (referenceCounters pairs).veryLargeValues ∧
    (c.run ps).possibleSwapped = c.possibleSwapped + (referenceCounters pairs).possibleSwapped ∧
    (c.run ps).maxAbsValue = JSNum.fin (Max.max m0
      ((pairs.flatMap (fun ab => [|ab.1|, |ab.2|])).foldr Max.max 0)) := by
  induction h generalizing c m0 with
  | nil =>
    simp only [Counters.run, List.foldl_nil, referenceCounters, List.countP_nil, Nat.add_zero,
      List.flatMap_nil, List.foldr_nil, hc, true_and]
    rw [max_eq_left hm0]
  | @cons p ab ps pairs hp _ ih =>
    obtain ⟨h0, h1⟩ := hasPair_elemAt hp
    rw [counters_run_cons, h0, h1]
    have hstep := analyzePair_fin c ab.1 ab.2 m0 hc
    obtain ⟨i1, i2, i3, i4, i5, i6⟩ :=
      ih (analyzePair c (JSVal.num (JSNum.fin ab.1)) (JSVal.num (JSNum.fin ab.2)))
        (Max.max (Max.max m0 |ab.1|) |ab.2|) (by rw [hstep])
        (le_trans hm0 (le_trans (le_max_left _ _) (le_max_left _ _)))
    rw [i1, i2, i3, i4, i5, i6, hstep]
    simp only [referenceCounters, List.countP_cons, List.flatMap_cons, List.foldr_cons,
      List.cons_append, List.nil_append, decide_eq_true_eq]
    refine ⟨by omega, by omega, by omega, by omega, by omega, ?_⟩
    rw [max_assoc, max_assoc]

theorem jsnum_abs_isNaN (u : JSNum) : u.abs.isNaN = u.isNaN := by
  cases u <;> rfl

theorem jsnum_max_isNaN (u v : JSNum) : (u.max v).isNaN = (u.isNaN || v.isNaN) := by
  cases u with
  | fin a =>
    cases v with
    | fin b => rw [jsnum_max_fin]; rfl
    | nan => rfl
    | posInf => rfl
    | negInf => rfl
  | nan => cases v <;> rfl
  | posInf => cases v <;> rfl
  | negInf => cases v <;> rfl

/-- A maximum that is a number exceeds a finite threshold exactly when one of the two
arguments does. -/
theorem jsnum_max_gt (u v : JSNum) (t : ℚ) (h : (u.max v).isNaN = false) :
    (u.max v).gt (JSNum.fin t) = (u.gt (JSNum.fin t) || v.gt (JSNum.fin t)) := by
  cases u with
  | fin a =>
    cases v with
    | fin b =>
      rw [jsnum_max_fin]
      simp only [JSNum.gt, JSNum.lt]
      rw [Bool.eq_iff_iff]
      simp [lt_max_iff]
    | nan => simp [JSNum.max, JSNum.isNaN] at h
    | posInf => simp [JSNum.max, JSNum.gt, JSNum.lt]
    | negInf => simp [JSNum.max, JSNum.gt, JSNum.lt]
  | nan => simp [JSNum.max, JSNum.isNaN] at h
  | posInf => cases v <;> simp_all [JSNum.max, JSNum.gt, JSNum.lt, JSNum.isNaN]
  | negInf => cases v <;> simp_all [JSNum.max, JSNum.gt, JSNum.lt, JSNum.isNaN]

/-- The running maximum is `NaN` exactly when it was `NaN` before the loop or a component
of an analysed pair is not a number. -/
theorem run_max_isNaN (ps : List Position) (c : Counters) :
    (c.run ps).maxAbsValue.isNaN = true ↔
      (c.maxAbsValue.isNaN = true ∨ ∃ p ∈ ps, (elemAt p 0).toNumber.isNaN = true ∨
        (elemAt p 1).toNumber.isNaN = true) := by
  induction ps generalizing c with
  | nil => simp [Counters.run]
  | cons p ps ih =>
    rw [counters_run_cons, ih]
    simp only [analyzePair, jsnum_max_isNaN, jsnum_abs_isNaN, Bool.or_eq_true,
      List.mem_cons, exists_eq_or_imp]
    constructor
    · rintro (((h | h) | h) | h)
      · exact Or.inl h
      · exact Or.inr (Or.inl (Or.inl h))
      · exact Or.inr (Or.inl (Or.inr h))
      · exact Or.inr (Or.inr h)
    · rintro (h | (h | h) | h)
      · exact Or.inl (Or.inl (Or.inl h))
      · exact Or.inl (Or.inl (Or.inr h))
      · exact Or.inl (Or.inr h)
      · exact Or.inr h

/-- A running maximum that is a number exceeds a finite threshold as soon as it did
before the loop or a component of an analysed pair does. -/
theorem run_max_gt (ps : List Position) (c : Counters) (t : ℚ)
    (hnn : (c.run ps).maxAbsValue.isNaN = false)
    (h : c.maxAbsValue.gt (JSNum.fin t) = true ∨
      ∃ p ∈ ps, (elemAt p 0).toNumber.abs.gt (JSNum.fin t) = true ∨
        (elemAt p 1).toNumber.abs.gt (JSNum.fin t) = true) :
    (c.run ps).maxAbsValue.gt (JSNum.fin t) = true := by
  induction ps generalizing c with
  | nil =>
    rcases h with h | ⟨p, hp, _⟩
    · exact h
    · simp at hp
  | cons p ps ih =>
    rw [counters_run_cons] at hnn ⊢
    have hstep : (analyzePair c (elemAt p 0) (elemAt p 1)).maxAbsValue.isNaN = false := by
      by_contra hno
      have hyes : (analyzePair c (elemAt p 0) (elemAt p 1)).maxAbsValue.isNaN = true := by
        simpa using hno
      have := (run_max_isNaN ps _).mpr (Or.inl hyes)
      rw [this] at hnn
      cases hnn
    apply ih _ hnn
    have hinner : ((c.maxAbsValue.max (elemAt p 0).toNumber.abs).isNaN) = false := by
      have h2 := hstep
      simp only [analyzePair, jsnum_max_isNaN, Bool.or_eq_false_iff] at h2
      simpa [jsnum_max_isNaN] using h2.1
    have hgt : (analyzePair c (elemAt p 0) (elemAt p 1)).maxAbsValue.gt (JSNum.fin t)
        = (c.maxAbsValue.gt (JSNum.fin t) || (elemAt p 0).toNumber.abs.gt (JSNum.fin t)
          || (elemAt p 1).toNumber.abs.gt (JSNum.fin t)) := by
      have h2 := hstep
      simp only [analyzePair] at h2 ⊢
      rw [jsnum_max_gt _ _ t h2, jsnum_max_gt _ _ t hinner]
    rcases h with h | ⟨q, hq, hbig⟩
    · left
      rw [hgt, h]
      rfl
    · rcases List.mem_cons.mp hq with rfl | hq
      · left
        rw [hgt]
        rcases hbig with hb | hb
        · rw [hb]; simp
        · rw [hb]; simp
      · right
        exact ⟨q, hq, hbig⟩

/-- A pair with a component above 100000 in absolute value is counted as very large,
whatever the kind of the components. -/
theorem run_veryLarge_pos_num (ps : List Position) (c : Counters) (p : Position) (hp : p ∈ ps)
    (hbig : (elemAt p 0).toNumber.abs.gt (JSNum.fin 100000) = true ∨
      (elemAt p 1).toNumber.abs.gt (JSNum.fin 100000) = true) :
    c.veryLargeValues < (c.run ps).veryLargeValues := by
  induction ps generalizing c with
  | nil => simp at hp
  | cons q ps ih =>
    rw [counters_run_cons]
    rcases List.mem_cons.mp hp with rfl | hp
    · refine lt_of_lt_of_le ?_ (run_veryLarge_mono ps _)
      simp only [analyzePair]
      rw [if_pos]
      · omega
      · simpa using hbig
    · refine lt_of_le_of_lt ?_ (ih _ hp)
      simp only [analyzePair]
      split <;> omega

/-! ## Claims C1 to C10 -/

/-- Claim C1, where the code departs from it: the row `{Lat: "N/A", Lng: "-93.6"}` under
the mapping `lat -> "Lat"`, `lon -> "Lng"` is not dropped.  `coerceNum` turns the latitude
cell into `null`, the global `isFinite(null)` is true, so the guard does not fire:
`mappedRowToFeature` returns a Feature whose coordinates are `[-93.6, null]`, and
`ingestRows` keeps it. -/
theorem mappedRowToFeature_keeps_bad_latitude (h : DateHost) :
    mappedRowToFeature h rowBadLatitude mapLatLng = some {
        geometry := Geometry.Point (some [JSVal.num (JSNum.fin (-468 / 5)), JSVal.null])
        properties := {
          name := JSVal.null, type := JSVal.null, location := JSVal.null, cost := JSVal.null,
          status := JSVal.null, startDate := JSVal.null, endDate := JSVal.null,
          contractor := JSVal.null, description := JSVal.null, documents := [] } } ∧
    (ingestRows h [rowBadLatitude] mapLatLng).length = 1 := by
  have hrow : mappedRowToFeature h rowBadLatitude mapLatLng = some {
        geometry := Geometry.Point (some [JSVal.num (JSNum.fin (-468 / 5)), JSVal.null])
        properties := {
          name := JSVal.null, type := JSVal.null, location := JSVal.null, cost := JSVal.null,
          status := JSVal.null, startDate := JSVal.null, endDate := JSVal.null,
          contractor := JSVal.null, description := JSVal.null, documents := [] } } := by
    simp [mappedRowToFeature, rowBadLatitude, mapLatLng, coerceNum, Row.get, propertyKey,
      Function.update, List.lookup, JSVal.looselyNull, stripCurrency, stringToNumber, trimChars,
      isJSWhiteSpace, parseDecimal, parseUnsignedDecimal, isDecDigit, isFinite, JSVal.toNumber,
      JSNum.isFinite, val, parseDate, JSVal.truthy]
    norm_num
  refine ⟨hrow, ?_⟩
  simp [ingestRows, hrow]

/-- Claim C2: when the mapped latitude and longitude cells coerce to the finite numbers
`lat` and `lon`, `mappedRowToFeature` returns a Feature whose geometry is a Point with
coordinates `[lon, lat]`, longitude first, and whose `documents` list is empty. -/
theorem mappedRowToFeature_point (h : DateHost) (r : Row) (map : Mapping) (lat lon : ℚ)
    (hlat : coerceNum (r.get (propertyKey (map SemKey.lat))) = JSVal.num (JSNum.fin lat))
    (hlon : coerceNum (r.get (propertyKey (map SemKey.lon))) = JSVal.num (JSNum.fin lon)) :
    ∃ f, mappedRowToFeature h r map = some f ∧
      f.geometry = Geometry.Point (some [JSVal.num (JSNum.fin lon), JSVal.num (JSNum.fin lat)]) ∧
      f.properties.documents = [] := by
  simp [mappedRowToFeature, hlat, hlon, isFinite, JSVal.toNumber, JSNum.isFinite]

/-- Claim C2 at the sample row `{Lat: "41.6", Lng: "-93.6", Name: "X"}` under its automatic
mapping (`lat -> "Lat"`, `lon -> "Lng"`, `name -> "Name"`, every other key `null`): a Point
at `[-93.6, 41.6]` with an empty `documents` list and the name "X". -/
theorem mappedRowToFeature_point_sampleRow :
    (List.map (autoMapColumns [sampleRow]) mapKeys
      = [some "Lat", some "Lng", some "Name", none, none, none, none, none, none, none,
         none]) ∧
    (∃ f, mappedRowToFeature hostNoDates sampleRow (autoMapColumns [sampleRow]) = some f ∧
      f.geometry = Geometry.Point
        (some [JSVal.num (JSNum.fin (-468 / 5)), JSVal.num (JSNum.fin (208 / 5))]) ∧
      f.properties.documents = []) ∧
    (mappedRowToFeature hostNoDates sampleRow (autoMapColumns [sampleRow])).map
      (fun f => f.properties.name) = some (JSVal.str "X") := by
  have hm := autoMapColumns_sampleRow
  refine ⟨hm, ?_, ?_⟩
  · simp only [mapKeys, List.map, List.cons.injEq, and_true] at hm
    exact mappedRowToFeature_point hostNoDates sampleRow (autoMapColumns [sampleRow])
      (208 / 5) (-468 / 5)
      (by rw [hm.1]; exact coerceNum_sample_cells.1)
      (by rw [hm.2.1]; exact coerceNum_sample_cells.2)
  · simp only [mapKeys, List.map, List.cons.injEq, and_true] at hm
    have hname : val sampleRow (autoMapColumns [sampleRow] SemKey.name) = JSVal.str "X" := by
      rw [hm.2.2.1]; decide
    simp [mappedRowToFeature, isFinite_coerceNum, hname]

/-- Claim C3: on a non-empty list of rows `autoMapColumns` maps each of the eleven keys to
the first column of the first row, in column order, whose name lower-cased and stripped of
non-alphanumeric characters equals an alias of the key normalised the same way, and to
`null` when the first row has no such column; the later rows play no part. -/
theorem autoMapColumns_first_match (r : Row) (rest : List Row) (k : SemKey) :
    autoMapColumns (r :: rest) k = specAutoMap (objectKeys r) k := by
  have hmem : k ∈ mapKeys := by cases k <;> decide
  have hnd : mapKeys.Nodup := by decide
  have h := foldl_update_apply
    (fun k => (objectKeys r).find? (fun c => (aliasMap k).contains (norm c)))
    mapKeys hnd (fun _ => none) k
  simp only [hmem, if_true] at h
  rw [← find_eq_spec]
  unfold autoMapColumns
  simp only [List.head?_cons, Option.getD_some]
  rw [h]
  cases hf : (objectKeys r).find? (fun c => (aliasMap k).contains (norm c)) with
  | none => rfl
  | some c => simp [find_ne_empty _ _ _ hf]

/-- Claim C4: on the empty list of rows `autoMapColumns` returns the mapping with all
eleven keys `null`, and ingesting the empty list produces no Feature. -/
theorem autoMapColumns_empty :
    (∀ k, autoMapColumns [] k = none) ∧
    ∀ h, ingestRows h [] (autoMapColumns []) = [] := by
  refine ⟨?_, fun h => rfl⟩
  intro k
  cases k <;> rfl

/-- Claim C5 as stated fails: the single Point `[80, 30]` has all its coordinates in the
geographic ranges and below 1000, yet `analyzeCoordinates` returns `needsSwapping = true`,
because the pair has `|first| <= 90` and `|first| > |second|`. -/
theorem analyzeCoordinates_east_needsSwapping :
    docEast.coordsPresent ∧
    (∀ p ∈ docEast.positions, ∃ a b, p.hasPair a b ∧ -180 ≤ a ∧ a ≤ 180 ∧
      -90 ≤ b ∧ b ≤ 90 ∧ |a| ≤ 1000 ∧ |b| ≤ 1000) ∧
    ∀ map, ∃ diag, analyzeCoordinates map docEast = .ok diag ∧
      diag.coordinateSystemType = "geographic" ∧ diag.possibleSwapped = 1 ∧
      diag.sampleCount = 1 ∧ diag.needsSwapping = true := by
  refine ⟨?_, ?_, ?_⟩
  · intro g hg
    simp [docEast, pointFeature, GeoData.geometries, GeoData.featureList] at hg
    subst hg
    rfl
  · intro p hp
    simp [docEast, pointFeature, GeoData.positions, GeoData.geometries, GeoData.featureList,
      Geometry.positions] at hp
    subst hp
    refine ⟨80, 30, ⟨[], rfl⟩, ?_⟩
    norm_num [abs_le]
  · intro map
    have hs : collectSamples docEast =
        .ok ([[JSVal.num (JSNum.fin 80), JSVal.num (JSNum.fin 30)]].map some, 1) := rfl
    obtain ⟨b, hA⟩ := analyzeCoordinates_of_collect map docEast _ 1 hs
    refine ⟨_, hA, ?_⟩
    simp [diagnose, Counters.run, Counters.init, analyzePair, elemAt, JSVal.toNumber,
      JSNum.abs, JSNum.gt, JSNum.lt, JSNum.max, JSNum.le, JSNum.isNaN]
    norm_num

/-- Claim C5, amended: for a document whose geometries have their coordinates and all of
whose pairs `(first, second)` satisfy `-180 <= first <= 180`, `-90 <= second <= 90` and
are at most 1000 in absolute value, `analyzeCoordinates` returns the category
`geographic` and `needsScaling = false`; `needsSwapping` is true exactly when, among the
first twenty collected samples, the pairs with `|first| <= 90`, `|second| <= 180` and
`|first| > |second|` number more than half of all collected samples.  So it is false when
at most half of the analysed pairs are such pairs, and when no pair of the document has
`|first| <= 90` together with `|first| > |second|`. -/
theorem analyzeCoordinates_geographic (map : Option MapView) (d : GeoData)
    (hd : d.coordsPresent)
    (hrange : ∀ p ∈ d.positions, ∃ a b, p.hasPair a b ∧ -180 ≤ a ∧ a ≤ 180 ∧
      -90 ≤ b ∧ b ≤ 90 ∧ |a| ≤ 1000 ∧ |b| ≤ 1000) :
    ∃ diag, analyzeCoordinates map d = .ok diag ∧
      diag.coordinateSystemType = "geographic" ∧ diag.needsScaling = false ∧
      (∀ pairs : List (ℚ × ℚ),
        List.Forall₂ (fun p ab => p.hasPair ab.1 ab.2) (d.samples.take 20) pairs →
        (diag.needsSwapping = true ↔ d.samples.length <
          2 * pairs.countP (fun ab => decide (|ab.1| ≤ 90 ∧ |ab.2| ≤ 180 ∧ |ab.2| < |ab.1|))) ∧
        (2 * pairs.countP (fun ab => decide (|ab.1| ≤ 90 ∧ |ab.2| ≤ 180 ∧ |ab.2| < |ab.1|))
            ≤ pairs.length → diag.needsSwapping = false)) ∧
      ((∀ p ∈ d.positions, ∀ a b, p.hasPair a b → ¬ (|a| ≤ 90 ∧ |b| < |a|)) →
        diag.needsSwapping = false) := by
  obtain ⟨bnd, hA⟩ := analyzeCoordinates_ok map d hd
  have hsub : ∀ p ∈ d.samples.take 20, p ∈ d.positions :=
    fun p hp => geoData_samples_subset d p (List.mem_of_mem_take hp)
  have hlv := run_small (d.samples.take 20) Counters.init
    (fun p hp => by
      obtain ⟨a, b, h1, _, _, _, _, h2, h3⟩ := hrange p (hsub p hp)
      exact ⟨a, b, h1, h2, h3⟩)
  have hl : (Counters.init.run (d.samples.take 20)).largeValues = 0 := hlv.1
  have hv : (Counters.init.run (d.samples.take 20)).veryLargeValues = 0 := hlv.2
  have hhalf : (0 : ℚ) ≤ (d.samples.length : ℚ) * (1 / 2) := by positivity
  refine ⟨_, hA, ?_, ?_, ?_, ?_⟩
  · simp only [diagnose, hl, hv, List.length_map, Nat.cast_zero, gt_iff_lt, lt_irrefl,
      if_false, not_lt.mpr hhalf]
  · simp only [diagnose, hl, hv, List.length_map, Nat.cast_zero, gt_iff_lt, lt_irrefl,
      if_false, not_lt.mpr hhalf, ne_eq, not_true_eq_false, decide_False]
  · intro pairs hpairs
    obtain ⟨_, _, _, _, hps, _⟩ :=
      run_reference (d.samples.take 20) pairs hpairs Counters.init 0 rfl (le_refl _)
    have hps1 : (Counters.init.run (d.samples.take 20)).possibleSwapped
        = pairs.countP (fun ab => decide (|ab.1| ≤ 90 ∧ |ab.2| ≤ 180 ∧ |ab.2| < |ab.1|)) := by
      rw [hps]
      simp [Counters.init, referenceCounters]
    have hiff : (diagnose map (d.samples.map some) d.geometries.length
        (Counters.init.run (d.samples.take 20)) bnd).needsSwapping = true ↔ d.samples.length <
          2 * pairs.countP (fun ab => decide (|ab.1| ≤ 90 ∧ |ab.2| ≤ 180 ∧ |ab.2| < |ab.1|)) := by
      simp only [diagnose, hps1, List.length_map, decide_eq_true_eq, gt_iff_lt]
      constructor
      · intro h
        have h2 : (d.samples.length : ℚ) < 2 * (pairs.countP
            (fun ab => decide (|ab.1| ≤ 90 ∧ |ab.2| ≤ 180 ∧ |ab.2| < |ab.1|)) : ℚ) := by
          linarith
        exact_mod_cast h2
      · intro h
        have h2 : (d.samples.length : ℚ) < 2 * (pairs.countP
            (fun ab => decide (|ab.1| ≤ 90 ∧ |ab.2| ≤ 180 ∧ |ab.2| < |ab.1|)) : ℚ) := by
          exact_mod_cast h
        linarith
    refine ⟨hiff, ?_⟩
    intro hle
    have hlen : pairs.length ≤ d.samples.length := by
      rw [← hpairs.length_eq, List.length_take]
      exact Nat.min_le_right _ _
    rw [Bool.eq_false_iff]
    intro htrue
    have := hiff.mp htrue
    omega
  · intro hsw
    have hs : (Counters.init.run (d.samples.take 20)).possibleSwapped = 0 :=
      run_unswapped (d.samples.take 20) Counters.init
        (fun p hp => by
          obtain ⟨a, b, h1, _⟩ := hrange p (hsub p hp)
          exact ⟨a, b, h1, hsw p (hsub p hp) a b h1⟩)
    simp only [diagnose, hs, List.length_map, Nat.cast_zero, gt_iff_lt, not_lt.mpr hhalf,
      decide_False]

/-- Claim C5, amended, at the three Points `[80, 30]`, `[10, 20]` and `[10, 20]`: one of
the three analysed pairs is counted as possibly swapped, which is not more than half, and
`needsSwapping` is false. -/
theorem analyzeCoordinates_geographic_docOneOfThree :
    ∃ diag, analyzeCoordinates none docOneOfThree = .ok diag ∧
      diag.coordinateSystemType = "geographic" ∧ diag.needsScaling = false ∧
      diag.possibleSwapped = 1 ∧ diag.sampleCount = 3 ∧ diag.needsSwapping = false := by
  have hpos : ∀ p ∈ docOneOfThree.positions,
      p = [JSVal.num (JSNum.fin 80), JSVal.num (JSNum.fin 30)] ∨
      p = [JSVal.num (JSNum.fin 10), JSVal.num (JSNum.fin 20)] := by
    intro p hp
    simpa [docOneOfThree, pointFeature, GeoData.positions, GeoData.geometries,
      GeoData.featureList, Geometry.positions] using hp
  have hd : docOneOfThree.coordsPresent := by
    intro g hg
    simp [docOneOfThree, pointFeature, GeoData.geometries, GeoData.featureList] at hg
    rcases hg with rfl | rfl <;> rfl
  obtain ⟨diag, h1, h2, h3, h4, _⟩ := analyzeCoordinates_geographic none docOneOfThree hd
    (fun p hp => by
      rcases hpos p hp with rfl | rfl
      · exact ⟨80, 30, ⟨[], rfl⟩, by norm_num [abs_le]⟩
      · exact ⟨10, 20, ⟨[], rfl⟩, by norm_num [abs_le]⟩)
  have hpairs : List.Forall₂ (fun (p : Position) (ab : ℚ × ℚ) => p.hasPair ab.1 ab.2)
      (docOneOfThree.samples.take 20) [(80, 30), (10, 20), (10, 20)] := by
    have hs : docOneOfThree.samples.take 20 =
        [[JSVal.num (JSNum.fin 80), JSVal.num (JSNum.fin 30)],
         [JSVal.num (JSNum.fin 10), JSVal.num (JSNum.fin 20)],
         [JSVal.num (JSNum.fin 10), JSVal.num (JSNum.fin 20)]] := rfl
    rw [hs]
    repeat (refine List.Forall₂.cons ⟨[], rfl⟩ ?_)
    exact List.Forall₂.nil
  obtain ⟨_, hhalf⟩ := h4 _ hpairs
  have hcount : List.countP (fun (ab : ℚ × ℚ) =>
      decide (|ab.1| ≤ 90 ∧ |ab.2| ≤ 180 ∧ |ab.2| < |ab.1|)) [(80, 30), (10, 20), (10, 20)]
      = 1 := by
    simp [List.countP_cons]
    norm_num [abs_of_pos]
  have hcoll : collectSamples docOneOfThree =
      .ok ([[JSVal.num (JSNum.fin 80), JSVal.num (JSNum.fin 30)],
         [JSVal.num (JSNum.fin 10), JSVal.num (JSNum.fin 20)],
         [JSVal.num (JSNum.fin 10), JSVal.num (JSNum.fin 20)]].map some, 3) := rfl
  obtain ⟨b, hA⟩ := analyzeCoordinates_of_collect none docOneOfThree _ 3 hcoll
  rw [hA] at h1
  injection h1 with h1
  refine ⟨diag, by rw [hA, h1], h2, h3, ?_, ?_, hhalf (by rw [hcount]; decide)⟩
  · rw [← h1]
    simp [diagnose, Counters.run, Counters.init, List.take, analyzePair, elemAt,
      JSVal.toNumber, JSNum.abs, JSNum.gt, JSNum.lt, JSNum.max, JSNum.le, JSNum.isNaN]
    norm_num
  · rw [← h1]
    rfl

/-- Claim C6 as stated fails: on a Point at `[200000, 5]` followed by a Point whose
position is the empty array, the two samples `[200000, 5]` and `[]` are collected and
analysed, one analysed pair has a component above 100000 and the
category is `projected_meters` with `needsScaling = true`, yet `maxAbsValue` is `NaN` and
`scaleFactor` is left at 1: both tests on `maxAbsValue` are false for `NaN`. -/
theorem analyzeCoordinates_projected_meters_nan :
    collectSamples docMetersEmpty =
      .ok ([[JSVal.num (JSNum.fin 200000), JSVal.num (JSNum.fin 5)], []].map some, 2) ∧
    ∀ map, ∃ diag, analyzeCoordinates map docMetersEmpty = .ok diag ∧
      diag.veryLargeValues = 1 ∧ diag.coordinateSystemType = "projected_meters" ∧
      diag.needsScaling = true ∧ diag.maxAbsValue = JSNum.nan ∧
      diag.scaleFactor = JSNum.fin 1 := by
  refine ⟨rfl, fun map => ?_⟩
  have hs : collectSamples docMetersEmpty =
      .ok ([[JSVal.num (JSNum.fin 200000), JSVal.num (JSNum.fin 5)], []].map some, 2) := rfl
  obtain ⟨b, hA⟩ := analyzeCoordinates_of_collect map docMetersEmpty _ 2 hs
  have hc : Counters.init.run ([[JSVal.num (JSNum.fin 200000), JSVal.num (JSNum.fin 5)],
      []].take 20) = ⟨1, 0, 0, 1, 1, JSNum.nan⟩ := by
    simp [Counters.run, Counters.init, List.take, analyzePair, elemAt, JSVal.toNumber,
      JSNum.abs, JSNum.gt, JSNum.lt, JSNum.le, JSNum.isNaN, jsnum_max_fin]
    norm_num
    rfl
  rw [hc] at hA
  refine ⟨_, hA, rfl, ?_, ?_, rfl, ?_⟩
  · simp [diagnose]
  · simp [diagnose]
  · simp [diagnose, JSNum.gt, JSNum.lt]

/-- Claim C6, amended: when the traversal has collected the positions `samples` and one
of the first twenty has a component above 100000 in absolute value, `analyzeCoordinates`
returns `projected_meters` and `needsScaling = true`; `scaleFactor` is 1e-5 when
`maxAbsValue` exceeds 1000000, 1e-6 when `maxAbsValue` is a number that does not, and 1
when `maxAbsValue` is `NaN`, which it is exactly when a component of an analysed pair is
not a number.  When the analysed samples are pairs of finite numbers the factor is
therefore 1e-5 or 1e-6 and never 1. -/
theorem analyzeCoordinates_projected_meters (map : Option MapView) (d : GeoData)
    (samples : List Position) (n : Nat)
    (hc : collectSamples d = .ok (samples.map some, n))
    (hbig : ∃ p ∈ samples.take 20, (elemAt p 0).toNumber.abs.gt (JSNum.fin 100000) = true ∨
      (elemAt p 1).toNumber.abs.gt (JSNum.fin 100000) = true) :
    ∃ diag, analyzeCoordinates map d = .ok diag ∧
      diag.coordinateSystemType = "projected_meters" ∧ diag.needsScaling = true ∧
      (diag.maxAbsValue.isNaN = true ↔
        ∃ p ∈ samples.take 20, (elemAt p 0).toNumber.isNaN = true ∨
          (elemAt p 1).toNumber.isNaN = true) ∧
      (diag.maxAbsValue.gt (JSNum.fin 1000000) = true →
        diag.scaleFactor = JSNum.fin (1 / 100000)) ∧
      (diag.maxAbsValue.isNaN = false → diag.maxAbsValue.gt (JSNum.fin 1000000) = false →
        diag.scaleFactor = JSNum.fin (1 / 1000000)) ∧
      (diag.maxAbsValue.isNaN = true → diag.scaleFactor = JSNum.fin 1) ∧
      ((∀ p ∈ samples.take 20, ∃ a b, p.hasPair a b) →
        ∃ m, diag.maxAbsValue = JSNum.fin m ∧
          diag.scaleFactor = JSNum.fin (if 1000000 < m then 1 / 100000 else 1 / 1000000) ∧
          diag.scaleFactor ≠ JSNum.fin 1) := by
  obtain ⟨bnd, hA⟩ := analyzeCoordinates_of_collect map d samples n hc
  obtain ⟨p, hp, hpbig⟩ := hbig
  have hv : 0 < (Counters.init.run (samples.take 20)).veryLargeValues :=
    run_veryLarge_pos_num _ Counters.init p hp hpbig
  have hnan := run_max_isNaN (samples.take 20) Counters.init
  have h0 : Counters.init.maxAbsValue.isNaN = false := rfl
  have hgt100 : (Counters.init.run (samples.take 20)).maxAbsValue.isNaN = false →
      (Counters.init.run (samples.take 20)).maxAbsValue.gt (JSNum.fin 100000) = true :=
    fun hnn => run_max_gt _ Counters.init 100000 hnn (Or.inr ⟨p, hp, hpbig⟩)
  have hfin : (∀ p ∈ samples.take 20, ∃ a b, p.hasPair a b) →
      ∃ m, (Counters.init.run (samples.take 20)).maxAbsValue = JSNum.fin m ∧
        (diagnose map (samples.map some) n (Counters.init.run (samples.take 20))
          bnd).scaleFactor = JSNum.fin (if 1000000 < m then 1 / 100000 else 1 / 1000000) := by
    intro hnum
    obtain ⟨m, hm, _, _⟩ := run_max (samples.take 20) Counters.init 0 rfl hnum
    have hmbig : 100000 < m := by
      have := hgt100 (by rw [hm]; rfl)
      rw [hm] at this
      simpa [JSNum.gt, JSNum.lt] using this
    refine ⟨m, hm, ?_⟩
    simp only [diagnose, hv, gt_iff_lt, if_true, hm, JSNum.gt, JSNum.lt, decide_eq_true_eq, hmbig]
    split_ifs <;> rfl
  refine ⟨_, hA, ?_, ?_, ?_, ?_, ?_, ?_, ?_⟩
  · simp [diagnose, hv]
  · simp [diagnose, hv]
  · show (Counters.init.run (samples.take 20)).maxAbsValue.isNaN = true ↔ _
    rw [hnan, h0]
    simp
  · intro hbig6
    have hbig6a : (Counters.init.run (samples.take 20)).maxAbsValue.gt (JSNum.fin 1000000)
        = true := hbig6
    simp only [diagnose, hv, if_true, hbig6a]
  · intro hnn hsmall
    have hnn1 : (Counters.init.run (samples.take 20)).maxAbsValue.isNaN = false := hnn
    have hsmall1 : (Counters.init.run (samples.take 20)).maxAbsValue.gt (JSNum.fin 1000000)
        = false := hsmall
    simp only [diagnose, hv, if_true, hsmall1, hgt100 hnn1, Bool.false_eq_true, if_false]
  · intro hisnan
    have hisnan1 : (Counters.init.run (samples.take 20)).maxAbsValue.isNaN = true := hisnan
    have hval : (Counters.init.run (samples.take 20)).maxAbsValue = JSNum.nan := by
      cases hx : (Counters.init.run (samples.take 20)).maxAbsValue <;>
        simp_all [JSNum.isNaN]
    simp only [diagnose, hv, if_true, hval, JSNum.gt, JSNum.lt, Bool.false_eq_true, if_false]
  · intro hnum
    obtain ⟨m, hm, hsf⟩ := hfin hnum
    refine ⟨m, hm, hsf, ?_⟩
    rw [hsf]
    intro h
    injection h with h
    split_ifs at h <;> norm_num at h

/-- Claim C6, amended, at a collection of two Points, `[200000, 5]` and `[3, 4]`:
`maxAbsValue` is 200000 and the factor is 1e-6. -/
theorem analyzeCoordinates_projected_meters_docMeters :
    ∃ diag, analyzeCoordinates none docMeters = .ok diag ∧
      diag.coordinateSystemType = "projected_meters" ∧ diag.needsScaling = true ∧
      diag.maxAbsValue = JSNum.fin 200000 ∧ diag.scaleFactor = JSNum.fin (1 / 1000000) ∧
      diag.scaleFactor ≠ JSNum.fin 1 := by
  have hs : collectSamples docMeters =
      .ok ([[JSVal.num (JSNum.fin 200000), JSVal.num (JSNum.fin 5)],
        [JSVal.num (JSNum.fin 3), JSVal.num (JSNum.fin 4)]].map some, 2) := rfl
  obtain ⟨diag, h1, h2, h3, _, _, h6, _, h8⟩ :=
    analyzeCoordinates_projected_meters none docMeters _ 2 hs
      ⟨[JSVal.num (JSNum.fin 200000), JSVal.num (JSNum.fin 5)], by simp,
        Or.inl (by simp [elemAt, JSVal.toNumber, JSNum.abs, JSNum.gt, JSNum.lt]; norm_num)⟩
  obtain ⟨m, hm, hsf, hne⟩ := h8 (by
    intro p hp
    simp only [List.take, List.mem_cons, List.mem_singleton, List.not_mem_nil, or_false] at hp
    rcases hp with rfl | rfl
    · exact ⟨200000, 5, [], rfl⟩
    · exact ⟨3, 4, [], rfl⟩)
  obtain ⟨b, hA⟩ := analyzeCoordinates_of_collect none docMeters _ 2 hs
  have hmax : diag.maxAbsValue = JSNum.fin 200000 := by
    rw [hA] at h1
    injection h1 with h1
    rw [← h1]
    simp [diagnose, Counters.run, Counters.init, List.take, analyzePair, elemAt,
      JSVal.toNumber, JSNum.abs, jsnum_max_fin]
    norm_num
  refine ⟨diag, h1, h2, h3, hmax, ?_, hne⟩
  exact h6 (by rw [hmax]; rfl) (by rw [hmax]; simp [JSNum.gt, JSNum.lt]; norm_num)

/-- Claim C7, where the code departs from it: on a collection of forty Points at
`[5000, 5000]` no analysed pair is above 100000 and all twenty analysed pairs are above
1000, yet `analyzeCoordinates` returns `geographic` with `scaleFactor` 1: the count over
the twenty analysed pairs is compared with half of all forty collected samples. -/
theorem analyzeCoordinates_forty_large (map : Option MapView) :
    ∃ diag, analyzeCoordinates map docForty = .ok diag ∧ diag.sampleCount = 40 ∧
      diag.largeValues = 20 ∧ diag.veryLargeValues = 0 ∧
      diag.coordinateSystemType = "geographic" ∧ diag.scaleFactor = JSNum.fin 1 := by
  have hs : collectSamples docForty = .ok ((List.replicate 40
      [JSVal.num (JSNum.fin 5000), JSVal.num (JSNum.fin 5000)]).map some, 40) := rfl
  obtain ⟨b, hA⟩ := analyzeCoordinates_of_collect map docForty _ 40 hs
  refine ⟨_, hA, ?_⟩
  simp [diagnose, Counters.run, Counters.init, List.replicate, List.take, analyzePair, elemAt,
    JSVal.toNumber, JSNum.abs, JSNum.gt, JSNum.lt, JSNum.max, JSNum.le, JSNum.isNaN]
  norm_num

/-- Claim C8, where the code departs from it: on a collection of forty Points at
`[80, 30]` all twenty analysed pairs are counted in `possibleSwapped`, which is more than
half of the twenty, yet `analyzeCoordinates` returns `needsSwapping = false`: the count is
compared with half of all forty collected samples. -/
theorem analyzeCoordinates_forty_east (map : Option MapView) :
    ∃ diag, analyzeCoordinates map docFortyEast = .ok diag ∧ diag.sampleCount = 40 ∧
      diag.possibleSwapped = 20 ∧ diag.needsSwapping = false := by
  have hs : collectSamples docFortyEast = .ok ((List.replicate 40
      [JSVal.num (JSNum.fin 80), JSVal.num (JSNum.fin 30)]).map some, 40) := rfl
  obtain ⟨b, hA⟩ := analyzeCoordinates_of_collect map docFortyEast _ 40 hs
  refine ⟨_, hA, ?_⟩
  simp [diagnose, Counters.run, Counters.init, List.replicate, List.take, analyzePair, elemAt,
    JSVal.toNumber, JSNum.abs, JSNum.gt, JSNum.lt, JSNum.max, JSNum.le, JSNum.isNaN]
  norm_num

/-- Claim C9 as stated fails: on a Point with an altitude, `[1, 2, 3]`, two calls of
`swapCoordinates` leave `[1, 2]`; the third component is lost. -/
theorem swapCoordinates_twice_altitude :
    swapCoordinates docAltitude
      = .ok (docPoint [JSVal.num (JSNum.fin 2), JSVal.num (JSNum.fin 1)]) ∧
    swapCoordinates (docPoint [JSVal.num (JSNum.fin 2), JSVal.num (JSNum.fin 1)])
      = .ok (docPoint [JSVal.num (JSNum.fin 1), JSVal.num (JSNum.fin 2)]) ∧
    docPoint [JSVal.num (JSNum.fin 1), JSVal.num (JSNum.fin 2)] ≠ docAltitude := by
  refine ⟨rfl, rfl, ?_⟩
  simp [docPoint, docAltitude]

/-- Claim C9, amended: for a document whose geometries have their coordinates and whose
positions each have exactly two components, `swapCoordinates` applied twice returns the
original document, in every coordinate and every other field. -/
theorem swapCoordinates_involutive (d : GeoData) (hd : d.coordsPresent)
    (hpair : ∀ p ∈ d.positions, p.length = 2) :
    ∃ d1, swapCoordinates d = .ok d1 ∧ swapCoordinates d1 = .ok d := by
  unfold swapCoordinates
  apply traverseGeometries_roundtrip
  intro g hg
  rw [swapGeometryCoords_eq]
  obtain ⟨g1, h1, h2⟩ := mapPositions_roundtrip swapPosition swapPosition g (hd g hg)
    (fun p hp => swapPosition_involutive p
      (hpair p (mem_positions_of_mem_geometries d g hg p hp)))
  exact ⟨g1, h1, by rw [swapGeometryCoords_eq]; exact h2⟩

/-- Claim C9, amended, at a collection of a Point `[-93, 41]` and a LineString
`[[10, 20], [30, 40]]`. -/
theorem swapCoordinates_involutive_docPlain :
    ∃ d1, swapCoordinates docPlain = .ok d1 ∧ swapCoordinates d1 = .ok docPlain := by
  refine swapCoordinates_involutive docPlain ?_ ?_
  · intro g hg
    simp [docPlain, pointFeature, GeoData.geometries, GeoData.featureList] at hg
    rcases hg with rfl | rfl <;> rfl
  · intro p hp
    simp [docPlain, pointFeature, GeoData.positions, GeoData.geometries, GeoData.featureList,
      Geometry.positions] at hp
    rcases hp with rfl | rfl | rfl <;> rfl

/-- Claim C10 as stated fails: on a Point with an altitude, `[1, 2, 3]`, scaling by 2 and
then by 1/2 leaves `[1, 2]`; the third coordinate is not restored. -/
theorem scaleCoordinates_inverse_altitude :
    scaleCoordinates docAltitude (JSNum.fin 2)
      = .ok (docPoint [JSVal.num (JSNum.fin 2), JSVal.num (JSNum.fin 4)]) ∧
    scaleCoordinates (docPoint [JSVal.num (JSNum.fin 2), JSVal.num (JSNum.fin 4)])
        (JSNum.fin (1 / 2))
      = .ok (docPoint [JSVal.num (JSNum.fin 1), JSVal.num (JSNum.fin 2)]) ∧
    docPoint [JSVal.num (JSNum.fin 1), JSVal.num (JSNum.fin 2)] ≠ docAltitude := by
  refine ⟨?_, ?_, ?_⟩
  · simp [scaleCoordinates, traverseGeometries, traverseFeature, scaleGeometryCoords,
      scalePosition, elemAt, JSVal.toNumber, JSNum.mul, docAltitude, docPoint]
    norm_num
  · simp [scaleCoordinates, traverseGeometries, traverseFeature, scaleGeometryCoords,
      scalePosition, elemAt, JSVal.toNumber, JSNum.mul, docPoint]
    norm_num
  · simp [docPoint, docAltitude]

/-- Claim C10, amended: over exact arithmetic, for a document whose geometries have their
coordinates and whose positions are pairs of finite numbers (exactly two components), and
for every non-zero factor `f`, `scaleCoordinates(doc, f)` followed by
`scaleCoordinates(doc, 1/f)` returns the original document. -/
theorem scaleCoordinates_inverse (d : GeoData) (f : ℚ) (hf : f ≠ 0) (hd : d.coordsPresent)
    (hpair : ∀ p ∈ d.positions,
      ∃ a b : ℚ, p = [JSVal.num (JSNum.fin a), JSVal.num (JSNum.fin b)]) :
    ∃ d1, scaleCoordinates d (JSNum.fin f) = .ok d1 ∧
      scaleCoordinates d1 (JSNum.fin (1 / f)) = .ok d := by
  unfold scaleCoordinates
  apply traverseGeometries_roundtrip
  intro g hg
  rw [scaleGeometryCoords_eq]
  obtain ⟨g1, h1, h2⟩ := mapPositions_roundtrip (scalePosition (JSNum.fin f))
    (scalePosition (JSNum.fin (1 / f))) g (hd g hg)
    (fun p hp => by
      obtain ⟨a, b, rfl⟩ := hpair p (mem_positions_of_mem_geometries d g hg p hp)
      exact scalePosition_inverse f hf a b)
  exact ⟨g1, h1, by rw [scaleGeometryCoords_eq]; exact h2⟩

/-- Claim C10, amended, at a collection of a Point `[-93, 41]` and a LineString
`[[10, 20], [30, 40]]`, with the factor 1/100000. -/
theorem scaleCoordinates_inverse_docPlain :
    ∃ d1, scaleCoordinates docPlain (JSNum.fin (1 / 100000)) = .ok d1 ∧
      scaleCoordinates d1 (JSNum.fin (1 / (1 / 100000))) = .ok docPlain := by
  refine scaleCoordinates_inverse docPlain (1 / 100000) (by norm_num) ?_ ?_
  · intro g hg
    simp [docPlain, pointFeature, GeoData.geometries, GeoData.featureList] at hg
    rcases hg with rfl | rfl <;> rfl
  · intro p hp
    simp [docPlain, pointFeature, GeoData.positions, GeoData.geometries, GeoData.featureList,
      Geometry.positions] at hp
    rcases hp with rfl | rfl | rfl
    · exact ⟨-93, 41, rfl⟩
    · exact ⟨10, 20, rfl⟩
    · exact ⟨30, 40, rfl⟩


/-! ## Lemmas for the claims C11 to C20 -/

theorem mapPositions_eq_mapPos (φ : Position → Position) (g : Geometry)
    (hg : g.coordsPresent = true) : mapPositions φ g = .ok (g.mapPos φ) := by
  cases g with
  | other t => rfl
  | _ c =>
    cases c with
    | none => simp [Geometry.coordsPresent] at hg
    | some c => rfl

theorem traverseFeature_eq_mapPos (F : Geometry → Except JSError Geometry)
    (φ : Position → Position) (f : Feature)
    (h : ∀ g, f.geometry = some g → F g = .ok (g.mapPos φ)) :
    traverseFeature F f = .ok (f.mapPos φ) := by
  cases hfg : f.geometry with
  | none =>
    cases f
    simp_all [traverseFeature, Feature.mapPos]
  | some g =>
    simp [traverseFeature, hfg, h g hfg, Feature.mapPos]

theorem traverseFeatures_eq_mapPos (F : Geometry → Except JSError Geometry)
    (φ : Position → Position) (fs : List Feature)
    (h : ∀ f ∈ fs, ∀ g, f.geometry = some g → F g = .ok (g.mapPos φ)) :
    traverseFeatures F fs = .ok (fs.map (Feature.mapPos φ)) := by
  induction fs with
  | nil => rfl
  | cons f fs ih =>
    simp [traverseFeatures, traverseFeature_eq_mapPos F φ f (h f (List.mem_cons_self _ _)),
      ih (fun x hx => h x (List.mem_cons_of_mem _ hx))]

/-- A transform that acts on every geometry of the document as `φ` on its positions acts
on the document as `GeoData.mapPos φ`. -/
theorem traverseGeometries_eq_mapPos (F : Geometry → Except JSError Geometry)
    (φ : Position → Position) (d : GeoData)
    (h : ∀ g ∈ d.geometries, F g = .ok (g.mapPos φ)) :
    traverseGeometries F d = .ok (d.mapPos φ) := by
  cases d with
  | FeatureCollection fs =>
    have hfs := traverseFeatures_eq_mapPos F φ fs (fun f hf g hg =>
      h g (by
        simp only [GeoData.geometries, GeoData.featureList, List.mem_filterMap]
        exact ⟨f, hf, hg⟩))
    simp [traverseGeometries, hfs, GeoData.mapPos]
  | Feature f =>
    have hf := traverseFeature_eq_mapPos F φ f (fun g hg =>
      h g (by simp [GeoData.geometries, GeoData.featureList, hg]))
    simp [traverseGeometries, hf, GeoData.mapPos]
  | other t => rfl

theorem mapPos_of_no_geometries (φ : Position → Position) (d : GeoData)
    (h : d.geometries = []) : d.mapPos φ = d := by
  have hfeat : ∀ f ∈ d.featureList, f.mapPos φ = f := by
    intro f hf
    cases hfg : f.geometry with
    | none =>
      cases f
      simp_all [Feature.mapPos]
    | some g =>
      have : g ∈ d.geometries := by
        simp only [GeoData.geometries, List.mem_filterMap]
        exact ⟨f, hf, hfg⟩
      rw [h] at this
      simp at this
  cases d with
  | FeatureCollection fs =>
    simp only [GeoData.mapPos, GeoData.FeatureCollection.injEq]
    have hmap : fs.map (Feature.mapPos φ) = fs.map id :=
      List.map_congr_left (fun f hf => hfeat f hf)
    rw [hmap, List.map_id]
  | Feature f =>
    simp only [GeoData.mapPos, GeoData.Feature.injEq]
    exact hfeat f (by simp [GeoData.featureList])
  | other t => rfl



theorem collectFeature_skipped (st : List Sample × Nat) (f : Feature) (hf : f.skipped = true) :
    ∃ n, collectFeature st f = .ok (st.1, n) := by
  unfold Feature.skipped at hf
  cases hfg : f.geometry with
  | none => exact ⟨st.2, by simp [collectFeature, hfg]⟩
  | some g =>
    rw [hfg] at hf
    cases g with
    | other t => exact ⟨st.2 + 1, by simp [collectFeature, hfg, extractCoords]⟩
    | _ c => simp at hf

theorem collectFeature_fst (st1 st2 : List Sample × Nat) (f : Feature) (h : st1.1 = st2.1) :
    (collectFeature st1 f).map Prod.fst = (collectFeature st2 f).map Prod.fst := by
  unfold collectFeature
  cases f.geometry with
  | none => simp [Except.map, h]
  | some g =>
    simp only [h]
    cases extractCoords st2.1 g <;> rfl

theorem collect_fold_fst (fs : List Feature) (st1 st2 : List Sample × Nat) (h : st1.1 = st2.1) :
    (fs.foldlM collectFeature st1).map Prod.fst
      = ((fs.filter (fun f => !f.skipped)).foldlM collectFeature st2).map Prod.fst := by
  induction fs generalizing st1 st2 with
  | nil => simp [pure, Except.pure, Except.map, h]
  | cons f fs ih =>
    rw [List.foldlM_cons]
    by_cases hf : f.skipped = true
    · obtain ⟨n, hn⟩ := collectFeature_skipped st1 f hf
      rw [hn]
      simp only [bind, Except.bind, List.filter_cons, hf, Bool.not_true, Bool.false_eq_true,
        if_false]
      exact ih _ _ h
    · simp only [List.filter_cons, hf, Bool.not_false, if_true, List.foldlM_cons, Bool.not_eq_true,
        Bool.not_eq_true']
      have hfst := collectFeature_fst st1 st2 f h
      cases h1 : collectFeature st1 f with
      | error e =>
        cases h2 : collectFeature st2 f with
        | error e2 =>
          cases e; cases e2
          simp [bind, Except.bind, Except.map]
        | ok r2 => rw [h1, h2] at hfst; simp [Except.map] at hfst
      | ok r1 =>
        cases h2 : collectFeature st2 f with
        | error e2 => rw [h1, h2] at hfst; simp [Except.map] at hfst
        | ok r2 =>
          rw [h1, h2] at hfst
          simp only [Except.map, Except.ok.injEq] at hfst
          simp only [bind, Except.bind]
          exact ih _ _ hfst

theorem collectSamples_dropSkipped (d : GeoData) :
    (collectSamples d).map Prod.fst = (collectSamples d.dropSkipped).map Prod.fst := by
  cases d with
  | FeatureCollection fs => exact collect_fold_fst fs _ _ rfl
  | Feature f =>
    by_cases hf : f.skipped = true
    · simp only [GeoData.dropSkipped, hf, if_true]
      obtain ⟨n, hn⟩ := collectFeature_skipped ([], 0) f hf
      unfold Feature.skipped at hf
      cases hfg : f.geometry with
      | none => simp [collectSamples, hfg, Except.map, pure, Except.pure]
      | some g =>
        rw [hfg] at hf
        cases g with
        | other t => simp [collectSamples, hfg, extractCoords, Except.map, pure, Except.pure]
        | _ c => simp at hf
    · simp [GeoData.dropSkipped, hf]
  | other t => simp [collectSamples, GeoData.dropSkipped, Except.map, pure, Except.pure]

theorem analyzeCoordinates_congr_samples (map : Option MapView) (d1 d2 : GeoData)
    (h : (collectSamples d1).map Prod.fst = (collectSamples d2).map Prod.fst) :
    (analyzeCoordinates map d1).map Diagnosis.withoutFeatureCount
      = (analyzeCoordinates map d2).map Diagnosis.withoutFeatureCount := by
  unfold analyzeCoordinates
  cases h1 : collectSamples d1 with
  | error e =>
    cases h2 : collectSamples d2 with
    | error e2 => cases e; cases e2; rfl
    | ok r2 => rw [h1, h2] at h; simp [Except.map] at h
  | ok r1 =>
    cases h2 : collectSamples d2 with
    | error e2 => rw [h1, h2] at h; simp [Except.map] at h
    | ok r2 =>
      rw [h1, h2] at h
      simp only [Except.map, Except.ok.injEq] at h
      obtain ⟨s1, n1⟩ := r1
      obtain ⟨s2, n2⟩ := r2
      simp only at h
      subst h
      simp only
      cases (List.take 20 s1).foldlM analyzeSample Counters.init with
      | error e => rfl
      | ok c =>
        simp only
        cases calculateBounds s1 with
        | error e => rfl
        | ok b => rfl

theorem traverseFeature_skipped (F : Geometry → Except JSError Geometry)
    (hF : ∀ t, F (.other t) = .ok (.other t)) (f : Feature) (hf : f.skipped = true) :
    traverseFeature F f = .ok f := by
  unfold Feature.skipped at hf
  cases hfg : f.geometry with
  | none => simp [traverseFeature, hfg]
  | some g =>
    rw [hfg] at hf
    cases g with
    | other t =>
      cases f
      simp_all [traverseFeature]
    | _ c => simp at hf

theorem traverseFeatures_insert (F : Geometry → Except JSError Geometry)
    (hF : ∀ t, F (.other t) = .ok (.other t)) (fs1 fs2 : List Feature) (f : Feature)
    (hf : f.skipped = true) :
    traverseFeatures F (fs1 ++ f :: fs2)
      = (traverseFeatures F (fs1 ++ fs2)).map
          (fun r => r.take fs1.length ++ f :: r.drop fs1.length) := by
  induction fs1 with
  | nil =>
    simp only [List.nil_append, traverseFeatures, traverseFeature_skipped F hF f hf,
      List.length_nil, List.take_zero, List.drop_zero]
    cases traverseFeatures F fs2 <;> rfl
  | cons g fs1 ih =>
    rw [List.cons_append, List.cons_append, traverseFeatures, traverseFeatures, ih]
    cases traverseFeature F g with
    | error e => rfl
    | ok g1 =>
      cases traverseFeatures F (fs1 ++ fs2) with
      | error e => rfl
      | ok r => rfl

theorem traverseGeometries_insert (F : Geometry → Except JSError Geometry)
    (hF : ∀ t, F (.other t) = .ok (.other t)) (fs1 fs2 : List Feature) (f : Feature)
    (hf : f.skipped = true) :
    traverseGeometries F (.FeatureCollection (fs1 ++ f :: fs2))
      = (traverseGeometries F (.FeatureCollection (fs1 ++ fs2))).map
          (GeoData.insertFeature fs1.length f) := by
  simp only [traverseGeometries, traverseFeatures_insert F hF fs1 fs2 f hf]
  cases traverseFeatures F (fs1 ++ fs2) <;> rfl

theorem extractCoords_subset (st : List Sample) (g : Geometry) (r : List Sample)
    (h : extractCoords st g = .ok r) : ∀ x ∈ st, x ∈ r := by
  intro x hx
  cases g with
  | other t =>
    simp only [extractCoords, Except.ok.injEq] at h
    subst h
    exact hx
  | Point c =>
    simp only [extractCoords, Except.ok.injEq] at h
    subst h
    exact List.mem_append_left _ hx
  | LineString c =>
    cases c with
    | none => simp [extractCoords] at h
    | some cs =>
      simp only [extractCoords, Except.ok.injEq] at h
      subst h
      exact List.mem_append_left _ hx
  | MultiPoint c =>
    cases c with
    | none => simp [extractCoords] at h
    | some cs =>
      simp only [extractCoords, Except.ok.injEq] at h
      subst h
      exact List.mem_append_left _ hx
  | Polygon c =>
    cases c with
    | none => simp [extractCoords] at h
    | some rs =>
      cases rs with
      | nil =>
        simp only [extractCoords, List.head?_nil, Except.ok.injEq] at h
        subst h
        exact hx
      | cons r0 rs =>
        simp only [extractCoords, List.head?_cons, Except.ok.injEq] at h
        subst h
        exact List.mem_append_left _ hx
  | MultiLineString c =>
    cases c with
    | none => simp [extractCoords] at h
    | some rs =>
      cases rs with
      | nil =>
        simp only [extractCoords, List.head?_nil, Except.ok.injEq] at h
        subst h
        exact hx
      | cons r0 rs =>
        simp only [extractCoords, List.head?_cons, Except.ok.injEq] at h
        subst h
        exact List.mem_append_left _ hx
  | MultiPolygon c =>
    cases c with
    | none => simp [extractCoords] at h
    | some ps =>
      cases ps with
      | nil =>
        simp only [extractCoords, List.head?_nil, Except.ok.injEq] at h
        subst h
        exact hx
      | cons p0 ps =>
        cases p0 with
        | nil =>
          simp only [extractCoords, List.head?_cons, List.head?_nil, Except.ok.injEq] at h
          subst h
          exact hx
        | cons r0 p0 =>
          simp only [extractCoords, List.head?_cons, Except.ok.injEq] at h
          subst h
          exact List.mem_append_left _ hx

/-- A geometry of one of the six types without its coordinates makes `extractCoords`
throw, or push an `undefined` sample. -/
theorem extractCoords_absent (st : List Sample) (g : Geometry) (hg : g.coordsPresent = false)
    (r : List Sample) (h : extractCoords st g = .ok r) : none ∈ r := by
  cases g with
  | other t => simp [Geometry.coordsPresent] at hg
  | Point c =>
    cases c with
    | some c => simp [Geometry.coordsPresent] at hg
    | none =>
      simp only [extractCoords, Except.ok.injEq] at h
      subst h
      simp
  | _ c =>
    cases c with
    | some c => simp [Geometry.coordsPresent] at hg
    | none => simp [extractCoords] at h

theorem collectFeature_subset (st r : List Sample × Nat) (f : Feature)
    (h : collectFeature st f = .ok r) : ∀ x ∈ st.1, x ∈ r.1 := by
  unfold collectFeature at h
  cases hfg : f.geometry with
  | none =>
    simp only [hfg, Except.ok.injEq] at h
    subst h
    exact fun x hx => hx
  | some g =>
    simp only [hfg] at h
    cases he : extractCoords st.1 g with
    | error e => simp [he] at h
    | ok samples =>
      simp only [he, Except.ok.injEq] at h
      subst h
      exact extractCoords_subset st.1 g samples he

theorem collect_fold_subset (fs : List Feature) (st r : List Sample × Nat)
    (h : fs.foldlM collectFeature st = .ok r) : ∀ x ∈ st.1, x ∈ r.1 := by
  induction fs generalizing st with
  | nil =>
    simp only [List.foldlM_nil, pure, Except.pure, Except.ok.injEq] at h
    subst h
    exact fun x hx => hx
  | cons f fs ih =>
    rw [List.foldlM_cons] at h
    cases h1 : collectFeature st f with
    | error e => simp [h1, bind, Except.bind] at h
    | ok r1 =>
      simp only [h1, bind, Except.bind] at h
      exact fun x hx => ih r1 h x (collectFeature_subset st r1 f h1 x hx)

theorem collect_fold_absent (fs : List Feature) (st r : List Sample × Nat)
    (hbad : ∃ f ∈ fs, ∃ g, f.geometry = some g ∧ g.coordsPresent = false)
    (h : fs.foldlM collectFeature st = .ok r) : none ∈ r.1 := by
  induction fs generalizing st with
  | nil => simp at hbad
  | cons f fs ih =>
    rw [List.foldlM_cons] at h
    cases h1 : collectFeature st f with
    | error e => simp [h1, bind, Except.bind] at h
    | ok r1 =>
      simp only [h1, bind, Except.bind] at h
      obtain ⟨f0, hf0, g, hg, hgc⟩ := hbad
      rcases List.mem_cons.mp hf0 with rfl | hmem
      · apply collect_fold_subset fs r1 r h
        unfold collectFeature at h1
        simp only [hg] at h1
        cases he : extractCoords st.1 g with
        | error e => simp [he] at h1
        | ok samples =>
          simp only [he, Except.ok.injEq] at h1
          subst h1
          exact extractCoords_absent st.1 g hgc samples he
      · exact ih r1 ⟨f0, hmem, g, hg, hgc⟩ h

theorem not_coordsPresent_iff (d : GeoData) :
    ¬ d.coordsPresent ↔ ∃ f ∈ d.featureList, ∃ g, f.geometry = some g ∧ g.coordsPresent = false := by
  unfold GeoData.coordsPresent GeoData.geometries
  simp only [List.mem_filterMap, not_forall, Bool.not_eq_true]
  constructor
  · rintro ⟨g, ⟨f, hf, hg⟩, hgc⟩
    exact ⟨f, hf, g, hg, hgc⟩
  · rintro ⟨f, hf, g, hg, hgc⟩
    exact ⟨g, ⟨f, hf, hg⟩, hgc⟩

theorem collectSamples_absent (d : GeoData) (hd : ¬ d.coordsPresent) (r : List Sample × Nat)
    (h : collectSamples d = .ok r) : none ∈ r.1 := by
  obtain ⟨f, hf, g, hg, hgc⟩ := (not_coordsPresent_iff d).mp hd
  cases d with
  | FeatureCollection fs => exact collect_fold_absent fs _ r ⟨f, hf, g, hg, hgc⟩ h
  | Feature f0 =>
    simp only [GeoData.featureList, List.mem_singleton] at hf
    subst hf
    simp only [collectSamples, hg] at h
    cases he : extractCoords [] g with
    | error e => simp [he] at h
    | ok samples =>
      simp only [he, Except.ok.injEq] at h
      subst h
      exact extractCoords_absent [] g hgc samples he
  | other t => simp [GeoData.featureList] at hf

theorem bounds_fold_undefined (l : List Sample) (b0 : Bounds) (h : none ∈ l) :
    l.foldlM boundsStep b0 = .error .TypeError := by
  induction l generalizing b0 with
  | nil => simp at h
  | cons x l ih =>
    rw [List.foldlM_cons]
    cases x with
    | none => rfl
    | some p =>
      simp only [boundsStep, bind, Except.bind]
      exact ih _ (by simpa using h)

theorem calculateBounds_undefined (l : List Sample) (h : none ∈ l) :
    calculateBounds l = .error .TypeError := by
  unfold calculateBounds
  have hlen : ¬ l.length = 0 := by
    intro h0
    rw [List.length_eq_zero] at h0
    subst h0
    simp at h
  simp only [hlen, if_false, bounds_fold_undefined l _ h]

theorem analyzeCoordinates_absent (map : Option MapView) (d : GeoData) (hd : ¬ d.coordsPresent) :
    analyzeCoordinates map d = .error .TypeError := by
  unfold analyzeCoordinates
  cases hc : collectSamples d with
  | error e => cases e; rfl
  | ok r =>
    obtain ⟨samples, n⟩ := r
    have hnone : none ∈ samples := collectSamples_absent d hd _ hc
    simp only
    cases (List.take 20 samples).foldlM analyzeSample Counters.init with
    | error e => cases e; rfl
    | ok c => simp only [calculateBounds_undefined samples hnone]

theorem traverseFeatures_absent (F : Geometry → Except JSError Geometry) (fs : List Feature)
    (hbad : ∃ f ∈ fs, ∃ g, f.geometry = some g ∧ F g = .error .TypeError) :
    traverseFeatures F fs = .error .TypeError := by
  induction fs with
  | nil => simp at hbad
  | cons f fs ih =>
    rw [traverseFeatures]
    cases h1 : traverseFeature F f with
    | error e => cases e; rfl
    | ok f1 =>
      obtain ⟨f0, hf0, g, hg, hFg⟩ := hbad
      rcases List.mem_cons.mp hf0 with rfl | hmem
      · simp [traverseFeature, hg, hFg] at h1
      · simp only [ih ⟨f0, hmem, g, hg, hFg⟩]

theorem traverseGeometries_absent (F : Geometry → Except JSError Geometry) (d : GeoData)
    (hF : ∀ g, g.coordsPresent = false → F g = .error .TypeError) (hd : ¬ d.coordsPresent) :
    traverseGeometries F d = .error .TypeError := by
  obtain ⟨f, hf, g, hg, hgc⟩ := (not_coordsPresent_iff d).mp hd
  cases d with
  | FeatureCollection fs =>
    simp only [traverseGeometries, traverseFeatures_absent F fs ⟨f, hf, g, hg, hF g hgc⟩]
  | Feature f0 =>
    simp only [GeoData.featureList, List.mem_singleton] at hf
    subst hf
    simp [traverseGeometries, traverseFeature, hg, hF g hgc]
  | other t => simp [GeoData.featureList] at hf

theorem mapPositions_absent (φ : Position → Position) (g : Geometry)
    (hg : g.coordsPresent = false) : mapPositions φ g = .error .TypeError := by
  cases g with
  | other t => simp [Geometry.coordsPresent] at hg
  | _ c =>
    cases c with
    | some c => simp [Geometry.coordsPresent] at hg
    | none => rfl

theorem geometry_positions_mapPos (φ : Position → Position) (g : Geometry) :
    (g.mapPos φ).positions = g.positions.map φ := by
  cases g with
  | other t => rfl
  | Point c => cases c <;> rfl
  | LineString c => cases c <;> rfl
  | MultiPoint c => cases c <;> rfl
  | Polygon c =>
    cases c with
    | none => rfl
    | some rs => simp [Geometry.mapPos, Geometry.positions, List.map_flatten]
  | MultiLineString c =>
    cases c with
    | none => rfl
    | some rs => simp [Geometry.mapPos, Geometry.positions, List.map_flatten]
  | MultiPolygon c =>
    cases c with
    | none => rfl
    | some ps => simp [Geometry.mapPos, Geometry.positions, List.map_flatten]

theorem geoData_geometries_mapPos (φ : Position → Position) (d : GeoData) :
    (d.mapPos φ).geometries = d.geometries.map (Geometry.mapPos φ) := by
  have key : ∀ fs : List Feature,
      (fs.map (Feature.mapPos φ)).filterMap (fun f => f.geometry)
        = (fs.filterMap (fun f => f.geometry)).map (Geometry.mapPos φ) := by
    intro fs
    induction fs with
    | nil => rfl
    | cons f fs ih =>
      cases hfg : f.geometry with
      | none => simp [List.filterMap_cons, Feature.mapPos, hfg, ih]
      | some g => simp [List.filterMap_cons, Feature.mapPos, hfg, ih]
  cases d with
  | FeatureCollection fs => exact key fs
  | Feature f => exact key [f]
  | other t => rfl

/-- The positions of the transformed document are the transformed positions, in the
same order. -/
theorem geoData_positions_mapPos (φ : Position → Position) (d : GeoData) :
    (d.mapPos φ).positions = d.positions.map φ := by
  unfold GeoData.positions
  rw [geoData_geometries_mapPos]
  induction d.geometries with
  | nil => rfl
  | cons g gs ih =>
    simp only [List.map_cons, List.flatMap_cons, List.map_append, geometry_positions_mapPos, ih]

/-- On a document whose geometries have their coordinates `scaleCoordinates` returns the
document with `scalePosition` applied to every position. -/
theorem scaleCoordinates_mapPos (d : GeoData) (s : JSNum) (hd : d.coordsPresent) :
    scaleCoordinates d s = .ok (d.mapPos (scalePosition s)) := by
  unfold scaleCoordinates
  apply traverseGeometries_eq_mapPos
  intro g hg
  rw [scaleGeometryCoords_eq, mapPositions_eq_mapPos _ g (hd g hg)]

/-- On a document whose geometries have their coordinates `swapCoordinates` returns the
document with `swapPosition` applied to every position. -/
theorem swapCoordinates_mapPos (d : GeoData) (hd : d.coordsPresent) :
    swapCoordinates d = .ok (d.mapPos swapPosition) := by
  unfold swapCoordinates
  apply traverseGeometries_eq_mapPos
  intro g hg
  rw [swapGeometryCoords_eq, mapPositions_eq_mapPos _ g (hd g hg)]

theorem docPlain_coordsPresent : docPlain.coordsPresent := by
  intro g hg
  simp [docPlain, pointFeature, GeoData.geometries, GeoData.featureList] at hg
  rcases hg with rfl | rfl <;> rfl

/-! ## Claims C11 to C20 -/

/-- Claim C11: on a document whose geometries have their coordinates, and for every
factor, `scaleCoordinates` returns the document in which every position of every geometry,
at the nesting depth of its type and in the same order, has been replaced by its scaled
pair: a position with components `(a, b)` becomes `(a * factor, b * factor)`.  On a
document with no geometries the call changes nothing. -/
theorem scaleCoordinates_scales_every_pair (d : GeoData) (s : JSNum) (hd : d.coordsPresent) :
    scaleCoordinates d s = .ok (d.mapPos (scalePosition s)) ∧
    (d.mapPos (scalePosition s)).positions = d.positions.map (scalePosition s) ∧
    (∀ a b rest, scalePosition s (JSVal.num a :: JSVal.num b :: rest)
        = [JSVal.num (a.mul s), JSVal.num (b.mul s)]) ∧
    (∀ (a b f : ℚ) rest, s = JSNum.fin f →
      scalePosition s (JSVal.num (JSNum.fin a) :: JSVal.num (JSNum.fin b) :: rest)
        = [JSVal.num (JSNum.fin (a * f)), JSVal.num (JSNum.fin (b * f))]) ∧
    (d.geometries = [] → scaleCoordinates d s = .ok d) := by
  have hmain := scaleCoordinates_mapPos d s hd
  refine ⟨hmain, geoData_positions_mapPos _ d, fun a b rest => rfl, ?_, ?_⟩
  · intro a b f rest hs
    subst hs
    rfl
  · intro hnone
    rw [hmain, mapPos_of_no_geometries _ d hnone]

/-- Claim C11 at the collection of a Point `[-93, 41]` and a LineString
`[[10, 20], [30, 40]]` with the factor 2: the Point becomes `[-186, 82]` and the line
`[[20, 40], [60, 80]]`, the properties untouched. -/
theorem scaleCoordinates_docPlain_doubled :
    scaleCoordinates docPlain (JSNum.fin 2) = .ok docPlainDoubled := by
  rw [(scaleCoordinates_scales_every_pair docPlain (JSNum.fin 2) docPlain_coordsPresent).1]
  simp [docPlain, docPlainDoubled, pointFeature, GeoData.mapPos, Feature.mapPos,
    Geometry.mapPos, scalePosition, elemAt, JSVal.toNumber, JSNum.mul]
  norm_num

/-- Claim C12: on a document whose geometries have their coordinates, `swapCoordinates`
returns the document in which every position of every geometry, at the nesting depth of
its type, has been replaced by its swapped pair, `(a, b)` becoming `(b, a)`; positions,
rings, polygons and features keep their order. -/
theorem swapCoordinates_swaps_every_pair (d : GeoData) (hd : d.coordsPresent) :
    swapCoordinates d = .ok (d.mapPos swapPosition) ∧
    (d.mapPos swapPosition).positions = d.positions.map swapPosition ∧
    (∀ a b rest, swapPosition (a :: b :: rest) = [b, a]) :=
  ⟨swapCoordinates_mapPos d hd, geoData_positions_mapPos _ d, fun _ _ _ => rfl⟩

/-- Claim C12 at the collection of a Point `[-93, 41]` and a LineString
`[[10, 20], [30, 40]]`: the Point becomes `[41, -93]` and the line `[[20, 10], [40, 30]]`. -/
theorem swapCoordinates_docPlain_swapped :
    swapCoordinates docPlain = .ok docPlainSwapped := by
  rw [(swapCoordinates_swaps_every_pair docPlain docPlain_coordsPresent).1]
  rfl

/-- Claim C13: when the traversal has collected the positions `samples` and the first
twenty of them are the pairs of finite numbers `pairs`, the counters `analyzeCoordinates`
returns are the reference counts over `pairs`: first outside `[-180, 180]`, second outside
`[-90, 90]`, a component above 1000, a component above 100000, `|first| <= 90` with
`|second| <= 180` and `|first| > |second|`, and the largest absolute component (0 for no
sample). -/
theorem analyzeCoordinates_counters (map : Option MapView) (d : GeoData)
    (samples : List Position) (n : Nat) (pairs : List (ℚ × ℚ))
    (hc : collectSamples d = .ok (samples.map some, n))
    (hp : List.Forall₂ (fun p ab => p.hasPair ab.1 ab.2) (samples.take 20) pairs) :
    ∃ diag, analyzeCoordinates map d = .ok diag ∧
      diag.lngOutOfRange = (referenceCounters pairs).lngOutOfRange ∧
      diag.latOutOfRange = (referenceCounters pairs).latOutOfRange ∧
      diag.largeValues = (referenceCounters pairs).largeValues ∧
      diag.veryLargeValues = (referenceCounters pairs).veryLargeValues ∧
      diag.possibleSwapped = (referenceCounters pairs).possibleSwapped ∧
      diag.maxAbsValue = (referenceCounters pairs).maxAbsValue := by
  obtain ⟨bnd, hA⟩ := analyzeCoordinates_of_collect map d samples n hc
  obtain ⟨i1, i2, i3, i4, i5, i6⟩ :=
    run_reference (samples.take 20) pairs hp Counters.init 0 rfl (le_refl _)
  have hnn : (0 : ℚ) ≤ (pairs.flatMap (fun ab => [|ab.1|, |ab.2|])).foldr Max.max 0 := by
    generalize pairs.flatMap (fun ab => [|ab.1|, |ab.2|]) = l
    induction l with
    | nil => exact le_refl _
    | cons x l ih => exact le_trans ih (le_max_right _ _)
  refine ⟨_, hA, ?_, ?_, ?_, ?_, ?_, ?_⟩
  · simpa [diagnose, Counters.init] using i1
  · simpa [diagnose, Counters.init] using i2
  · simpa [diagnose, Counters.init] using i3
  · simpa [diagnose, Counters.init] using i4
  · simpa [diagnose, Counters.init] using i5
  · simp only [diagnose, i6, referenceCounters, max_eq_right hnn]

/-- Claim C13 at the three Points `[80, 30]`, `[45, 120]` and `[120, 45]`: one pair is
counted as possibly swapped, and it is `(80, 30)`; one latitude is out of range, no value
is large, and the largest absolute component is 120. -/
theorem analyzeCoordinates_counters_docThreePairs :
    (∃ diag, analyzeCoordinates none docThreePairs = .ok diag ∧
      diag.lngOutOfRange = 0 ∧ diag.latOutOfRange = 1 ∧ diag.largeValues = 0 ∧
      diag.veryLargeValues = 0 ∧ diag.possibleSwapped = 1 ∧
      diag.maxAbsValue = JSNum.fin 120) ∧
    (referenceCounters [(80, 30)]).possibleSwapped = 1 ∧
    (referenceCounters [(45, 120)]).possibleSwapped = 0 ∧
    (referenceCounters [(120, 45)]).possibleSwapped = 0 := by
  have hs : collectSamples docThreePairs =
      .ok ([[JSVal.num (JSNum.fin 80), JSVal.num (JSNum.fin 30)],
        [JSVal.num (JSNum.fin 45), JSVal.num (JSNum.fin 120)],
        [JSVal.num (JSNum.fin 120), JSVal.num (JSNum.fin 45)]].map some, 3) := rfl
  have href : referenceCounters [(80, 30), (45, 120), (120, 45)] =
      { lngOutOfRange := 0, latOutOfRange := 1, possibleSwapped := 1, largeValues := 0,
        veryLargeValues := 0, maxAbsValue := JSNum.fin 120 } := by
    simp [referenceCounters]
    norm_num [abs_of_nonneg]
  obtain ⟨diag, h0, h1, h2, h3, h4, h5, h6⟩ :=
    analyzeCoordinates_counters none docThreePairs _ 3 [(80, 30), (45, 120), (120, 45)] hs
      (by
        simp only [List.take]
        exact List.Forall₂.cons ⟨[], rfl⟩ (List.Forall₂.cons ⟨[], rfl⟩
          (List.Forall₂.cons ⟨[], rfl⟩ List.Forall₂.nil)))
  rw [href] at h1 h2 h3 h4 h5 h6
  refine ⟨⟨diag, h0, h1, h2, h3, h4, h5, h6⟩, ?_, ?_, ?_⟩
  · simp [referenceCounters]; norm_num [abs_of_nonneg]
  · simp [referenceCounters]; norm_num [abs_of_nonneg]
  · simp [referenceCounters]; norm_num [abs_of_nonneg]

/-- Claim C14: on a document whose geometries have their coordinates, the samples
`analyzeCoordinates` collects are the concatenation, in feature order, of the contribution
`Geometry.samples` of each geometry that is not `null`: the pair of a Point, the first 5
pairs of a LineString or MultiPoint, the first 5 pairs of the first ring or line of a
Polygon or MultiLineString, the first 5 pairs of the first ring of the first polygon of a
MultiPolygon, and nothing where that ring is missing.  Every geometry contributes at most 5
samples. -/
theorem collectSamples_concat (d : GeoData) (hd : d.coordsPresent) :
    collectSamples d
      = .ok ((d.geometries.flatMap Geometry.samples).map some, d.geometries.length) ∧
    ∀ g ∈ d.geometries, g.samples.length ≤ 5 := by
  refine ⟨collectSamples_ok d hd, ?_⟩
  intro g _
  cases g with
  | other t => simp [Geometry.samples]
  | _ c => cases c <;> simp [Geometry.samples, List.length_take]

/-- Claim C14 at the collection of a Point `[-93, 41]` and a LineString
`[[10, 20], [30, 40]]`: three samples, the Point first. -/
theorem collectSamples_concat_docPlain :
    collectSamples docPlain
      = .ok ([some [JSVal.num (JSNum.fin (-93)), JSVal.num (JSNum.fin 41)],
          some [JSVal.num (JSNum.fin 10), JSVal.num (JSNum.fin 20)],
          some [JSVal.num (JSNum.fin 30), JSVal.num (JSNum.fin 40)]], 2) :=
  (collectSamples_concat docPlain docPlain_coordsPresent).1.trans rfl

/-- Claim C15: on a FeatureCollection with no features `analyzeCoordinates` returns the
diagnosis with every counter and `maxAbsValue` 0, the category `geographic`, `scaleFactor`
1, both flags false and no bounds. -/
theorem analyzeCoordinates_empty (map : Option MapView) :
    analyzeCoordinates map (.FeatureCollection []) = .ok {
      featureCount := 0
      sampleCount := 0
      lngOutOfRange := 0
      latOutOfRange := 0
      possibleSwapped := 0
      largeValues := 0
      veryLargeValues := 0
      maxAbsValue := JSNum.fin 0
      coordinateSystemType := "geographic"
      scaleFactor := JSNum.fin 1
      needsSwapping := false
      needsScaling := false
      bounds := none
      farFromCurrentView := false } := by
  simp [analyzeCoordinates, collectSamples, calculateBounds, diagnose, Counters.init, pure,
    Except.pure]

/-- Claim C16: a feature whose geometry is `null` or of none of the six types, and a
document that is neither a Feature nor a FeatureCollection, are skipped.
`analyzeCoordinates` returns on a document what it returns on the document with such
features removed, error or diagnosis, the feature count apart (it counts a geometry of an
unrecognised type).  `scaleCoordinates` and `swapCoordinates` on a collection that holds a
skipped feature return what they return on the collection without it, with the feature
put back unchanged at its place; a single skipped Feature and a document of another type
are returned unchanged. -/
theorem skipped_features_are_skipped :
    (∀ map d, (analyzeCoordinates map d).map Diagnosis.withoutFeatureCount
      = (analyzeCoordinates map d.dropSkipped).map Diagnosis.withoutFeatureCount) ∧
    (∀ s fs1 fs2 f, f.skipped = true →
      scaleCoordinates (.FeatureCollection (fs1 ++ f :: fs2)) s
        = (scaleCoordinates (.FeatureCollection (fs1 ++ fs2)) s).map
            (GeoData.insertFeature fs1.length f)) ∧
    (∀ fs1 fs2 f, f.skipped = true →
      swapCoordinates (.FeatureCollection (fs1 ++ f :: fs2))
        = (swapCoordinates (.FeatureCollection (fs1 ++ fs2))).map
            (GeoData.insertFeature fs1.length f)) ∧
    (∀ s f, f.skipped = true → scaleCoordinates (.Feature f) s = .ok (.Feature f)) ∧
    (∀ f, f.skipped = true → swapCoordinates (.Feature f) = .ok (.Feature f)) ∧
    (∀ s t, scaleCoordinates (.other t) s = .ok (.other t)) ∧
    (∀ t, swapCoordinates (.other t) = .ok (.other t)) := by
  refine ⟨?_, ?_, ?_, ?_, ?_, fun _ _ => rfl, fun _ => rfl⟩
  · intro map d
    exact analyzeCoordinates_congr_samples map d d.dropSkipped (collectSamples_dropSkipped d)
  · intro s fs1 fs2 f hf
    exact traverseGeometries_insert (scaleGeometryCoords s) (fun _ => rfl) fs1 fs2 f hf
  · intro fs1 fs2 f hf
    exact traverseGeometries_insert swapGeometryCoords (fun _ => rfl) fs1 fs2 f hf
  · intro s f hf
    simp [scaleCoordinates, traverseGeometries,
      traverseFeature_skipped (scaleGeometryCoords s) (fun _ => rfl) f hf]
  · intro f hf
    simp [swapCoordinates, traverseGeometries,
      traverseFeature_skipped swapGeometryCoords (fun _ => rfl) f hf]

/-- Claim C17 as stated fails: on a collection of a Point without a `coordinates` member
followed by a Point at `[1, 2]`, each of `analyzeCoordinates`, `scaleCoordinates` and
`swapCoordinates` throws a TypeError; the second feature is not processed. -/
theorem malformed_geometry_throws :
    (∀ map, analyzeCoordinates map docMalformed = .error .TypeError) ∧
    (∀ s, scaleCoordinates docMalformed s = .error .TypeError) ∧
    swapCoordinates docMalformed = .error .TypeError :=
  ⟨fun _ => rfl, fun _ => rfl, rfl⟩

/-- Claim C17, amended: on the documents of the GeoJSON data model (a Feature, or a
collection with its array of feature objects, in which every `coordinates` member that is
present is an array nested to the depth of its type with arrays as positions),
`analyzeCoordinates`, `scaleCoordinates` and `swapCoordinates` return without raising
when every geometry of the six types has its `coordinates` member, and each of them
throws a TypeError when one of these geometries has no such member. -/
theorem raises_exactly_on_absent_coordinates (map : Option MapView) (d : GeoData) (s : JSNum) :
    (d.coordsPresent →
      (∃ diag, analyzeCoordinates map d = .ok diag) ∧
      (∃ d1, scaleCoordinates d s = .ok d1) ∧ (∃ d1, swapCoordinates d = .ok d1)) ∧
    (¬ d.coordsPresent →
      analyzeCoordinates map d = .error .TypeError ∧
      scaleCoordinates d s = .error .TypeError ∧
      swapCoordinates d = .error .TypeError) := by
  constructor
  · intro hd
    obtain ⟨b, hb⟩ := analyzeCoordinates_ok map d hd
    exact ⟨⟨_, hb⟩, ⟨_, scaleCoordinates_mapPos d s hd⟩, ⟨_, swapCoordinates_mapPos d hd⟩⟩
  · intro hd
    refine ⟨analyzeCoordinates_absent map d hd, ?_, ?_⟩
    · exact traverseGeometries_absent _ d
        (fun g hg => by rw [scaleGeometryCoords_eq]; exact mapPositions_absent _ g hg) hd
    · exact traverseGeometries_absent _ d
        (fun g hg => by rw [swapGeometryCoords_eq]; exact mapPositions_absent _ g hg) hd

/-- Claim C18, where the code departs from it: the cells "$" and a string of three
spaces hold no digit, yet `coerceNum` returns the number 0 for both: the test for the
empty string comes before the stripping, and `Number('')` is 0.  The other cases of the
claim hold: "N/A", the empty string and a missing cell give `null`, and "$1,200,000"
gives 1200000. -/
theorem coerceNum_blank_cells :
    coerceNum (JSVal.str "$") = JSVal.num (JSNum.fin 0) ∧
    coerceNum (JSVal.str "   ") = JSVal.num (JSNum.fin 0) ∧
    coerceNum (JSVal.str "N/A") = JSVal.null ∧
    coerceNum (JSVal.str "") = JSVal.null ∧
    coerceNum JSVal.undefined = JSVal.null ∧
    coerceNum (JSVal.str "$1,200,000") = JSVal.num (JSNum.fin 1200000) := by
  refine ⟨by decide, by decide, by decide, by decide, by decide, ?_⟩
  simp [coerceNum, JSVal.looselyNull, stripCurrency, stringToNumber, trimChars,
    isJSWhiteSpace, parseDecimal, parseUnsignedDecimal, isDecDigit, JSNum.isFinite]

/-- Claim C19, where the code departs from it: on a host in the time zone UTC+7 the cell
"03/15/2024" is read as local midnight and written back in UTC, so `parseDate` and the
`startDate` of `mappedRowToFeature` are "2024-03-14", the day before; on a host in UTC
they are "2024-03-15". -/
theorem parseDate_depends_on_time_zone :
    parseDate hostPlusSeven (JSVal.str "03/15/2024") = JSVal.str "2024-03-14" ∧
    parseDate hostUTC (JSVal.str "03/15/2024") = JSVal.str "2024-03-15" ∧
    (mappedRowToFeature hostPlusSeven [("Start", JSVal.str "03/15/2024")]
        (Function.update mapNone SemKey.startDate (some "Start"))).map
      (fun f => f.properties.startDate) = some (JSVal.str "2024-03-14") := by
  refine ⟨by decide, by decide, ?_⟩
  have h1 : parseDate hostPlusSeven (JSVal.str "03/15/2024") = JSVal.str "2024-03-14" := by
    decide
  have hget : Row.get [("Start", JSVal.str "03/15/2024")] (propertyKey (some "Start"))
      = JSVal.str "03/15/2024" := by decide
  simp [mappedRowToFeature, isFinite_coerceNum, hget, h1]

/-- Claim C20, where the code departs from it: with every key unmapped, the row
`{"null": "5"}` yields a Feature whose `cost` is 5 and whose coordinates are `[5, 5]`:
`r[map.cost]` with `map.cost = null` reads the column named null.  The properties that go
through `val`, such as `name`, are `null`. -/
theorem mappedRowToFeature_reads_null_column (h : DateHost) :
    mapNone SemKey.cost = none ∧
    (mappedRowToFeature h rowNullColumn mapNone).map (fun f => f.properties.cost)
      = some (JSVal.num (JSNum.fin 5)) ∧
    (mappedRowToFeature h rowNullColumn mapNone).map (fun f => f.geometry)
      = some (Geometry.Point (some [JSVal.num (JSNum.fin 5), JSVal.num (JSNum.fin 5)])) ∧
    (mappedRowToFeature h rowNullColumn mapNone).map (fun f => f.properties.name)
      = some JSVal.null := by
  have h5 : coerceNum (Row.get rowNullColumn (propertyKey none)) = JSVal.num (JSNum.fin 5) := by
    simp [coerceNum, rowNullColumn, Row.get, propertyKey, List.lookup, JSVal.looselyNull,
      stripCurrency, stringToNumber, trimChars,
      isJSWhiteSpace, parseDecimal, parseUnsignedDecimal, isDecDigit, JSNum.isFinite]
  refine ⟨rfl, ?_, ?_, ?_⟩ <;>
    simp [mappedRowToFeature, mapNone, h5, isFinite, JSVal.toNumber, JSNum.isFinite, val]


/-! ## Lemmas for the claims C21 to C30 -/

theorem analyzeCoordinates_of_parts (map : Option MapView) (d : GeoData)
    (samples : List Sample) (n : Nat) (c : Counters) (b : Option Bounds)
    (hs : collectSamples d = .ok (samples, n))
    (hc : (samples.take 20).foldlM analyzeSample Counters.init = .ok c)
    (hb : calculateBounds samples = .ok b) :
    analyzeCoordinates map d = .ok (diagnose map samples n c b) := by
  unfold analyzeCoordinates
  rw [hs]
  simp only [hc, hb]

theorem analyzeCoordinates_parts (map : Option MapView) (d : GeoData) (diag : Diagnosis)
    (h : analyzeCoordinates map d = .ok diag) :
    ∃ samples n c b, collectSamples d = .ok (samples, n) ∧
      (samples.take 20).foldlM analyzeSample Counters.init = .ok c ∧
      calculateBounds samples = .ok b ∧ diag = diagnose map samples n c b := by
  unfold analyzeCoordinates at h
  cases hs : collectSamples d with
  | error e => simp [hs] at h
  | ok r =>
    obtain ⟨samples, n⟩ := r
    simp only [hs] at h
    cases hc : (List.take 20 samples).foldlM analyzeSample Counters.init with
    | error e => simp [hc] at h
    | ok c =>
      simp only [hc] at h
      cases hb : calculateBounds samples with
      | error e => simp [hb] at h
      | ok b =>
        simp only [hb, Except.ok.injEq] at h
        exact ⟨samples, n, c, b, by first | exact hs | rfl, hc, hb, h.symm⟩

theorem coordsPresent_of_analyze_ok (map : Option MapView) (d : GeoData) (diag : Diagnosis)
    (h : analyzeCoordinates map d = .ok diag) : d.coordsPresent := by
  by_contra hn
  rw [analyzeCoordinates_absent map d hn] at h
  cases h

theorem jsnum_min_fin (x y : ℚ) : (JSNum.fin x).min (JSNum.fin y) = JSNum.fin (Min.min x y) := by
  simp only [JSNum.min, JSNum.lt]
  by_cases h : y < x
  · simp [h, min_eq_right (le_of_lt h)]
  · simp [h, min_eq_left (not_lt.mp h)]

theorem bounds_fold_pairs (ps : List Position) (pairs : List (ℚ × ℚ))
    (h : List.Forall₂ (fun p ab => p.hasPair ab.1 ab.2) ps pairs) (x0 x1 y0 y1 : ℚ) :
    (ps.map some).foldlM boundsStep ⟨JSNum.fin x0, JSNum.fin x1, JSNum.fin y0, JSNum.fin y1⟩
      = .ok ⟨JSNum.fin (pairs.foldl (fun m x => Min.min m x.1) x0),
             JSNum.fin (pairs.foldl (fun m x => Max.max m x.1) x1),
             JSNum.fin (pairs.foldl (fun m x => Min.min m x.2) y0),
             JSNum.fin (pairs.foldl (fun m x => Max.max m x.2) y1)⟩ := by
  induction h generalizing x0 x1 y0 y1 with
  | nil => rfl
  | @cons p ab ps pairs hp _ ih =>
    obtain ⟨h0, h1⟩ := hasPair_elemAt hp
    simp only [List.map_cons, List.foldlM_cons, boundsStep, h0, h1, JSVal.toNumber,
      jsnum_min_fin, jsnum_max_fin, bind, Except.bind, List.foldl_cons]
    exact ih _ _ _ _

/-- Over pairs of finite numbers `calculateBounds` returns the reference bounds. -/
theorem calculateBounds_pairs (ps : List Position) (pairs : List (ℚ × ℚ))
    (h : List.Forall₂ (fun p ab => p.hasPair ab.1 ab.2) ps pairs) :
    calculateBounds (ps.map some) = .ok (referenceBounds pairs) := by
  cases h with
  | nil => rfl
  | @cons p ab ps pairs hp hrest =>
    obtain ⟨h0, h1⟩ := hasPair_elemAt hp
    have hfold := bounds_fold_pairs ps pairs hrest ab.1 ab.1 ab.2 ab.2
    simp only [calculateBounds, List.map_cons, List.length_cons, Nat.succ_ne_zero, if_false,
      List.foldlM_cons, boundsStep, h0, h1, JSVal.toNumber, bind, Except.bind, referenceBounds]
    have hmin : JSNum.posInf.min (JSNum.fin ab.1) = JSNum.fin ab.1 := rfl
    have hmax : JSNum.negInf.max (JSNum.fin ab.1) = JSNum.fin ab.1 := rfl
    have hmin2 : JSNum.posInf.min (JSNum.fin ab.2) = JSNum.fin ab.2 := rfl
    have hmax2 : JSNum.negInf.max (JSNum.fin ab.2) = JSNum.fin ab.2 := rfl
    rw [hmin, hmax, hmin2, hmax2, hfold]

theorem foldl_min_le {α : Type} (f : α → ℚ) (l : List α) (a : ℚ) :
    l.foldl (fun m x => Min.min m (f x)) a ≤ a := by
  induction l generalizing a with
  | nil => exact le_refl _
  | cons x l ih => exact le_trans (ih _) (min_le_left _ _)

theorem le_foldl_max {α : Type} (f : α → ℚ) (l : List α) (a : ℚ) :
    a ≤ l.foldl (fun m x => Max.max m (f x)) a := by
  induction l generalizing a with
  | nil => exact le_refl _
  | cons x l ih => exact le_trans (le_max_left _ _) (ih _)

theorem sum_fold_pairs (ring : List Position) (pairs : List (ℚ × ℚ))
    (h : List.Forall₂ (fun p ab => p.hasPair ab.1 ab.2) ring pairs) (x0 y0 : ℚ) :
    ring.foldl (fun t coord => t.add (elemAt coord 0).toNumber) (JSNum.fin x0)
      = JSNum.fin (x0 + (pairs.map Prod.fst).sum) ∧
    ring.foldl (fun t coord => t.add (elemAt coord 1).toNumber) (JSNum.fin y0)
      = JSNum.fin (y0 + (pairs.map Prod.snd).sum) := by
  induction h generalizing x0 y0 with
  | nil => simp
  | @cons p ab ring pairs hp _ ih =>
    obtain ⟨h0, h1⟩ := hasPair_elemAt hp
    have e1 : (JSNum.fin x0).add (JSVal.num (JSNum.fin ab.1)).toNumber
        = JSNum.fin (x0 + ab.1) := rfl
    have e2 : (JSNum.fin y0).add (JSVal.num (JSNum.fin ab.2)).toNumber
        = JSNum.fin (y0 + ab.2) := rfl
    obtain ⟨i1, i2⟩ := ih (x0 + ab.1) (y0 + ab.2)
    rw [List.foldl_cons, List.foldl_cons, h0, h1, e1, e2, i1, i2]
    simp only [List.map_cons, List.sum_cons, add_assoc, and_self]

/-- On a non-empty list of pairs of finite numbers `calculatePolygonCentroid` returns the
arithmetic mean. -/
theorem calculatePolygonCentroid_mean (ring : List Position) (pairs : List (ℚ × ℚ))
    (h : List.Forall₂ (fun p ab => p.hasPair ab.1 ab.2) ring pairs) (hne : pairs ≠ []) :
    calculatePolygonCentroid ring
      = [JSVal.num (JSNum.fin (meanPair pairs).1), JSVal.num (JSNum.fin (meanPair pairs).2)] := by
  obtain ⟨i1, i2⟩ := sum_fold_pairs ring pairs h 0 0
  have hlen : ring.length = pairs.length := h.length_eq
  have hpos : ((pairs.length : ℕ) : ℚ) ≠ 0 := by
    have : pairs.length ≠ 0 := by
      intro h0
      exact hne (List.length_eq_zero.mp h0)
    exact_mod_cast this
  simp only [calculatePolygonCentroid, i1, i2, zero_add, hlen, JSNum.div, hpos, if_false,
    meanPair]

/-- One round of the loop does not count the same pair both as large and as possibly
swapped. -/
theorem analyzePair_large_or_swapped (c : Counters) (x y : JSVal) :
    (analyzePair c x y).largeValues + (analyzePair c x y).possibleSwapped
      ≤ c.largeValues + c.possibleSwapped + 1 := by
  simp only [analyzePair]
  generalize x.toNumber = u
  generalize y.toNumber = v
  by_cases hs : (u.abs.le (JSNum.fin 90) && v.abs.le (JSNum.fin 180) && u.abs.gt v.abs) = true
  · have hl : (u.abs.gt (JSNum.fin 1000) || v.abs.gt (JSNum.fin 1000)) = false := by
      cases u <;> cases v <;> simp_all [JSNum.abs, JSNum.le, JSNum.gt, JSNum.lt, JSNum.isNaN]
      constructor <;> linarith
    simp only [hs, hl, if_true, Bool.false_eq_true, if_false]
    omega
  · have hs1 : (u.abs.le (JSNum.fin 90) && v.abs.le (JSNum.fin 180) && u.abs.gt v.abs) = false := by
      simpa using hs
    simp only [hs1, Bool.false_eq_true, if_false]
    split <;> omega

theorem analyze_fold_large_swapped (l : List Sample) (c c1 : Counters)
    (h : l.foldlM analyzeSample c = .ok c1) :
    c1.largeValues + c1.possibleSwapped ≤ c.largeValues + c.possibleSwapped + l.length := by
  induction l generalizing c with
  | nil =>
    simp only [List.foldlM_nil, pure, Except.pure, Except.ok.injEq] at h
    subst h
    simp
  | cons s l ih =>
    rw [List.foldlM_cons] at h
    cases s with
    | none => simp [analyzeSample, bind, Except.bind] at h
    | some p =>
      simp only [analyzeSample, bind, Except.bind] at h
      have h1 := ih _ h
      have h2 := analyzePair_large_or_swapped c (elemAt p 0) (elemAt p 1)
      simp only [List.length_cons]
      omega

theorem geometry_samples_mapPos (φ : Position → Position) (g : Geometry) :
    (g.mapPos φ).samples = g.samples.map φ := by
  cases g with
  | other t => rfl
  | Point c => cases c <;> rfl
  | LineString c =>
    cases c with
    | none => rfl
    | some cs => simp [Geometry.mapPos, Geometry.samples, List.map_take]
  | MultiPoint c =>
    cases c with
    | none => rfl
    | some cs => simp [Geometry.mapPos, Geometry.samples, List.map_take]
  | Polygon c =>
    cases c with
    | none => rfl
    | some rs => cases rs <;> simp [Geometry.mapPos, Geometry.samples, List.map_take]
  | MultiLineString c =>
    cases c with
    | none => rfl
    | some rs => cases rs <;> simp [Geometry.mapPos, Geometry.samples, List.map_take]
  | MultiPolygon c =>
    cases c with
    | none => rfl
    | some ps =>
      cases ps with
      | nil => rfl
      | cons poly ps =>
        cases poly <;> simp [Geometry.mapPos, Geometry.samples, List.map_take]

theorem geoData_samples_mapPos (φ : Position → Position) (d : GeoData) :
    (d.mapPos φ).samples = d.samples.map φ := by
  unfold GeoData.samples
  rw [geoData_geometries_mapPos]
  induction d.geometries with
  | nil => rfl
  | cons g gs ih =>
    simp only [List.map_cons, List.flatMap_cons, List.map_append, geometry_samples_mapPos, ih]

theorem geometry_coordsPresent_mapPos (φ : Position → Position) (g : Geometry) :
    (g.mapPos φ).coordsPresent = g.coordsPresent := by
  cases g with
  | other t => rfl
  | _ c => cases c <;> rfl

theorem coordsPresent_mapPos (φ : Position → Position) (d : GeoData) (h : d.coordsPresent) :
    (d.mapPos φ).coordsPresent := by
  intro g hg
  rw [geoData_geometries_mapPos, List.mem_map] at hg
  obtain ⟨g0, hg0, rfl⟩ := hg
  rw [geometry_coordsPresent_mapPos]
  exact h g0 hg0

/-- A pair and the exchanged pair are not both counted as possibly swapped. -/
theorem analyzePair_swap_exclusive (c c1 : Counters) (x y : JSVal) :
    (analyzePair c x y).possibleSwapped + (analyzePair c1 y x).possibleSwapped
      ≤ c.possibleSwapped + c1.possibleSwapped + 1 := by
  simp only [analyzePair]
  generalize x.toNumber = u
  generalize y.toNumber = v
  by_cases hs : (u.abs.le (JSNum.fin 90) && v.abs.le (JSNum.fin 180) && u.abs.gt v.abs) = true
  · have hl : (v.abs.le (JSNum.fin 90) && u.abs.le (JSNum.fin 180) && v.abs.gt u.abs) = false := by
      cases u <;> cases v <;> simp_all [JSNum.abs, JSNum.le, JSNum.gt, JSNum.lt, JSNum.isNaN]
      intro _ _
      linarith
    simp only [hs, hl, if_true, Bool.false_eq_true, if_false]
    omega
  · have hs1 : (u.abs.le (JSNum.fin 90) && v.abs.le (JSNum.fin 180) && u.abs.gt v.abs) = false := by
      simpa using hs
    simp only [hs1, Bool.false_eq_true, if_false]
    split <;> omega

theorem run_swap_exclusive (ps : List Position) (c c1 : Counters) :
    (c.run ps).possibleSwapped + (c1.run (ps.map swapPosition)).possibleSwapped
      ≤ c.possibleSwapped + c1.possibleSwapped + ps.length := by
  induction ps generalizing c c1 with
  | nil => exact le_refl _
  | cons p ps ih =>
    rw [List.map_cons, counters_run_cons, counters_run_cons]
    have e0 : elemAt (swapPosition p) 0 = elemAt p 1 := rfl
    have e1 : elemAt (swapPosition p) 1 = elemAt p 0 := rfl
    rw [e0, e1]
    have h1 := ih (analyzePair c (elemAt p 0) (elemAt p 1))
      (analyzePair c1 (elemAt p 1) (elemAt p 0))
    have h2 := analyzePair_swap_exclusive c c1 (elemAt p 0) (elemAt p 1)
    simp only [List.length_cons]
    omega

theorem jsnum_max_fin_inv (u v : JSNum) (m : ℚ) (h : u.max v = JSNum.fin m)
    (hv : v ≠ JSNum.negInf) :
    (∃ b, v = JSNum.fin b ∧ b ≤ m) ∧ (u = JSNum.negInf ∨ ∃ a, u = JSNum.fin a ∧ a ≤ m) := by
  cases u with
  | fin a =>
    cases v with
    | fin b =>
      rw [jsnum_max_fin] at h
      injection h with h
      exact ⟨⟨b, rfl, h ▸ le_max_right _ _⟩, Or.inr ⟨a, rfl, h ▸ le_max_left _ _⟩⟩
    | nan => simp [JSNum.max] at h
    | posInf => simp [JSNum.max, JSNum.lt] at h
    | negInf => exact absurd rfl hv
  | nan => simp [JSNum.max] at h
  | posInf => cases v <;> simp [JSNum.max, JSNum.lt] at h
  | negInf =>
    cases v with
    | fin b =>
      simp only [JSNum.max, JSNum.lt, if_true] at h
      injection h with h
      exact ⟨⟨b, rfl, le_of_eq h⟩, Or.inl rfl⟩
    | nan => simp [JSNum.max] at h
    | posInf => simp [JSNum.max, JSNum.lt] at h
    | negInf => exact absurd rfl hv

theorem jsnum_abs_ne_negInf (u : JSNum) : u.abs ≠ JSNum.negInf := by
  cases u <;> simp [JSNum.abs]

theorem jsnum_max_ne_negInf (u v : JSNum) (hv : v ≠ JSNum.negInf) :
    u.max v ≠ JSNum.negInf := by
  cases u <;> cases v <;> simp_all [JSNum.max, JSNum.lt]
  split <;> simp

theorem jsnum_abs_fin_inv (u : JSNum) (a : ℚ) (h : u.abs = JSNum.fin a) :
    ∃ q, u = JSNum.fin q ∧ a = |q| := by
  cases u with
  | fin q =>
    simp only [JSNum.abs] at h
    injection h with h
    exact ⟨q, rfl, h.symm⟩
  | nan => simp [JSNum.abs] at h
  | posInf => simp [JSNum.abs] at h
  | negInf => simp [JSNum.abs] at h

/-- When one round of the loop leaves a finite maximum, both components read as finite
numbers bounded by it, and so is the maximum before the round unless it was `-Infinity`. -/
theorem analyzePair_max_fin_inv (c : Counters) (x y : JSVal) (m : ℚ)
    (h : (analyzePair c x y).maxAbsValue = JSNum.fin m) :
    (∃ a b, x.toNumber = JSNum.fin a ∧ y.toNumber = JSNum.fin b ∧ |a| ≤ m ∧ |b| ≤ m) ∧
      (c.maxAbsValue = JSNum.negInf ∨ ∃ m0, c.maxAbsValue = JSNum.fin m0 ∧ m0 ≤ m) := by
  simp only [analyzePair] at h
  obtain ⟨⟨b1, h2, h4⟩, h1⟩ := jsnum_max_fin_inv _ _ _ h (jsnum_abs_ne_negInf _)
  obtain ⟨b, hb, rfl⟩ := jsnum_abs_fin_inv _ _ h2
  rcases h1 with h1 | ⟨m1, h1, h3⟩
  · exact absurd h1 (jsnum_max_ne_negInf _ _ (jsnum_abs_ne_negInf _))
  · obtain ⟨⟨a1, h6, h8⟩, h5⟩ := jsnum_max_fin_inv _ _ _ h1 (jsnum_abs_ne_negInf _)
    obtain ⟨a, ha, rfl⟩ := jsnum_abs_fin_inv _ _ h6
    refine ⟨⟨a, b, ha, hb, le_trans h8 h3, h4⟩, ?_⟩
    rcases h5 with h5 | ⟨m0, h5, h7⟩
    · exact Or.inl h5
    · exact Or.inr ⟨m0, h5, le_trans h7 h3⟩

/-- When the loop leaves a finite maximum, every pair it analysed reads as two finite
numbers bounded by that maximum. -/
theorem run_max_fin_inv (ps : List Position) (c : Counters) (m : ℚ)
    (h : (c.run ps).maxAbsValue = JSNum.fin m) :
    (c.maxAbsValue = JSNum.negInf ∨ ∃ m0, c.maxAbsValue = JSNum.fin m0 ∧ m0 ≤ m) ∧
      ∀ p ∈ ps, ∃ a b, p.reads a b ∧ |a| ≤ m ∧ |b| ≤ m := by
  induction ps generalizing c with
  | nil => exact ⟨Or.inr ⟨m, h, le_refl _⟩, by simp⟩
  | cons p ps ih =>
    rw [counters_run_cons] at h
    obtain ⟨hc1, hall⟩ := ih _ h
    rcases hc1 with hc1 | ⟨m1, hm1, hle1⟩
    · simp only [analyzePair] at hc1
      exact absurd hc1 (jsnum_max_ne_negInf _ _ (jsnum_abs_ne_negInf _))
    · obtain ⟨⟨a, b, ha, hb, la, lb⟩, h0⟩ := analyzePair_max_fin_inv c _ _ m1 hm1
      refine ⟨?_, ?_⟩
      · rcases h0 with h0 | ⟨m0, h0, l0⟩
        · exact Or.inl h0
        · exact Or.inr ⟨m0, h0, le_trans l0 hle1⟩
      · intro q hq
        rcases List.mem_cons.mp hq with rfl | hq
        · exact ⟨a, b, ⟨ha, hb⟩, le_trans la hle1, le_trans lb hle1⟩
        · exact hall q hq

/-- A pair with a component above 100000 in absolute value is counted as very large. -/
theorem run_veryLarge_pos_reads (ps : List Position) (c : Counters) (p : Position) (hp : p ∈ ps)
    (a b : ℚ) (hab : p.reads a b) (hbig : 100000 < |a| ∨ 100000 < |b|) :
    c.veryLargeValues < (c.run ps).veryLargeValues := by
  induction ps generalizing c with
  | nil => simp at hp
  | cons q ps ih =>
    rw [counters_run_cons]
    rcases List.mem_cons.mp hp with rfl | hp
    · refine lt_of_lt_of_le ?_ (run_veryLarge_mono ps _)
      obtain ⟨h0, h1⟩ := hab
      simp only [analyzePair, h0, h1, JSNum.abs, JSNum.gt, JSNum.lt]
      rw [if_pos]
      · omega
      · simpa using hbig
    · refine lt_of_le_of_lt ?_ (ih _ hp)
      simp only [analyzePair]
      split <;> omega

theorem scalePosition_hasPair (f : ℚ) (p : Position) (a b : ℚ) (h : p.reads a b) :
    (scalePosition (JSNum.fin f) p).hasPair (a * f) (b * f) := by
  obtain ⟨h0, h1⟩ := h
  exact ⟨[], by simp only [scalePosition, h0, h1, JSNum.mul]⟩

/-- Pairs with both components at most 100000 in absolute value are not counted as very
large. -/
theorem run_veryLarge_bounded (ps : List Position) (c : Counters)
    (h : ∀ p ∈ ps, ∃ a b, p.reads a b ∧ |a| ≤ 100000 ∧ |b| ≤ 100000) :
    (c.run ps).veryLargeValues = c.veryLargeValues := by
  induction ps generalizing c with
  | nil => rfl
  | cons p ps ih =>
    obtain ⟨a, b, ⟨h0, h1⟩, ha, hb⟩ := h p (List.mem_cons_self _ _)
    rw [counters_run_cons, ih _ (fun q hq => h q (List.mem_cons_of_mem _ hq))]
    simp [analyzePair, h0, h1, JSNum.abs, JSNum.gt, JSNum.lt, not_lt.mpr ha, not_lt.mpr hb]

theorem geometry_mapPos_skeleton (φ : Position → Position) (g : Geometry) :
    (g.mapPos φ).mapPos (fun _ => []) = g.mapPos (fun _ => []) := by
  cases g with
  | other t => rfl
  | _ c => cases c <;> simp [Geometry.mapPos, List.map_map, Function.comp_def]

theorem feature_mapPos_skeleton (φ : Position → Position) (f : Feature) :
    (f.mapPos φ).mapPos (fun _ => []) = f.mapPos (fun _ => []) := by
  cases hfg : f.geometry with
  | none => simp [Feature.mapPos, hfg]
  | some g => simp [Feature.mapPos, hfg, geometry_mapPos_skeleton]

/-- A transform of the positions leaves the skeleton of the document as it was. -/
theorem geoData_mapPos_skeleton (φ : Position → Position) (d : GeoData) :
    (d.mapPos φ).skeleton = d.skeleton := by
  cases d with
  | FeatureCollection fs =>
    simp only [GeoData.skeleton, GeoData.mapPos, List.map_map, GeoData.FeatureCollection.injEq]
    apply List.map_congr_left
    intro f _
    exact feature_mapPos_skeleton φ f
  | Feature f =>
    simp only [GeoData.skeleton, GeoData.mapPos, GeoData.Feature.injEq]
    exact feature_mapPos_skeleton φ f
  | other t => rfl

theorem geoData_mapPos_properties (φ : Position → Position) (d : GeoData) :
    (d.mapPos φ).featureList.map (fun f => f.properties)
      = d.featureList.map (fun f => f.properties) := by
  cases d with
  | FeatureCollection fs =>
    simp [GeoData.mapPos, GeoData.featureList, Feature.mapPos, Function.comp_def]
  | Feature f => rfl
  | other t => rfl

theorem autoMapColumns_cons_find (r : Row) (rest : List Row) (k : SemKey) :
    autoMapColumns (r :: rest) k
      = (objectKeys r).find? (fun c => (aliasMap k).contains (norm c)) := by
  have hmem : k ∈ mapKeys := by cases k <;> decide
  have hnd : mapKeys.Nodup := by decide
  have h := foldl_update_apply
    (fun k => (objectKeys r).find? (fun c => (aliasMap k).contains (norm c)))
    mapKeys hnd (fun _ => none) k
  simp only [hmem, if_true] at h
  unfold autoMapColumns
  simp only [List.head?_cons, Option.getD_some]
  rw [h]
  cases hf : (objectKeys r).find? (fun c => (aliasMap k).contains (norm c)) with
  | none => rfl
  | some c => simp [find_ne_empty _ _ _ hf]

theorem docEast_collect : collectSamples docEast =
    .ok ([[JSVal.num (JSNum.fin 80), JSVal.num (JSNum.fin 30)]].map some, 1) := rfl

theorem docMedium_collect : collectSamples docMedium =
    .ok ([[JSVal.num (JSNum.fin 5000), JSVal.num (JSNum.fin 7000)],
      [JSVal.num (JSNum.fin 2000), JSVal.num (JSNum.fin 3000)]].map some, 2) := rfl

theorem docAltitude_coordsPresent : docAltitude.coordsPresent := by
  intro g hg
  simp [docAltitude, GeoData.geometries, GeoData.featureList] at hg
  subst hg
  rfl

/-! ## Claims C21 to C30 -/

/-- Claim C21 as stated fails: on the single Point `[0, 0]` the call made while the map
is centred on latitude 0 returns `farFromCurrentView = false`, and the call made while it
is centred on latitude 45 returns `farFromCurrentView = true`: the field is computed from
the module variable `map`. -/
theorem analyzeCoordinates_far_depends_on_view :
    (analyzeCoordinates (some viewEquator) docOrigin).map (fun diag => diag.farFromCurrentView)
      = .ok false ∧
    (analyzeCoordinates (some viewNorth) docOrigin).map (fun diag => diag.farFromCurrentView)
      = .ok true := by
  have hs : collectSamples docOrigin =
      .ok ([some [JSVal.num (JSNum.fin 0), JSVal.num (JSNum.fin 0)]], 1) := rfl
  have hb : calculateBounds [some [JSVal.num (JSNum.fin 0), JSVal.num (JSNum.fin 0)]]
      = .ok (some ⟨JSNum.fin 0, JSNum.fin 0, JSNum.fin 0, JSNum.fin 0⟩) := by
    simp [calculateBounds, boundsStep, elemAt, JSVal.toNumber, JSNum.min, JSNum.max, JSNum.lt,
      pure, Except.pure, bind, Except.bind]
  constructor
  · rw [analyzeCoordinates_of_parts (some viewEquator) docOrigin _ 1 _ _ hs rfl hb]
    simp [diagnose, isFarFromCurrentView, viewEquator, meridianDistance, JSNum.add,
      JSNum.divLit, JSNum.mul, JSNum.gt, JSNum.lt, Except.map]
  · rw [analyzeCoordinates_of_parts (some viewNorth) docOrigin _ 1 _ _ hs rfl hb]
    simp [diagnose, isFarFromCurrentView, viewNorth, meridianDistance, JSNum.add,
      JSNum.divLit, JSNum.mul, JSNum.gt, JSNum.lt, Except.map]
    norm_num

/-- Claim C21, amended: two calls of `analyzeCoordinates` on the same document, made
under any two states of the module variable `map`, both throw or return records that are
equal in every field other than `farFromCurrentView`; that field is the value of
`isFarFromCurrentView` on the returned bounds under the state of `map` at the time of the
call, and it is false when no map is set and when there are no bounds. -/
theorem analyzeCoordinates_pure_up_to_view (map1 map2 : Option MapView) (d : GeoData) :
    (analyzeCoordinates map1 d).map Diagnosis.withoutFarFromCurrentView
      = (analyzeCoordinates map2 d).map Diagnosis.withoutFarFromCurrentView ∧
    (∀ diag, analyzeCoordinates map1 d = .ok diag →
      diag.farFromCurrentView = isFarFromCurrentView map1 diag.bounds) ∧
    (∀ diag, analyzeCoordinates none d = .ok diag → diag.farFromCurrentView = false) ∧
    (∀ diag, analyzeCoordinates map1 d = .ok diag → diag.bounds = none →
      diag.farFromCurrentView = false) := by
  have hfar : ∀ (map : Option MapView) (diag : Diagnosis),
      analyzeCoordinates map d = .ok diag →
        diag.farFromCurrentView = isFarFromCurrentView map diag.bounds := by
    intro map diag h
    obtain ⟨samples, n, c, b, _, _, _, rfl⟩ := analyzeCoordinates_parts map d diag h
    cases b <;> cases map <;> rfl
  refine ⟨?_, hfar map1, ?_, ?_⟩
  · unfold analyzeCoordinates
    cases collectSamples d with
    | error e => rfl
    | ok r =>
      obtain ⟨samples, n⟩ := r
      simp only
      cases (List.take 20 samples).foldlM analyzeSample Counters.init with
      | error e => rfl
      | ok c =>
        simp only
        cases calculateBounds samples with
        | error e => rfl
        | ok b => rfl
  · intro diag h
    rw [hfar none diag h]
    cases diag.bounds <;> rfl
  · intro diag h hb
    rw [hfar map1 diag h, hb]
    rfl

/-- Claim C22 as stated fails: on twenty Points at `[1, 1]` followed by one at
`[50, 60]` the counters see the first twenty samples only (`maxAbsValue` is 1), while the
bounds reach 50 and 60: they are taken over all 21 collected samples, not over the twenty
pairs the counters are computed from, whose bounds would be 1 on every side. -/
theorem analyzeCoordinates_bounds_beyond_twenty :
    ∃ diag, analyzeCoordinates none docTwentyOne = .ok diag ∧
      diag.sampleCount = 21 ∧ diag.maxAbsValue = JSNum.fin 1 ∧
      diag.bounds = some ⟨JSNum.fin 1, JSNum.fin 50, JSNum.fin 1, JSNum.fin 60⟩ ∧
      referenceBounds (List.replicate 20 ((1 : ℚ), (1 : ℚ)))
        = some ⟨JSNum.fin 1, JSNum.fin 1, JSNum.fin 1, JSNum.fin 1⟩ := by
  have hs : collectSamples docTwentyOne = .ok ((List.replicate 20
      [JSVal.num (JSNum.fin 1), JSVal.num (JSNum.fin 1)] ++
      [[JSVal.num (JSNum.fin 50), JSVal.num (JSNum.fin 60)]]).map some, 21) := rfl
  have hp : List.Forall₂ (fun (p : Position) (ab : ℚ × ℚ) => p.hasPair ab.1 ab.2)
      (List.replicate 20 [JSVal.num (JSNum.fin 1), JSVal.num (JSNum.fin 1)] ++
        [[JSVal.num (JSNum.fin 50), JSVal.num (JSNum.fin 60)]])
      (List.replicate 20 ((1 : ℚ), (1 : ℚ)) ++ [((50 : ℚ), (60 : ℚ))]) := by
    simp only [List.replicate, List.cons_append, List.nil_append]
    repeat (refine List.Forall₂.cons ⟨[], rfl⟩ ?_)
    exact List.Forall₂.nil
  have hA := analyzeCoordinates_of_parts none docTwentyOne _ 21
    (Counters.init.run ((List.replicate 20
      [JSVal.num (JSNum.fin 1), JSVal.num (JSNum.fin 1)] ++
      [[JSVal.num (JSNum.fin 50), JSVal.num (JSNum.fin 60)]]).take 20))
    _ hs (by rw [← List.map_take, analyze_fold_ok]) (calculateBounds_pairs _ _ hp)
  refine ⟨_, hA, ?_, ?_, ?_, ?_⟩
  · rfl
  · simp [diagnose, Counters.run, Counters.init, List.replicate, List.take, analyzePair, elemAt,
      JSVal.toNumber, JSNum.abs, JSNum.max, JSNum.lt]
  · simp [diagnose, referenceBounds, List.replicate]
  · simp [referenceBounds, List.replicate]

/-- Claim C22, amended: when the traversal has collected the positions `samples`, all
of them pairs of finite numbers `pairs`, `analyzeCoordinates` returns as `bounds` the
minimum and maximum of the first components and of the second components of all collected
samples, which is `none` exactly when no sample was collected, and when present has
`minLng <= maxLng` and `minLat <= maxLat`. -/
theorem analyzeCoordinates_bounds (map : Option MapView) (d : GeoData) (samples : List Position) (n : Nat)
    (pairs : List (ℚ × ℚ))
    (hc : collectSamples d = .ok (samples.map some, n))
    (hp : List.Forall₂ (fun p ab => p.hasPair ab.1 ab.2) samples pairs) :
    ∃ diag, analyzeCoordinates map d = .ok diag ∧
      diag.bounds = referenceBounds pairs ∧
      (diag.bounds = none ↔ samples = []) ∧
      ∀ b, diag.bounds = some b → b.minLng.le b.maxLng = true ∧ b.minLat.le b.maxLat = true := by
  have hA := analyzeCoordinates_of_parts map d (samples.map some) n
    (Counters.init.run (samples.take 20)) (referenceBounds pairs) hc
    (by rw [← List.map_take, analyze_fold_ok]) (calculateBounds_pairs samples pairs hp)
  refine ⟨_, hA, rfl, ?_, ?_⟩
  · show referenceBounds pairs = none ↔ samples = []
    cases hp with
    | nil => simp [referenceBounds]
    | cons _ _ => simp [referenceBounds]
  · intro b hb
    change referenceBounds pairs = some b at hb
    cases pairs with
    | nil => simp [referenceBounds] at hb
    | cons ab rest =>
      simp only [referenceBounds, Option.some.injEq] at hb
      subst hb
      simp only [JSNum.le, JSNum.isNaN, JSNum.lt, Bool.not_false, Bool.true_and,
        Bool.not_eq_true', decide_eq_false_iff_not, not_lt]
      exact ⟨le_trans (foldl_min_le _ rest ab.1) (le_foldl_max _ rest ab.1),
        le_trans (foldl_min_le _ rest ab.2) (le_foldl_max _ rest ab.2)⟩

/-- Claim C22, amended, at the three Points `[80, 30]`, `[45, 120]` and `[120, 45]`: the
bounds are 45 to 120 on the first component and 30 to 120 on the second. -/
theorem analyzeCoordinates_bounds_docThreePairs :
    ∃ diag, analyzeCoordinates none docThreePairs = .ok diag ∧
      diag.bounds = some ⟨JSNum.fin 45, JSNum.fin 120, JSNum.fin 30, JSNum.fin 120⟩ ∧
      ∀ b, diag.bounds = some b → b.minLng.le b.maxLng = true ∧ b.minLat.le b.maxLat = true := by
  have hs : collectSamples docThreePairs =
      .ok ([[JSVal.num (JSNum.fin 80), JSVal.num (JSNum.fin 30)],
        [JSVal.num (JSNum.fin 45), JSVal.num (JSNum.fin 120)],
        [JSVal.num (JSNum.fin 120), JSVal.num (JSNum.fin 45)]].map some, 3) := rfl
  have hp : List.Forall₂ (fun (p : Position) (ab : ℚ × ℚ) => p.hasPair ab.1 ab.2)
      [[JSVal.num (JSNum.fin 80), JSVal.num (JSNum.fin 30)],
        [JSVal.num (JSNum.fin 45), JSVal.num (JSNum.fin 120)],
        [JSVal.num (JSNum.fin 120), JSVal.num (JSNum.fin 45)]]
      [(80, 30), (45, 120), (120, 45)] := by
    repeat (refine List.Forall₂.cons ⟨[], rfl⟩ ?_)
    exact List.Forall₂.nil
  obtain ⟨diag, h1, h2, _, h4⟩ := analyzeCoordinates_bounds none docThreePairs _ 3 _ hs hp
  refine ⟨diag, h1, ?_, h4⟩
  rw [h2]
  simp [referenceBounds]
  norm_num

/-- Claim C23: on a Feature or FeatureCollection that `analyzeCoordinates` diagnoses,
`parseGeoJSON` offers scaling (and on acceptance applies `scaleCoordinates` with the
suggested factor, and nothing else) whenever `needsScaling` is true; offers swapping (and on
acceptance applies `swapCoordinates`, and nothing else) when `needsScaling` is false and
`needsSwapping` is true; offers and applies nothing otherwise; at most one of the two
transforms is applied, and the document is left as it was when the user declines. -/
theorem parseGeoJSON_offer_precedence (map : Option MapView) (confirm : Offer → Bool) (data : GeoData) (diag : Diagnosis)
    (hdoc : ∀ t, data ≠ .other t) (hd : analyzeCoordinates map data = .ok diag) :
    ∃ r, parseGeoJSON map confirm data = .ok r ∧
      (diag.needsScaling = true →
        r.offered = some (.scaling diag.coordinateSystemType diag.maxAbsValue) ∧
        (confirm (.scaling diag.coordinateSystemType diag.maxAbsValue) = true →
          r.applied = some (.scaleCoordinates diag.scaleFactor) ∧
          scaleCoordinates data diag.scaleFactor = .ok r.data) ∧
        (confirm (.scaling diag.coordinateSystemType diag.maxAbsValue) = false →
          r.applied = none ∧ r.data = data)) ∧
      (diag.needsScaling = false → diag.needsSwapping = true →
        r.offered = some .swapping ∧
        (confirm .swapping = true →
          r.applied = some .swapCoordinates ∧ swapCoordinates data = .ok r.data) ∧
        (confirm .swapping = false → r.applied = none ∧ r.data = data)) ∧
      (diag.needsScaling = false → diag.needsSwapping = false →
        r.offered = none ∧ r.applied = none ∧ r.data = data) ∧
      ((∀ o, confirm o = false) → r.applied = none ∧ r.data = data) := by
  have hcp := coordsPresent_of_analyze_ok map data diag hd
  have hscale := scaleCoordinates_mapPos data diag.scaleFactor hcp
  have hswap := swapCoordinates_mapPos data hcp
  have hunf : parseGeoJSON map confirm data =
      (if diag.needsScaling then
        if confirm (.scaling diag.coordinateSystemType diag.maxAbsValue) then
          .ok { offered := some (.scaling diag.coordinateSystemType diag.maxAbsValue)
                applied := some (.scaleCoordinates diag.scaleFactor)
                data := data.mapPos (scalePosition diag.scaleFactor) }
        else
          .ok { offered := some (.scaling diag.coordinateSystemType diag.maxAbsValue)
                applied := none
                data := data }
      else if diag.needsSwapping then
        if confirm .swapping then
          .ok { offered := some .swapping, applied := some .swapCoordinates,
                data := data.mapPos swapPosition }
        else .ok { offered := some .swapping, applied := none, data := data }
      else .ok { offered := none, applied := none, data := data }) := by
    cases data with
    | other t => exact absurd rfl (hdoc t)
    | FeatureCollection fs => simp only [parseGeoJSON, hd, hscale, hswap]
    | Feature f => simp only [parseGeoJSON, hd, hscale, hswap]
  rw [hunf]
  by_cases h1 : diag.needsScaling = true
  · by_cases c1 : confirm (.scaling diag.coordinateSystemType diag.maxAbsValue) = true
    · rw [if_pos h1, if_pos c1]
      refine ⟨_, rfl, ?_, ?_, ?_, ?_⟩
      · intro _
        exact ⟨rfl, fun _ => ⟨rfl, hscale⟩, fun hc => by simp [c1] at hc⟩
      · intro hf; simp [h1] at hf
      · intro hf; simp [h1] at hf
      · intro hall; simp [hall] at c1
    · rw [if_pos h1, if_neg c1]
      refine ⟨_, rfl, ?_, ?_, ?_, ?_⟩
      · intro _
        exact ⟨rfl, fun hc => absurd hc c1, fun _ => ⟨rfl, rfl⟩⟩
      · intro hf; simp [h1] at hf
      · intro hf; simp [h1] at hf
      · intro _; exact ⟨rfl, rfl⟩
  · by_cases h2 : diag.needsSwapping = true
    · by_cases c2 : confirm .swapping = true
      · rw [if_neg h1, if_pos h2, if_pos c2]
        refine ⟨_, rfl, ?_, ?_, ?_, ?_⟩
        · intro hf; exact absurd hf h1
        · intro _ _
          exact ⟨rfl, fun _ => ⟨rfl, hswap⟩, fun hc => by simp [c2] at hc⟩
        · intro _ hf; simp [h2] at hf
        · intro hall; simp [hall] at c2
      · rw [if_neg h1, if_pos h2, if_neg c2]
        refine ⟨_, rfl, ?_, ?_, ?_, ?_⟩
        · intro hf; exact absurd hf h1
        · intro _ _
          exact ⟨rfl, fun hc => absurd hc c2, fun _ => ⟨rfl, rfl⟩⟩
        · intro _ hf; simp [h2] at hf
        · intro _; exact ⟨rfl, rfl⟩
    · rw [if_neg h1, if_neg h2]
      refine ⟨_, rfl, ?_, ?_, ?_, ?_⟩
      · intro hf; exact absurd hf h1
      · intro _ hf; exact absurd hf h2
      · intro _ _; exact ⟨rfl, rfl, rfl⟩
      · intro _; exact ⟨rfl, rfl⟩

/-- Claim C23 at the two Points `[200000, 5]` and `[3, 4]` with a user who accepts: the
record of the import shows the scaling offer and `scaleCoordinates` as the one transform
applied, with the suggested factor. -/
theorem parseGeoJSON_offer_precedence_docMeters :
    ∃ diag r, analyzeCoordinates none docMeters = .ok diag ∧ diag.needsScaling = true ∧
      parseGeoJSON none (fun _ => true) docMeters = .ok r ∧
      r.offered = some (.scaling diag.coordinateSystemType diag.maxAbsValue) ∧
      r.applied = some (.scaleCoordinates diag.scaleFactor) ∧
      scaleCoordinates docMeters diag.scaleFactor = .ok r.data := by
  have hs : collectSamples docMeters =
      .ok ([[JSVal.num (JSNum.fin 200000), JSVal.num (JSNum.fin 5)],
        [JSVal.num (JSNum.fin 3), JSVal.num (JSNum.fin 4)]].map some, 2) := rfl
  obtain ⟨b, hA⟩ := analyzeCoordinates_of_collect none docMeters _ 2 hs
  have hns : (diagnose none
      ([[JSVal.num (JSNum.fin 200000), JSVal.num (JSNum.fin 5)],
        [JSVal.num (JSNum.fin 3), JSVal.num (JSNum.fin 4)]].map some) 2
      (Counters.init.run ([[JSVal.num (JSNum.fin 200000), JSVal.num (JSNum.fin 5)],
        [JSVal.num (JSNum.fin 3), JSVal.num (JSNum.fin 4)]].take 20)) b).needsScaling = true := by
    simp [diagnose, Counters.run, Counters.init, List.take, analyzePair, elemAt,
      JSVal.toNumber, JSNum.abs, JSNum.gt, JSNum.lt, JSNum.max, JSNum.le, JSNum.isNaN]
    norm_num
    decide
  obtain ⟨r, hr, hscal, _⟩ := parseGeoJSON_offer_precedence none (fun _ => true) docMeters _
    (by intro t ht; cases ht) hA
  obtain ⟨ho, hyes, _⟩ := hscal hns
  obtain ⟨ha, hd⟩ := hyes rfl
  exact ⟨_, r, hA, hns, hr, ho, ha, hd⟩

/-- Claim C24: on the three Points `[80, 30]`, `[80, 30]` and `[200000, 0]`
`analyzeCoordinates` returns `needsScaling = true` and `needsSwapping = true` together: the
category is `projected_meters`, and two of the three samples are counted as possibly
swapped. -/
theorem analyzeCoordinates_both_flags (map : Option MapView) :
    ∃ diag, analyzeCoordinates map docBoth = .ok diag ∧
      diag.needsScaling = true ∧ diag.needsSwapping = true ∧
      diag.coordinateSystemType = "projected_meters" ∧
      diag.possibleSwapped = 2 ∧ diag.sampleCount = 3 := by
  have hs : collectSamples docBoth =
      .ok ([[JSVal.num (JSNum.fin 80), JSVal.num (JSNum.fin 30)],
        [JSVal.num (JSNum.fin 80), JSVal.num (JSNum.fin 30)],
        [JSVal.num (JSNum.fin 200000), JSVal.num (JSNum.fin 0)]].map some, 3) := rfl
  obtain ⟨b, hA⟩ := analyzeCoordinates_of_collect map docBoth _ 3 hs
  refine ⟨_, hA, ?_⟩
  simp [diagnose, Counters.run, Counters.init, List.take, analyzePair, elemAt,
    JSVal.toNumber, JSNum.abs, JSNum.gt, JSNum.lt, JSNum.max, JSNum.le, JSNum.isNaN]
  refine ⟨by decide, ?_⟩
  norm_num

/-- Claim C25 as stated fails: for the LineString `[[0, 0], [10, 0], [50, 0]]` the
representative point is the middle vertex `(10, 0)`, while the arithmetic mean of its
pairs, which `calculatePolygonCentroid` would return, is `(20, 0)`. -/
theorem featureLonLat_line_middle_vertex :
    featureLonLat (some (.LineString (some lineThree)))
      = .ok (JSVal.num (JSNum.fin 10), JSVal.num (JSNum.fin 0)) ∧
    meanPair [(0, 0), (10, 0), (50, 0)] = (20, 0) ∧
    calculatePolygonCentroid lineThree = [JSVal.num (JSNum.fin 20), JSVal.num (JSNum.fin 0)] := by
  refine ⟨rfl, ?_, ?_⟩
  · simp [meanPair]; norm_num
  · simp [calculatePolygonCentroid, lineThree, elemAt, JSVal.toNumber, JSNum.add, JSNum.div]
    norm_num

/-- Claim C25, amended: `calculatePolygonCentroid` returns the arithmetic mean of every
non-empty list of pairs of finite numbers; the representative point is that mean of the
first ring for a Polygon and of the first ring of the first polygon for a MultiPolygon;
for a LineString it is the vertex at index `floor(n / 2)` of the line, and for a
MultiLineString the vertex at that index of the first line. -/
theorem featureLonLat_representative (ring : List Position) (pairs : List (ℚ × ℚ))
    (h : List.Forall₂ (fun p ab => p.hasPair ab.1 ab.2) ring pairs) (hne : pairs ≠ []) :
    calculatePolygonCentroid ring
      = [JSVal.num (JSNum.fin (meanPair pairs).1), JSVal.num (JSNum.fin (meanPair pairs).2)] ∧
    (∀ rest, featureLonLat (some (.Polygon (some (ring :: rest))))
      = .ok (JSVal.num (JSNum.fin (meanPair pairs).1), JSVal.num (JSNum.fin (meanPair pairs).2))) ∧
    (∀ rest polygons, featureLonLat (some (.MultiPolygon (some ((ring :: rest) :: polygons))))
      = .ok (JSVal.num (JSNum.fin (meanPair pairs).1), JSVal.num (JSNum.fin (meanPair pairs).2))) ∧
    (∀ (line : List Position) (p : Position), line.get? (line.length / 2) = some p →
      featureLonLat (some (.LineString (some line))) = .ok (elemAt p 0, elemAt p 1)) ∧
    (∀ (line : List Position) (p : Position) rest, line.get? (line.length / 2) = some p →
      featureLonLat (some (.MultiLineString (some (line :: rest))))
        = .ok (elemAt p 0, elemAt p 1)) := by
  have hm := calculatePolygonCentroid_mean ring pairs h hne
  refine ⟨hm, ?_, ?_, ?_, ?_⟩
  · intro rest
    simp [featureLonLat, featureCentroid, hm, elemAt]
  · intro rest polygons
    simp [featureLonLat, featureCentroid, hm, elemAt]
  · intro line p hp
    simp only [featureLonLat, featureCentroid, hp]
  · intro line p rest hp
    simp only [featureLonLat, featureCentroid, List.head?_cons, hp]

/-- Claim C25, amended, at the closed ring `[[0,0],[4,0],[4,2],[0,2],[0,0]]`: the
centroid is the mean `(8/5, 4/5)` of its five pairs. -/
theorem featureLonLat_representative_ringFive :
    calculatePolygonCentroid ringFive
      = [JSVal.num (JSNum.fin (meanPair [(0, 0), (4, 0), (4, 2), (0, 2), (0, 0)]).1),
         JSVal.num (JSNum.fin (meanPair [(0, 0), (4, 0), (4, 2), (0, 2), (0, 0)]).2)] ∧
    meanPair [(0, 0), (4, 0), (4, 2), (0, 2), (0, 0)] = (8 / 5, 4 / 5) ∧
    featureLonLat (some (.Polygon (some [ringFive])))
      = .ok (JSVal.num (JSNum.fin (meanPair [(0, 0), (4, 0), (4, 2), (0, 2), (0, 0)]).1),
          JSVal.num (JSNum.fin (meanPair [(0, 0), (4, 0), (4, 2), (0, 2), (0, 0)]).2)) := by
  have hp : List.Forall₂ (fun (p : Position) (ab : ℚ × ℚ) => p.hasPair ab.1 ab.2) ringFive
      [(0, 0), (4, 0), (4, 2), (0, 2), (0, 0)] := by
    unfold ringFive
    repeat (refine List.Forall₂.cons ⟨[], rfl⟩ ?_)
    exact List.Forall₂.nil
  have h := featureLonLat_representative ringFive [(0, 0), (4, 0), (4, 2), (0, 2), (0, 0)] hp (by simp)
  refine ⟨h.1, ?_, h.2.1 []⟩
  simp [meanPair]; norm_num

/-- Claim C26: `analyzeCoordinates` never returns the category `projected_unknown`
together with `needsSwapping = true`: no analysed pair is counted both in `largeValues`
and in `possibleSwapped`, so the two counts cannot both exceed half the number of
collected samples. -/
theorem analyzeCoordinates_unknown_never_swapping (map : Option MapView) (d : GeoData) (diag : Diagnosis)
    (h : analyzeCoordinates map d = .ok diag) :
    ¬ (diag.coordinateSystemType = "projected_unknown" ∧ diag.needsSwapping = true) := by
  obtain ⟨samples, n, c, b, _, hc, _, rfl⟩ := analyzeCoordinates_parts map d diag h
  have hsum := analyze_fold_large_swapped _ Counters.init c hc
  have hlen : (samples.take 20).length ≤ samples.length := by
    rw [List.length_take]; exact Nat.min_le_right _ _
  have hsum2 : c.largeValues + c.possibleSwapped ≤ samples.length := by
    have h0 : Counters.init.largeValues + Counters.init.possibleSwapped = 0 := rfl
    omega
  have hq : ((c.largeValues : ℚ) + (c.possibleSwapped : ℚ)) ≤ (samples.length : ℚ) := by
    exact_mod_cast hsum2
  rintro ⟨ht, hsw⟩
  simp only [diagnose, decide_eq_true_eq] at ht hsw
  have hlarge : (c.largeValues : ℚ) > (samples.length : ℚ) * (1 / 2) := by
    by_contra hno
    split_ifs at ht <;> simp_all
  linarith

/-- Claim C26 at the two Points `[5000, 7000]` and `[2000, 3000]`: the category is
`projected_unknown`, and `needsSwapping` is false. -/
theorem analyzeCoordinates_unknown_never_swapping_docMedium :
    ∃ diag, analyzeCoordinates none docMedium = .ok diag ∧
      diag.coordinateSystemType = "projected_unknown" ∧ diag.needsSwapping = false := by
  obtain ⟨b, hA⟩ := analyzeCoordinates_of_collect none docMedium _ 2 docMedium_collect
  have hno := analyzeCoordinates_unknown_never_swapping none docMedium _ hA
  have ht : (diagnose none
      ([[JSVal.num (JSNum.fin 5000), JSVal.num (JSNum.fin 7000)],
        [JSVal.num (JSNum.fin 2000), JSVal.num (JSNum.fin 3000)]].map some) 2
      (Counters.init.run ([[JSVal.num (JSNum.fin 5000), JSVal.num (JSNum.fin 7000)],
        [JSVal.num (JSNum.fin 2000), JSVal.num (JSNum.fin 3000)]].take 20))
      b).coordinateSystemType = "projected_unknown" := by
    simp [diagnose, Counters.run, Counters.init, List.take, analyzePair, elemAt,
      JSVal.toNumber, JSNum.abs, JSNum.gt, JSNum.lt, JSNum.max, JSNum.le, JSNum.isNaN]
    norm_num
  refine ⟨_, hA, ht, ?_⟩
  rw [not_and] at hno
  exact Bool.eq_false_iff.mpr (hno ht)

/-- Claim C27: for every document on which `analyzeCoordinates` returns
`needsSwapping = true`, `swapCoordinates` returns a document on which `analyzeCoordinates`
returns `needsSwapping = false`, under any state of the module variable `map`. -/
theorem swapCoordinates_settles (map map1 : Option MapView) (d : GeoData) (diag : Diagnosis)
    (h : analyzeCoordinates map d = .ok diag) (hsw : diag.needsSwapping = true) :
    ∃ d1 diag1, swapCoordinates d = .ok d1 ∧ analyzeCoordinates map1 d1 = .ok diag1 ∧
      diag1.needsSwapping = false := by
  have hcp := coordsPresent_of_analyze_ok map d diag h
  obtain ⟨b, hb⟩ := analyzeCoordinates_ok map d hcp
  rw [hb] at h
  injection h with h
  subst h
  obtain ⟨b1, hb1⟩ := analyzeCoordinates_ok map1 (d.mapPos swapPosition)
    (coordsPresent_mapPos swapPosition d hcp)
  refine ⟨_, _, swapCoordinates_mapPos d hcp, hb1, ?_⟩
  rw [geoData_samples_mapPos] at *
  have hex := run_swap_exclusive (d.samples.take 20) Counters.init Counters.init
  rw [List.map_take] at hex
  have hlen : (d.samples.take 20).length ≤ d.samples.length := by
    rw [List.length_take]; exact Nat.min_le_right _ _
  have h0 : Counters.init.possibleSwapped = 0 := rfl
  have hsum : (Counters.init.run (d.samples.take 20)).possibleSwapped
      + (Counters.init.run ((d.samples.map swapPosition).take 20)).possibleSwapped
        ≤ d.samples.length := by omega
  have hq : (((Counters.init.run (d.samples.take 20)).possibleSwapped : ℚ)
      + ((Counters.init.run ((d.samples.map swapPosition).take 20)).possibleSwapped : ℚ))
        ≤ (d.samples.length : ℚ) := by exact_mod_cast hsum
  simp only [diagnose, decide_eq_true_eq, List.length_map] at hsw
  simp only [diagnose, decide_eq_false_iff_not, List.length_map, not_lt, gt_iff_lt]
  linarith

/-- Claim C27 at the single Point `[80, 30]`: the flag is raised on the document and is
not raised on the swapped document. -/
theorem swapCoordinates_settles_docEast :
    ∃ diag, analyzeCoordinates none docEast = .ok diag ∧ diag.needsSwapping = true ∧
      ∃ d1 diag1, swapCoordinates docEast = .ok d1 ∧ analyzeCoordinates none d1 = .ok diag1 ∧
        diag1.needsSwapping = false := by
  obtain ⟨b, hA⟩ := analyzeCoordinates_of_collect none docEast _ 1 docEast_collect
  have hsw : (diagnose none ([[JSVal.num (JSNum.fin 80), JSVal.num (JSNum.fin 30)]].map some) 1
      (Counters.init.run ([[JSVal.num (JSNum.fin 80), JSVal.num (JSNum.fin 30)]].take 20))
      b).needsSwapping = true := by
    simp [diagnose, Counters.run, Counters.init, List.take, analyzePair, elemAt,
      JSVal.toNumber, JSNum.abs, JSNum.gt, JSNum.lt, JSNum.max, JSNum.le, JSNum.isNaN]
    norm_num
  exact ⟨_, hA, hsw, swapCoordinates_settles none none docEast _ hA hsw⟩

/-- Claim C28: over exact arithmetic, for every document on which `analyzeCoordinates`
returns `needsScaling = true` with a finite `maxAbsValue` of at most 1000000,
`scaleCoordinates` with the suggested factor returns a document on which
`analyzeCoordinates` returns the category `geographic` and `needsScaling = false`. -/
theorem scaleCoordinates_settles (map map1 : Option MapView) (d : GeoData) (diag : Diagnosis) (m : ℚ)
    (h : analyzeCoordinates map d = .ok diag) (hsc : diag.needsScaling = true)
    (hm : diag.maxAbsValue = JSNum.fin m) (hle : m ≤ 1000000) :
    ∃ d1 diag1, scaleCoordinates d diag.scaleFactor = .ok d1 ∧
      analyzeCoordinates map1 d1 = .ok diag1 ∧
      diag1.coordinateSystemType = "geographic" ∧ diag1.needsScaling = false := by
  have hcp := coordsPresent_of_analyze_ok map d diag h
  obtain ⟨b, hb⟩ := analyzeCoordinates_ok map d hcp
  rw [hb] at h
  injection h with h
  subst h
  have hm1 : (Counters.init.run (d.samples.take 20)).maxAbsValue = JSNum.fin m := hm
  obtain ⟨_, hall⟩ := run_max_fin_inv _ _ _ hm1
  -- the suggested factor is finite and brings every analysed component to at most 1000
  have hf : ∃ f : ℚ, (diagnose map (d.samples.map some) d.geometries.length
      (Counters.init.run (d.samples.take 20)) b).scaleFactor = JSNum.fin f ∧
      ∀ p ∈ d.samples.take 20, ∃ a b, p.reads a b ∧ |a * f| ≤ 1000 ∧ |b * f| ≤ 1000 := by
    by_cases hv : (Counters.init.run (d.samples.take 20)).veryLargeValues > 0
    · have hbig : 100000 < m := by
        by_contra hno
        have hno1 : m ≤ 100000 := not_lt.mp hno
        have hz := run_veryLarge_bounded (d.samples.take 20) Counters.init
          (fun p hp => by
            obtain ⟨a, b, hab, ha, hb⟩ := hall p hp
            exact ⟨a, b, hab, le_trans ha hno1, le_trans hb hno1⟩)
        rw [hz] at hv
        exact absurd hv (by decide)
      refine ⟨1 / 1000000, ?_, ?_⟩
      · simp only [diagnose, hv, if_true, hm1, JSNum.gt, JSNum.lt, decide_eq_true_eq,
          not_lt.mpr hle, hbig, if_false]
      · intro p hp
        obtain ⟨a, b, hab, ha, hb⟩ := hall p hp
        refine ⟨a, b, hab, ?_, ?_⟩
        · rw [abs_mul]
          have : |(1 / 1000000 : ℚ)| = 1 / 1000000 := by norm_num [abs_of_pos]
          rw [this]
          linarith
        · rw [abs_mul]
          have : |(1 / 1000000 : ℚ)| = 1 / 1000000 := by norm_num [abs_of_pos]
          rw [this]
          linarith
    · have hv0 : (Counters.init.run (d.samples.take 20)).veryLargeValues = 0 := by omega
      have hlarge : ((Counters.init.run (d.samples.take 20)).largeValues : ℚ)
          > ((d.samples.map some).length : ℚ) * (1 / 2) := by
        by_contra hno
        simp only [List.length_map] at hno
        simp only [diagnose, hv0, gt_iff_lt, lt_irrefl, if_false, List.length_map, if_neg hno,
          ne_eq, not_true_eq_false, decide_False, Bool.false_eq_true] at hsc
      refine ⟨1 / 100, ?_, ?_⟩
      · simp only [diagnose, hv, if_false, hlarge, if_true]
      · intro p hp
        obtain ⟨a, b, hab, _, _⟩ := hall p hp
        have hsmall : ¬ (100000 < |a| ∨ 100000 < |b|) := by
          intro hbig
          have := run_veryLarge_pos_reads (d.samples.take 20) Counters.init p hp a b hab hbig
          rw [hv0] at this
          exact absurd this (Nat.not_lt_zero _)
        rw [not_or, not_lt, not_lt] at hsmall
        refine ⟨a, b, hab, ?_, ?_⟩
        · rw [abs_mul]
          have : |(1 / 100 : ℚ)| = 1 / 100 := by norm_num [abs_of_pos]
          rw [this]
          linarith [hsmall.1]
        · rw [abs_mul]
          have : |(1 / 100 : ℚ)| = 1 / 100 := by norm_num [abs_of_pos]
          rw [this]
          linarith [hsmall.2]
  obtain ⟨f, hsf, hscaled⟩ := hf
  rw [hsf]
  obtain ⟨b1, hb1⟩ := analyzeCoordinates_ok map1 (d.mapPos (scalePosition (JSNum.fin f)))
    (coordsPresent_mapPos _ d hcp)
  refine ⟨_, _, scaleCoordinates_mapPos d _ hcp, hb1, ?_⟩
  rw [geoData_samples_mapPos, ← List.map_take]
  have hlv := run_small ((d.samples.take 20).map (scalePosition (JSNum.fin f))) Counters.init
    (fun q hq => by
      obtain ⟨p, hp, rfl⟩ := List.mem_map.mp hq
      obtain ⟨a, b, hab, ha, hb⟩ := hscaled p hp
      exact ⟨a * f, b * f, scalePosition_hasPair f p a b hab, ha, hb⟩)
  have hl : (Counters.init.run ((d.samples.take 20).map
      (scalePosition (JSNum.fin f)))).largeValues = 0 := hlv.1
  have hv : (Counters.init.run ((d.samples.take 20).map
      (scalePosition (JSNum.fin f)))).veryLargeValues = 0 := hlv.2
  have hhalf : (0 : ℚ) ≤ (d.samples.length : ℚ) * (1 / 2) := by positivity
  constructor
  · simp only [diagnose, hl, hv, List.length_map, Nat.cast_zero, gt_iff_lt, lt_irrefl,
      if_false, not_lt.mpr hhalf]
  · simp only [diagnose, hl, hv, List.length_map, Nat.cast_zero, gt_iff_lt, lt_irrefl,
      if_false, not_lt.mpr hhalf, ne_eq, not_true_eq_false, decide_False]

/-- Claim C28 at the two Points `[5000, 7000]` and `[2000, 3000]`: scaling is suggested
with `maxAbsValue` 7000, and the scaled document is diagnosed as `geographic`. -/
theorem scaleCoordinates_settles_docMedium :
    ∃ diag, analyzeCoordinates none docMedium = .ok diag ∧ diag.needsScaling = true ∧
      diag.maxAbsValue = JSNum.fin 7000 ∧
      ∃ d1 diag1, scaleCoordinates docMedium diag.scaleFactor = .ok d1 ∧
        analyzeCoordinates none d1 = .ok diag1 ∧
        diag1.coordinateSystemType = "geographic" ∧ diag1.needsScaling = false := by
  obtain ⟨b, hA⟩ := analyzeCoordinates_of_collect none docMedium _ 2 docMedium_collect
  have hsc : (diagnose none
      ([[JSVal.num (JSNum.fin 5000), JSVal.num (JSNum.fin 7000)],
        [JSVal.num (JSNum.fin 2000), JSVal.num (JSNum.fin 3000)]].map some) 2
      (Counters.init.run ([[JSVal.num (JSNum.fin 5000), JSVal.num (JSNum.fin 7000)],
        [JSVal.num (JSNum.fin 2000), JSVal.num (JSNum.fin 3000)]].take 20))
      b).needsScaling = true := by
    simp [diagnose, Counters.run, Counters.init, List.take, analyzePair, elemAt,
      JSVal.toNumber, JSNum.abs, JSNum.gt, JSNum.lt, JSNum.max, JSNum.le, JSNum.isNaN]
    norm_num
    decide
  have hm : (diagnose none
      ([[JSVal.num (JSNum.fin 5000), JSVal.num (JSNum.fin 7000)],
        [JSVal.num (JSNum.fin 2000), JSVal.num (JSNum.fin 3000)]].map some) 2
      (Counters.init.run ([[JSVal.num (JSNum.fin 5000), JSVal.num (JSNum.fin 7000)],
        [JSVal.num (JSNum.fin 2000), JSVal.num (JSNum.fin 3000)]].take 20))
      b).maxAbsValue = JSNum.fin 7000 := by
    simp [diagnose, Counters.run, Counters.init, List.take, analyzePair, elemAt,
      JSVal.toNumber, JSNum.abs, jsnum_max_fin]
    norm_num
  exact ⟨_, hA, hsc, hm,
    scaleCoordinates_settles none none docMedium _ 7000 hA hsc hm (by norm_num)⟩

/-- Claim C29: on a document whose geometries have their coordinates,
`scaleCoordinates` and `swapCoordinates` return a document that differs from the input in
its positions only: with every position blanked the two documents are equal (same
features in the same order, same properties and other members, same geometry types, same
numbers of polygons, rings, lines and positions), and every position of the result has
exactly two components. -/
theorem transforms_change_coordinates_only (d : GeoData) (s : JSNum) (hd : d.coordsPresent) :
    ∃ scaled swapped, scaleCoordinates d s = .ok scaled ∧ swapCoordinates d = .ok swapped ∧
      scaled.skeleton = d.skeleton ∧ swapped.skeleton = d.skeleton ∧
      scaled.featureList.map (fun f => f.properties)
        = d.featureList.map (fun f => f.properties) ∧
      swapped.featureList.map (fun f => f.properties)
        = d.featureList.map (fun f => f.properties) ∧
      scaled.positions.length = d.positions.length ∧
      swapped.positions.length = d.positions.length ∧
      (∀ p ∈ scaled.positions, p.length = 2) ∧ (∀ p ∈ swapped.positions, p.length = 2) := by
  refine ⟨_, _, scaleCoordinates_mapPos d s hd, swapCoordinates_mapPos d hd,
    geoData_mapPos_skeleton _ d, geoData_mapPos_skeleton _ d,
    geoData_mapPos_properties _ d, geoData_mapPos_properties _ d, ?_, ?_, ?_, ?_⟩
  · rw [geoData_positions_mapPos, List.length_map]
  · rw [geoData_positions_mapPos, List.length_map]
  · intro p hp
    rw [geoData_positions_mapPos] at hp
    obtain ⟨q, _, rfl⟩ := List.mem_map.mp hp
    rfl
  · intro p hp
    rw [geoData_positions_mapPos] at hp
    obtain ⟨q, _, rfl⟩ := List.mem_map.mp hp
    rfl

/-- Claim C29 at the Point with an altitude, `[1, 2, 3]`, and the factor 2: the position
has three components before the calls and two after; `scaleCoordinates` leaves `[2, 4]`
and `swapCoordinates` leaves `[2, 1]`. -/
theorem transforms_change_coordinates_only_docAltitude :
    (∀ p ∈ docAltitude.positions, p.length = 3) ∧
    scaleCoordinates docAltitude (JSNum.fin 2)
      = .ok (docPoint [JSVal.num (JSNum.fin 2), JSVal.num (JSNum.fin 4)]) ∧
    swapCoordinates docAltitude
      = .ok (docPoint [JSVal.num (JSNum.fin 2), JSVal.num (JSNum.fin 1)]) ∧
    ∃ scaled swapped, scaleCoordinates docAltitude (JSNum.fin 2) = .ok scaled ∧
      swapCoordinates docAltitude = .ok swapped ∧
      scaled.skeleton = docAltitude.skeleton ∧ swapped.skeleton = docAltitude.skeleton ∧
      (∀ p ∈ scaled.positions, p.length = 2) ∧ (∀ p ∈ swapped.positions, p.length = 2) := by
  obtain ⟨scaled, swapped, h1, h2, h3, h4, _, _, _, _, h9, h10⟩ :=
    transforms_change_coordinates_only docAltitude (JSNum.fin 2) docAltitude_coordsPresent
  refine ⟨?_, ?_, rfl, scaled, swapped, h1, h2, h3, h4, h9, h10⟩
  · intro p hp
    simp [docAltitude, GeoData.positions, GeoData.geometries, GeoData.featureList,
      Geometry.positions] at hp
    subst hp
    rfl
  · simp [scaleCoordinates, traverseGeometries, traverseFeature, scaleGeometryCoords,
      scalePosition, elemAt, JSVal.toNumber, JSNum.mul, docAltitude, docPoint]
    norm_num

/-- Claim C30: for a first row with the single column `State`, `autoMapColumns` maps
both `location` and `status` to `State`, so the mapping is not injective; and for every
input, every value of the mapping that is not `none` is the name of a column of the first
row. -/
theorem autoMapColumns_not_injective :
    (autoMapColumns [rowState] SemKey.location = some "State" ∧
     autoMapColumns [rowState] SemKey.status = some "State" ∧
     SemKey.location ≠ SemKey.status) ∧
    (∀ rows k c, autoMapColumns rows k = some c → c ∈ objectKeys (rows.head?.getD [])) := by
  refine ⟨⟨by decide, by decide, by decide⟩, ?_⟩
  intro rows k c h
  cases rows with
  | nil =>
    have hnone : autoMapColumns [] k = none := by cases k <;> rfl
    rw [hnone] at h
    cases h
  | cons r rest =>
    rw [autoMapColumns_cons_find] at h
    simpa using List.mem_of_find?_eq_some h

end InfrasWebGIS
